import Mathlib

/-!
# Frame orchestration of the Spire engine: a shallow embedding

The definitions below transcribe `GameEngineCore/Renderer.cpp`,
`GameEngineCore/RenderContext.h` and `GameEngineCore/Engine.cpp`.

Conventions of the embedding.

* Objects reached through pointers (render procedures, fences, windows) are
  identified by a natural number; a null pointer is `none`.
* A component records, in a log, the calls it makes on its collaborators
  (hardware renderer, render procedures, fences, UI system); the order of
  the log is program order.
* `int` values are mathematical integers (signed overflow is undefined in
  C++ and is not modelled), except where a shift or an `unsigned` counter
  makes the width visible; those places reduce modulo `2 ^ 32` explicitly.
* Floating point timing data is left out of the state.
-/

namespace GameEngine

/-! ## CoreLib containers -/

/-- An insertion-ordered dictionary, as `CoreLib::EnumerableDictionary`:
the entries in insertion order, at most one entry per key. -/
abbrev EnumerableDictionary (κ ν : Type) := List (κ × ν)

namespace EnumerableDictionary

variable {κ ν : Type} [DecidableEq κ]

/-- `TryGetValue(key, value)`: the value stored under `key`, if any. -/
def TryGetValue (d : EnumerableDictionary κ ν) (key : κ) : Option ν :=
  match d with
  | [] => none
  | (k, v) :: rest => if k = key then some v else TryGetValue rest key

/-- `Count()`. -/
def Count (d : EnumerableDictionary κ ν) : Int := (d.length : Int)

/-- `dict[key] = value`: overwrite the entry of `key`, or append a new one. -/
def set (d : EnumerableDictionary κ ν) (key : κ) (value : ν) : EnumerableDictionary κ ν :=
  match d with
  | [] => [(key, value)]
  | (k, v) :: rest => if k = key then (k, value) :: rest else (k, v) :: set rest key value

/-- `Add(key, value)`: fails (throws in the source) when the key is present. -/
def Add (d : EnumerableDictionary κ ν) (key : κ) (value : ν) : Option (EnumerableDictionary κ ν) :=
  match TryGetValue d key with
  | some _ => none
  | none => some (d ++ [(key, value)])

end EnumerableDictionary

/-! ## Data of the renderer -/

/-- `RenderStat` of RenderContext.h, integer fields only. The counters other
than `Divisor` are also written by the render tasks that a procedure runs;
those writes happen outside the renderer and are not modelled. -/
structure RenderStat where
  Divisor : Int := 0
  NumDrawCalls : Int := 0
  NumPasses : Int := 0
  NumShaders : Int := 0
  NumMaterials : Int := 0
  deriving DecidableEq, Repr

/-- `RenderStat::Clear`. -/
def RenderStat.Clear (_s : RenderStat) : RenderStat :=
  { Divisor := 0, NumDrawCalls := 0, NumPasses := 0, NumShaders := 0, NumMaterials := 0 }

/-- A render procedure object: its address and the name `GetName()` returns. -/
structure IRenderProcedure where
  ptr : Nat
  name : String
  deriving DecidableEq, Repr

/-- A point of `VectorMath::Vec3`; coordinates are rationals, which hold
every finite float exactly. -/
structure Vec3 where
  x : ℚ
  y : ℚ
  z : ℚ
  deriving DecidableEq

/-- Modelled from the spec: `EngineActorType` is declared in Actor.h, which
is not among the sources; the enumerators are the ones the sources test for
(`Light`, `Atmosphere`, `EnvMap`) and one that stands for all the others. -/
inductive EngineActorType where
  | Drawable
  | Light
  | EnvMap
  | Atmosphere
  deriving DecidableEq, Repr

/-- Modelled from the spec: `LightType` is declared in LightActor.h, which is
not among the sources; the sources test for `Directional` only, and the spec
names point and spot lights beside it (`GpuLightType_Point`, `GpuLightType_Spot`). -/
inductive LightType where
  | Point
  | Directional
  | Spot
  deriving DecidableEq, Repr

/-- What the renderer and the render procedures read of an actor:
`GetEngineType()`; for an environment-map actor `GetEnvMapId()` and
`GetPosition()`; for a light actor `lightType`, and for a directional light
`EnableCascadedShadows`, `NumShadowCascades`, `Color` and `Direction`. -/
structure Actor where
  engineType : EngineActorType
  envMapId : Int
  position : Vec3
  lightType : LightType := LightType.Point
  EnableCascadedShadows : Bool := false
  NumShadowCascades : Int := 0
  Color : Vec3 := ⟨0, 0, 0⟩
  Direction : Vec3 := ⟨0, 0, 0⟩
  deriving DecidableEq

/-- One lightmap of a `LightmapSet`: the dimensions the renderer checks. -/
structure RawObjectSpaceMap where
  Width : Int
  Height : Int
  deriving DecidableEq, Repr

/-- A `LightmapSet` as loaded from a lightmap file: the actor-to-lightmap
mapping (one entry per mapped actor) and the lightmaps. -/
structure LightmapSet where
  ActorLightmapIds : List (Nat × Int)
  Lightmaps : List RawObjectSpaceMap
  deriving DecidableEq, Repr

/-- A `DeviceLightmapSet` after `Init(hardwareRenderer, lightmapSet)`. -/
structure DeviceLightmapSet where
  source : LightmapSet
  deriving DecidableEq, Repr

/-- What the renderer reads of a `Level`. -/
structure Level where
  Actors : List Actor
  hasCamera : Bool
  LightmapFileName : String
  FileName : String
  deriving DecidableEq

/-- The calls `RendererImpl` makes on its collaborators. -/
inductive RenderCall where
  /-- `hardwareRenderer->Wait()` -/
  | hwWait
  /-- `proc->Init(this, viewRes)` -/
  | procInit (proc : Nat)
  /-- `proc->Run(params)` -/
  | procRun (proc : Nat)
  /-- `proc->UpdateSharedResourceBinding()` -/
  | updateSharedResourceBinding (proc : Nat)
  /-- `proc->UpdateSceneResourceBinding(sceneRes)` -/
  | updateSceneResourceBinding (proc : Nat)
  /-- `lpRenderer.RenderLightProbe(envMapArray, envMapId, level, position)` -/
  | renderLightProbe (envMapId : Int) (position : Vec3)
  /-- `deviceLightmapSet->Init(hardwareRenderer, lightmapSet)` -/
  | lightmapInit
  /-- `sceneRes->Clear()` -/
  | sceneClear
  /-- `mainView->Resize(w, h)` -/
  | viewResize (w h : Int)
  deriving DecidableEq

/-- The fields of `RendererSharedResource` the orchestration reads or writes. -/
structure RendererSharedResource where
  envMapAllocPtr : Int := 0
  renderStats : RenderStat := {}
  deriving DecidableEq

/-- The fields of `SceneResource` the orchestration reads or writes. -/
structure SceneResource where
  deviceLightmapSet : Option DeviceLightmapSet := none
  deriving DecidableEq

/-- The state of `RendererImpl` (Renderer.cpp, lines 106-122), with the
function-local `static int frameId` of `RenderFrame` and the call log. -/
structure RendererImpl where
  sharedRes : RendererSharedResource := {}
  sceneRes : SceneResource := {}
  currentRenderProcedure : Option IRenderProcedure := none
  lightProbeRenderProcedure : Option IRenderProcedure := none
  worldRenderPassIds : EnumerableDictionary Nat Int := []
  renderProcedureNames : List String := []
  renderProcedures : EnumerableDictionary String IRenderProcedure := []
  level : Option Level := none
  defaultEnvMapId : Int := -1
  frameId : Int := 0
  log : List RenderCall := []
  deriving DecidableEq

/-! ## Integer helpers -/

/-- The value of a 32-bit two's complement `int` holding `x` modulo `2 ^ 32`. -/
def wrapInt32 (x : Int) : Int := (x + 2 ^ 31) % 2 ^ 32 - 2 ^ 31

/-- The expression `1 << k` on `int`: the bit pattern `2 ^ k` modulo `2 ^ 32`,
read as a signed value. -/
def shiftLeftOne (k : Nat) : Int := wrapInt32 (2 ^ k)

/-- Modelled from the spec: `Math::Log2Ceil` is CoreLib code that is not among
the sources. It is the ceiling of the base-2 logarithm, that is the least `k`
with `val ≤ 2 ^ k`; for `val ≤ 1` (zero and negative values included) that
least `k` is 0. For a 32-bit value it is the number of powers of two among
`2 ^ 0 .. 2 ^ 31` that lie strictly below `val`, which is how it is computed. -/
def Log2Ceil (val : Int) : Nat :=
  ((List.range 32).filter (fun k => decide ((2 : Int) ^ k < val))).length

/-- The rejection test of one lightmap in `TryLoadLightmap` (Renderer.cpp,
line 299): `lm.Width != lm.Height || (1 << Math::Log2Ceil(lm.Width)) != lm.Width`. -/
def lightmapRejected (lm : RawObjectSpaceMap) : Bool :=
  lm.Width != lm.Height || shiftLeftOne (Log2Ceil lm.Width) != lm.Width

/-! ## Operations of the renderer -/

/-- What the renderer asks of the engine and the file system while it loads a
lightmap: `Engine::FindFile(name, ResourceType::Level)` (empty when the file
is not found), `Path::ReplaceExt(fileName, "lightmap")`, and the content
`LightmapSet::LoadFromFile` reads from a file. `MaxEnvMapCount` is a constant
declared outside the sources. -/
structure RendererEnv where
  FindFile : String → String
  ReplaceExt : String → String
  LoadFromFile : String → LightmapSet
  MaxEnvMapCount : Int

namespace RendererSharedResource

/-- `RendererSharedResource::AllocEnvMap` (RenderContext.h, lines 160-166):
the id returned and the shared resource afterwards. -/
def AllocEnvMap (MaxEnvMapCount : Int) (sr : RendererSharedResource) :
    Int × RendererSharedResource :=
  if sr.envMapAllocPtr < MaxEnvMapCount then
    (sr.envMapAllocPtr, { sr with envMapAllocPtr := sr.envMapAllocPtr + 1 })
  else
    (-1, sr)

/-- `RendererSharedResource::ResetEnvMapAllocation` (RenderContext.h, lines 167-170). -/
def ResetEnvMapAllocation (sr : RendererSharedResource) : RendererSharedResource :=
  { sr with envMapAllocPtr := 0 }

end RendererSharedResource

namespace RendererImpl

/-- Append a call to the log. -/
def emit (c : RenderCall) (r : RendererImpl) : RendererImpl :=
  { r with log := r.log ++ [c] }

/-- `RendererImpl::RegisterRenderProcedure` (Renderer.cpp, lines 124-132);
`none` when `renderProcedures.Add` finds the name already registered. -/
def RegisterRenderProcedure (r : RendererImpl) (proc : IRenderProcedure) : Option RendererImpl :=
  let name := proc.name
  match r.renderProcedures.Add name proc with
  | none => none
  | some procs =>
    let r := { r with renderProcedures := procs,
                      renderProcedureNames := r.renderProcedureNames ++ [name] }
    let r := if r.currentRenderProcedure = none then
        { r with currentRenderProcedure := some proc } else r
    some (emit (.procInit proc.ptr) r)

/-- The constructor `RendererImpl::RendererImpl` (Renderer.cpp, lines 154-196),
as far as the procedures go: it sizes the main view, registers the standard
procedure, the lightmap debug view procedure and the light probe procedure,
in this order, and ends with `hardwareRenderer->Wait()`. The three procedures
are created by functions outside the sources and are parameters here. -/
def create (standard lightmapDebug lightProbe : IRenderProcedure) : Option RendererImpl :=
  let r : RendererImpl := {}
  let r := emit (.viewResize 1024 1024) r
  match RegisterRenderProcedure r standard with
  | none => none
  | some r =>
    match RegisterRenderProcedure r lightmapDebug with
    | none => none
    | some r =>
      let r := { r with lightProbeRenderProcedure := some lightProbe }
      match RegisterRenderProcedure r lightProbe with
      | none => none
      | some r => some (emit .hwWait r)

/-- `RendererImpl::SetDebugView` (Renderer.cpp, lines 213-218): `proc` starts
as a null `RefPtr`, and `TryGetValue` leaves it alone when the name is unknown. -/
def SetDebugView (r : RendererImpl) (viewName : String) : RendererImpl :=
  let proc : Option IRenderProcedure := none
  let proc := match r.renderProcedures.TryGetValue viewName with
    | some p => some p
    | none => proc
  { r with currentRenderProcedure := proc }

/-- `RendererImpl::Wait` (Renderer.cpp, lines 219-222). -/
def Wait (r : RendererImpl) : RendererImpl := emit .hwWait r

/-- `RendererImpl::RunRenderProcedure` (Renderer.cpp, lines 133-150). The
parameters handed to `Run` are not recorded. -/
def RunRenderProcedure (r : RendererImpl) : RendererImpl :=
  match r.level with
  | none => r
  | some _ =>
    match r.currentRenderProcedure with
    | some proc => emit (.procRun proc.ptr) r
    | none => r

/-- `RendererImpl::RenderFrame` (Renderer.cpp, lines 338-348). -/
def RenderFrame (r : RendererImpl) : RendererImpl :=
  match r.level with
  | none => r
  | some _ =>
    let r := { r with frameId := r.frameId + 1 }
    let r := { r with sharedRes := { r.sharedRes with renderStats :=
      { r.sharedRes.renderStats with Divisor := r.sharedRes.renderStats.Divisor + 1 } } }
    let r := { r with sharedRes := { r.sharedRes with renderStats :=
      { r.sharedRes.renderStats with NumMaterials := 0 } } }
    let r := { r with sharedRes := { r.sharedRes with renderStats :=
      { r.sharedRes.renderStats with NumShaders := 0 } } }
    RunRenderProcedure r

/-- The loop over `level->Actors` in `UpdateLightProbes` (Renderer.cpp, lines
264-273): the renderer and `lightProbeCount` after the actors in `actors`. -/
def UpdateLightProbes.loop (actors : List Actor) (r : RendererImpl) (lightProbeCount : Int) :
    RendererImpl × Int :=
  match actors with
  | [] => (r, lightProbeCount)
  | actor :: rest =>
    if actor.engineType = EngineActorType.EnvMap then
      let r := if actor.envMapId ≠ -1 then
          emit (.renderLightProbe actor.envMapId actor.position) r else r
      UpdateLightProbes.loop rest r (lightProbeCount + 1)
    else
      UpdateLightProbes.loop rest r lightProbeCount

/-- `RendererImpl::UpdateLightProbes` (Renderer.cpp, lines 259-280). -/
def UpdateLightProbes (env : RendererEnv) (r : RendererImpl) : RendererImpl :=
  match r.level with
  | none => r
  | some level =>
    let (r, lightProbeCount) := UpdateLightProbes.loop level.Actors r 0
    if lightProbeCount = 0 then
      let r := if r.defaultEnvMapId = -1 then
          let a := r.sharedRes.AllocEnvMap env.MaxEnvMapCount
          { r with defaultEnvMapId := a.1, sharedRes := a.2 }
        else r
      emit (.renderLightProbe r.defaultEnvMapId ⟨0, 1000, 0⟩) r
    else r

/-- The name of the lightmap file `TryLoadLightmap` settles on (Renderer.cpp,
lines 283-287); empty when there is none. -/
def lightmapFileOf (env : RendererEnv) (level : Level) : String :=
  let lightmapFile := level.LightmapFileName
  let lightmapFile := if lightmapFile.length ≠ 0 then env.FindFile lightmapFile else lightmapFile
  if lightmapFile.length = 0 then env.FindFile (env.ReplaceExt level.FileName) else lightmapFile

/-- `RendererImpl::TryLoadLightmap` (Renderer.cpp, lines 281-305). Its only
caller has just stored a non-null `level`; on a null `level` the source
dereferences a null pointer and the model leaves the renderer as it is. -/
def TryLoadLightmap (env : RendererEnv) (r : RendererImpl) : RendererImpl :=
  match r.level with
  | none => r
  | some level =>
    let lightmapFile := lightmapFileOf env level
    let r := { r with sceneRes := { r.sceneRes with deviceLightmapSet := none } }
    if lightmapFile.length ≠ 0 then
      let lightmapSet := env.LoadFromFile lightmapFile
      if lightmapSet.ActorLightmapIds.length ≠ lightmapSet.Lightmaps.length then
        r
      else if lightmapSet.Lightmaps.any lightmapRejected then
        r
      else
        let r := { r with sceneRes := { r.sceneRes with
          deviceLightmapSet := some { source := lightmapSet } } }
        emit .lightmapInit r
    else r

/-- The loop over `renderProcedures` in `InitializeLevel` (Renderer.cpp, lines
313-317), in the order of registration. -/
def InitializeLevel.rebind (procs : List (String × IRenderProcedure)) (r : RendererImpl) :
    RendererImpl :=
  match procs with
  | [] => r
  | proc :: rest =>
    let r := emit (.updateSharedResourceBinding proc.2.ptr) r
    let r := emit (.updateSceneResourceBinding proc.2.ptr) r
    InitializeLevel.rebind rest r

/-- `RendererImpl::InitializeLevel` (Renderer.cpp, lines 306-323). -/
def InitializeLevel (env : RendererEnv) (r : RendererImpl) (pLevel : Option Level) :
    RendererImpl :=
  match pLevel with
  | none => r
  | some pLevel =>
    let r := { r with level := some pLevel }
    let r := TryLoadLightmap env r
    let r := { r with defaultEnvMapId := -1 }
    let r := InitializeLevel.rebind r.renderProcedures r
    let r := UpdateLightProbes env r
    let r := RunRenderProcedure r
    let r := RenderFrame r
    let r := Wait r
    { r with sharedRes := { r.sharedRes with renderStats := r.sharedRes.renderStats.Clear } }

/-- `RendererImpl::UpdateLightmap` (Renderer.cpp, lines 247-257). -/
def UpdateLightmap (r : RendererImpl) (lightmapSet : LightmapSet) : RendererImpl :=
  match r.level with
  | none => r
  | some _ =>
    let r := Wait r
    let r := { r with sceneRes := { r.sceneRes with
      deviceLightmapSet := some { source := lightmapSet } } }
    let r := emit .lightmapInit r
    r.renderProcedures.foldl (fun r proc => emit (.updateSceneResourceBinding proc.2.ptr) r) r

/-- `RendererImpl::Resize` (Renderer.cpp, lines 357-362). -/
def Resize (r : RendererImpl) (w h : Int) : RendererImpl :=
  Wait (emit (.viewResize w h) (Wait r))

/-- `RendererImpl::DestroyContext` (Renderer.cpp, lines 369-373). -/
def DestroyContext (r : RendererImpl) : RendererImpl :=
  let r := { r with sharedRes := r.sharedRes.ResetEnvMapAllocation }
  emit .sceneClear r

/-- The `RenderLightProbe` calls of the loop of `UpdateLightProbes` over
`actors`: one for each environment-map actor whose env-map id is not -1, in
the order of the actors. -/
def lightProbeCalls (actors : List Actor) : List RenderCall :=
  actors.filterMap (fun a =>
    if a.engineType = EngineActorType.EnvMap ∧ a.envMapId ≠ -1 then
      some (RenderCall.renderLightProbe a.envMapId a.position)
    else none)

/-- The number of actors whose engine type is `EnvMap`. -/
def envMapCount (actors : List Actor) : Nat :=
  (actors.filter (fun a => a.engineType = EngineActorType.EnvMap)).length

/-- The number of environment-map actors that hold an env-map id. -/
def allocatedProbeCount (actors : List Actor) : Nat :=
  (actors.filter (fun a =>
    decide (a.engineType = EngineActorType.EnvMap ∧ a.envMapId ≠ -1))).length

/-- The number of `RenderLightProbe` calls in a log. -/
def probeCount (log : List RenderCall) : Nat :=
  (log.filter (fun c => match c with | .renderLightProbe _ _ => true | _ => false)).length

/-- The `Run` call `RunRenderProcedure` makes when a level is loaded: one on
the active procedure, none when `currentRenderProcedure` is null. -/
def runOfActive (r : RendererImpl) : List RenderCall :=
  match r.currentRenderProcedure with
  | some proc => [RenderCall.procRun proc.ptr]
  | none => []

/-- The renderer in `InitializeLevel` once `UpdateLightProbes` has returned
(Renderer.cpp, lines 309-318). -/
def InitializeLevel.prepared (env : RendererEnv) (r : RendererImpl) (pLevel : Level) :
    RendererImpl :=
  let r := { r with level := some pLevel }
  let r := TryLoadLightmap env r
  let r := { r with defaultEnvMapId := -1 }
  let r := InitializeLevel.rebind r.renderProcedures r
  UpdateLightProbes env r

/-- The number of `Run` calls in a log. -/
def runCount (log : List RenderCall) : Nat :=
  (log.filter (fun c => match c with | .procRun _ => true | _ => false)).length

/-- The number of `hardwareRenderer->Wait()` calls in a log. -/
def waitCount (log : List RenderCall) : Nat :=
  (log.filter (fun c => match c with | .hwWait => true | _ => false)).length

/-- `RendererImpl::RegisterWorldRenderPass` (Renderer.cpp, lines 229-237). -/
def RegisterWorldRenderPass (r : RendererImpl) (shaderId : Nat) : Int × RendererImpl :=
  match r.worldRenderPassIds.TryGetValue shaderId with
  | some passId => (passId, r)
  | none =>
    let newId := r.worldRenderPassIds.Count
    (newId, { r with worldRenderPassIds := r.worldRenderPassIds.set shaderId newId })

/-- A sequence of `RegisterWorldRenderPass` calls on one renderer: the ids
returned, in call order, and the renderer afterwards. -/
def registerAll (r : RendererImpl) (shaderIds : List Nat) : List Int × RendererImpl :=
  shaderIds.foldl
    (fun acc shaderId =>
      let res := RegisterWorldRenderPass acc.2 shaderId
      (acc.1 ++ [res.1], res.2))
    ([], r)

/-- The operations on a renderer that can come between two `InitializeLevel`
calls: the public operations of `Renderer`, a change of the loaded level's
content by the engine (the renderer holds a pointer to the level), and a
call of `sharedRes.AllocEnvMap` by another component. -/
inductive RendererOp where
  | UpdateLightProbes
  | RenderFrame
  | SetDebugView (viewName : String)
  | RegisterWorldRenderPass (shaderId : Nat)
  | UpdateLightmap (lightmapSet : LightmapSet)
  | Wait
  | Resize (w h : Int)
  | DestroyContext
  | levelChanged (level : Level)
  | AllocEnvMap

/-- One operation. -/
def applyOp (env : RendererEnv) (r : RendererImpl) (op : RendererOp) : RendererImpl :=
  match op with
  | .UpdateLightProbes => UpdateLightProbes env r
  | .RenderFrame => RenderFrame r
  | .SetDebugView viewName => SetDebugView r viewName
  | .RegisterWorldRenderPass shaderId => (RegisterWorldRenderPass r shaderId).2
  | .UpdateLightmap lightmapSet => UpdateLightmap r lightmapSet
  | .Wait => Wait r
  | .Resize w h => Resize r w h
  | .DestroyContext => DestroyContext r
  | .levelChanged level => { r with level := r.level.map (fun _ => level) }
  | .AllocEnvMap => { r with sharedRes := (r.sharedRes.AllocEnvMap env.MaxEnvMapCount).2 }

/-- A sequence of operations, in order. -/
def applyOps (env : RendererEnv) (r : RendererImpl) (ops : List RendererOp) : RendererImpl :=
  ops.foldl (applyOp env) r

/-- The number of operations of the sequence that change `defaultEnvMapId`. -/
def defaultEnvMapChanges (env : RendererEnv) (r : RendererImpl) (ops : List RendererOp) : Nat :=
  match ops with
  | [] => 0
  | op :: rest =>
    (if (applyOp env r op).defaultEnvMapId = r.defaultEnvMapId then 0 else 1)
      + defaultEnvMapChanges env (applyOp env r op) rest

/-- The number of distinct shader ids that occur in `shaderIds` before the
first occurrence of `a`. -/
def distinctBefore (shaderIds : List Nat) (a : Nat) : Nat :=
  (shaderIds.take (shaderIds.indexOf a)).toFinset.card

end RendererImpl

/-! ## Formats and data types (HardwareRenderer.h) -/

/-- `StorageFormat` (HardwareRenderer.h, lines 112-129). -/
inductive StorageFormat where
  | Invalid
  | R_8 | R_I8 | R_16 | R_I16 | Int32_Raw
  | R_F16 | R_F32
  | RG_8 | RG_16 | RG_I8 | RG_I16 | RG_I32_Raw
  | RG_F16 | RG_F32
  | RGBA_8 | RGBA_8_SRGB | RGBA_I8 | RGBA_16 | RGBA_I16 | RGBA_I32_Raw
  | RGBA_F16 | RGBA_F32
  | R11F_G11F_B10F | RGB10_A2
  | Depth24 | Depth32 | Depth24Stencil8
  | RGBA_Compressed
  | BC1
  | BC5
  | BC3
  | BC1_SRGB
  | BC6H
  deriving DecidableEq, Repr

namespace StorageFormat

/-- The enumerators, in declaration order. -/
def all : List StorageFormat :=
  [Invalid, R_8, R_I8, R_16, R_I16, Int32_Raw, R_F16, R_F32, RG_8, RG_16, RG_I8, RG_I16,
   RG_I32_Raw, RG_F16, RG_F32, RGBA_8, RGBA_8_SRGB, RGBA_I8, RGBA_16, RGBA_I16, RGBA_I32_Raw,
   RGBA_F16, RGBA_F32, R11F_G11F_B10F, RGB10_A2, Depth24, Depth32, Depth24Stencil8,
   RGBA_Compressed, BC1, BC5, BC3, BC1_SRGB, BC6H]

/-- The formats that hold no texel of a fixed size: `Invalid` and the
block-compressed formats. -/
def unsizable : List StorageFormat :=
  [Invalid, RGBA_Compressed, BC1, BC5, BC3, BC1_SRGB, BC6H]

end StorageFormat

/-- `isDepthFormat` (HardwareRenderer.h, lines 131-142). -/
def isDepthFormat (format : StorageFormat) : Bool :=
  match format with
  | .Depth24 => true
  | .Depth24Stencil8 => true
  | .Depth32 => true
  | _ => false

/-- `StorageFormatSize` (HardwareRenderer.h, lines 246-284); `none` when it
throws `HardwareRendererException("Unsupported storage format.")`. -/
def StorageFormatSize (format : StorageFormat) : Option Int :=
  match format with
  | .R_8 => some 1
  | .R_I8 => some 1
  | .RG_I8 => some 2
  | .RG_8 => some 2
  | .R_F16 => some 2
  | .RGBA_8 => some 4
  | .RGBA_I8 => some 4
  | .RG_16 => some 4
  | .RG_F16 => some 4
  | .RG_I16 => some 4
  | .Int32_Raw => some 4
  | .R_F32 => some 4
  | .R11F_G11F_B10F => some 4
  | .RGB10_A2 => some 4
  | .Depth32 => some 4
  | .Depth24Stencil8 => some 4
  | .RGBA_I16 => some 8
  | .RGBA_F16 => some 8
  | .RGBA_16 => some 8
  | .RG_I32_Raw => some 8
  | .RG_F32 => some 8
  | .RGBA_I32_Raw => some 16
  | .RGBA_F32 => some 16
  | .BC1 => none
  | .BC5 => none
  | .BC3 => none
  | .RGBA_Compressed => none
  | _ => none

namespace DataType

/-- The enumerators of `DataType` (HardwareRenderer.h, lines 73-84), by value;
a `DataType` can hold any `int`. -/
def Byte : Int := 0x10
/-- `DataType::Byte2` -/
def Byte2 : Int := 0x11
/-- `DataType::Byte3` -/
def Byte3 : Int := 0x12
/-- `DataType::Byte4` -/
def Byte4 : Int := 0x13
/-- `DataType::Char` -/
def Char : Int := 0x60
/-- `DataType::Char2` -/
def Char2 : Int := 0x61
/-- `DataType::Char3` -/
def Char3 : Int := 0x62
/-- `DataType::Char4` -/
def Char4 : Int := 0x63
/-- `DataType::Short` -/
def Short : Int := 0x20
/-- `DataType::Short2` -/
def Short2 : Int := 0x21
/-- `DataType::Short3` -/
def Short3 : Int := 0x22
/-- `DataType::Short4` -/
def Short4 : Int := 0x23
/-- `DataType::UShort` -/
def UShort : Int := 0x70
/-- `DataType::UShort2` -/
def UShort2 : Int := 0x71
/-- `DataType::UShort3` -/
def UShort3 : Int := 0x72
/-- `DataType::UShort4` -/
def UShort4 : Int := 0x73
/-- `DataType::Half` -/
def Half : Int := 0x90
/-- `DataType::Half2` -/
def Half2 : Int := 0x91
/-- `DataType::Half3` -/
def Half3 : Int := 0x92
/-- `DataType::Half4` -/
def Half4 : Int := 0x93
/-- `DataType::Int` -/
def Int1 : Int := 0x40
/-- `DataType::Int2` -/
def Int2 : Int := 0x41
/-- `DataType::Int3` -/
def Int3 : Int := 0x42
/-- `DataType::Int4` -/
def Int4 : Int := 0x43
/-- `DataType::UInt` -/
def UInt : Int := 0x100
/-- `DataType::Float` -/
def Float1 : Int := 0x50
/-- `DataType::Float2` -/
def Float2 : Int := 0x51
/-- `DataType::Float3` -/
def Float3 : Int := 0x52
/-- `DataType::Float4` -/
def Float4 : Int := 0x53
/-- `DataType::UInt4_10_10_10_2` -/
def UInt4_10_10_10_2 : Int := 0x83

/-- The values of all enumerators. -/
def enumerators : List Int :=
  [Byte, Byte2, Byte3, Byte4, Char, Char2, Char3, Char4, Short, Short2, Short3, Short4,
   UShort, UShort2, UShort3, UShort4, Half, Half2, Half3, Half4, Int1, Int2, Int3, Int4,
   UInt, Float1, Float2, Float3, Float4, UInt4_10_10_10_2]

/-- The values of the one-element enumerators. -/
def scalars : List Int := [Byte, Char, Short, UShort, Half, Int1, UInt, Float1]

end DataType

open DataType in
/-- `DataTypeSize` (HardwareRenderer.h, lines 286-331); `none` when it throws
`HardwareRendererException("Unsupported data type.")`. -/
def DataTypeSize (type : Int) : Option Int :=
  if type ∈ [Byte, Char] then some 1
  else if type ∈ [Byte2, Char2, Short, UShort, Half] then some 2
  else if type ∈ [Byte3, Char3] then some 3
  else if type ∈ [Byte4, Char4, Short2, UShort2, Half2, Int1, UInt, Float1, UInt4_10_10_10_2]
    then some 4
  else if type ∈ [Short3, UShort3, Half3] then some 6
  else if type ∈ [Short4, UShort4, Half4, Int2, Float2] then some 8
  else if type ∈ [Int3, Float3] then some 12
  else if type ∈ [Int4, Float4] then some 16
  else none

/-- `GetDataTypeElementType` (HardwareRenderer.h, lines 333-336):
`(int)type & ~3`. On a two's complement `int`, `x & 3` is the residue of `x`
modulo 4 and `x & ~3` is `x` less that residue. -/
def GetDataTypeElementType (type : Int) : Int := type - type % 4

open DataType in
/-- `NumDataTypeElems` (HardwareRenderer.h, lines 339-380); `none` when it
throws `HardwareRendererException("Unsupported data type.")`. -/
def NumDataTypeElems (type : Int) : Option Int :=
  if type ∈ [Byte, Char, Short, UShort, Half, Int1, UInt, Float1] then some 1
  else if type ∈ [Byte2, Char2, Short2, UShort2, Half2, Int2, Float2] then some 2
  else if type ∈ [Byte3, Char3, Short3, UShort3, Half3, Int3, Float3] then some 3
  else if type ∈ [Byte4, Char4, Short4, UShort4, Half4, Int4, UInt4_10_10_10_2, Float4]
    then some 4
  else none

/-! ## Alignment (Renderer.cpp, lines 27-36) -/

/-- `Align` (Renderer.cpp, lines 27-36); `%` on `int` truncates towards zero. -/
def Align (ptr alignment : Int) : Int :=
  let m := Int.tmod ptr alignment
  if m ≠ 0 then
    let padding := alignment - m
    ptr + padding
  else ptr

/-! ## The env-map slot allocator (RenderContext.h, lines 160-170) -/

/-- A call on the env-map allocator. -/
inductive EnvMapOp where
  | AllocEnvMap
  | ResetEnvMapAllocation
  deriving DecidableEq, Repr

namespace RendererSharedResource

/-- A sequence of calls on the allocator: the shared resource afterwards. -/
def runEnvMapOps (MaxEnvMapCount : Int) (sr : RendererSharedResource) (ops : List EnvMapOp) :
    RendererSharedResource :=
  match ops with
  | [] => sr
  | EnvMapOp.AllocEnvMap :: rest =>
    runEnvMapOps MaxEnvMapCount (sr.AllocEnvMap MaxEnvMapCount).2 rest
  | EnvMapOp.ResetEnvMapAllocation :: rest =>
    runEnvMapOps MaxEnvMapCount sr.ResetEnvMapAllocation rest

/-- The id `AllocEnvMap` returns at pointer `p` (the two branches of lines
162-165). -/
def idAt (MaxEnvMapCount p : Int) : Int := if p < MaxEnvMapCount then p else -1

/-- The ids returned by `n` consecutive `AllocEnvMap` calls, in call order,
and the shared resource afterwards. -/
def allocMany (MaxEnvMapCount : Int) (sr : RendererSharedResource) (n : Nat) :
    List Int × RendererSharedResource :=
  match n with
  | 0 => ([], sr)
  | n + 1 =>
    let a := sr.AllocEnvMap MaxEnvMapCount
    let rest := allocMany MaxEnvMapCount a.2 n
    (a.1 :: rest.1, rest.2)

end RendererSharedResource

/-! ## The shadow-map allocator (RenderContext.h, lines 112-127) -/

/-- Modelled from the spec: `ShadowMapResource` is declared in RenderContext.h
(lines 112-127) and its member functions are defined outside the sources. The
declaration gives the fields `shadowMapArraySize` and `shadowMapArrayFreeBits`;
here `shadowMapArrayFreeBits k` tells whether slot `k` is free. -/
structure ShadowMapResource where
  shadowMapArraySize : Nat
  shadowMapArrayFreeBits : Nat → Bool

namespace ShadowMapResource

/-- Whether the `count` slots from `i` on are all free. -/
def runFree (r : ShadowMapResource) (i count : Nat) : Bool :=
  (List.range count).all (fun j => r.shadowMapArrayFreeBits (i + j))

/-- Modelled from the spec: `AllocShadowMaps(count)` finds the lowest-indexed
contiguous run of `count` free slots within the fixed capacity, marks them
used and returns its start; it returns `-1` and changes nothing when there is
no such run. -/
def AllocShadowMaps (r : ShadowMapResource) (count : Int) : Int × ShadowMapResource :=
  let n := count.toNat
  match (List.range (r.shadowMapArraySize + 1 - n)).find? (fun i => r.runFree i n) with
  | some i =>
    ((i : Int), { r with shadowMapArrayFreeBits := fun k =>
      if i ≤ k ∧ k < i + n then false else r.shadowMapArrayFreeBits k })
  | none => (-1, r)

/-- Modelled from the spec: `FreeShadowMaps(id, count)` returns the range
`[id, id + count)` to the free set unconditionally. -/
def FreeShadowMaps (r : ShadowMapResource) (id count : Int) : ShadowMapResource :=
  { r with shadowMapArrayFreeBits := fun k =>
      if id ≤ (k : Int) ∧ (k : Int) < id + count then true else r.shadowMapArrayFreeBits k }

/-- Modelled from the spec: `Reset()` frees every slot. -/
def Reset (r : ShadowMapResource) : ShadowMapResource :=
  { r with shadowMapArrayFreeBits := fun _ => true }

end ShadowMapResource

/-- A call on the shadow-map allocator. -/
inductive ShadowMapOp where
  | AllocShadowMaps (count : Int)
  | FreeShadowMaps (id count : Int)
  deriving DecidableEq, Repr

/-- Whether two ranges `[id, id + count)` have a slot in common. -/
def rangesOverlap (a b : Int × Int) : Prop :=
  ∃ k : Int, a.1 ≤ k ∧ k < a.1 + a.2 ∧ b.1 ≤ k ∧ k < b.1 + b.2

namespace ShadowMapResource

/-- A sequence of calls on the allocator, with the list of live allocations
`(id, count)`: an allocation that succeeds is added to it, and a
`FreeShadowMaps(id, count)` takes the allocation it releases from it. The
result is `none` when a `FreeShadowMaps` call names no live allocation (a
double free or a free of something never allocated). -/
def runOps (r : ShadowMapResource) (live : List (Int × Int)) (ops : List ShadowMapOp) :
    Option (ShadowMapResource × List (Int × Int)) :=
  match ops with
  | [] => some (r, live)
  | ShadowMapOp.AllocShadowMaps count :: rest =>
    let a := r.AllocShadowMaps count
    if a.1 ≠ -1 then runOps a.2 ((a.1, count) :: live) rest
    else runOps a.2 live rest
  | ShadowMapOp.FreeShadowMaps id count :: rest =>
    if (id, count) ∈ live then runOps (r.FreeShadowMaps id count) (live.erase (id, count)) rest
    else none

/-- What the allocator keeps true of the live allocations: their ids are not
negative, their slots are marked used, and no two of them overlap. -/
def liveInvariant (r : ShadowMapResource) (live : List (Int × Int)) : Prop :=
  (∀ a ∈ live, 0 ≤ a.1 ∧
    ∀ k : Nat, a.1 ≤ (k : Int) → (k : Int) < a.1 + a.2 → r.shadowMapArrayFreeBits k = false) ∧
  live.Pairwise (fun a b => ¬ rangesOverlap a b)

end ShadowMapResource

/-! ## The standard render procedure (StandardRenderProcedure.cpp) -/

/-- Constants that `StandardRenderProcedure::Run` reads and that are declared
outside the sources: `MaxShadowCascades`, `MaxLightBufferSize`, and
`sizeof(LightUniforms)`, which depends on the first and on the compiler. -/
structure StandardConstants where
  MaxShadowCascades : Int
  MaxLightBufferSize : Int
  sizeofLightUniforms : Int

/-- `LightUniforms` (StandardRenderProcedure.cpp, lines 20-37) as `Run` fills
it. The float arrays `zPlanes` and `lightMatrix` are represented by
`cascadesWritten`, the indices `i` at which `Run` assigns `zPlanes[i]` and
`lightMatrix[i]`, in the order of the assignments. -/
structure LightUniforms where
  lightDir : Vec3 := ⟨0, 0, 0⟩
  lightColor : Vec3 := ⟨0, 0, 0⟩
  numCascades : Int := 0
  shadowMapId : Int := -1
  cascadesWritten : List Int := []
  deriving DecidableEq

/-- A `RenderPassInstance` that `Run` appends to `renderPasses`: an instance of
the shadow pass on `shadowMapRenderOutputs[renderOutput]`, `gBufferInstance`,
or `forwardBaseInstance`. -/
inductive RenderPassInstance where
  | shadow (renderOutput : Int)
  | gBuffer
  | forwardBase
  deriving DecidableEq, Repr

/-- Whether an instance is an instance of the shadow pass. -/
def RenderPassInstance.isShadow (p : RenderPassInstance) : Bool :=
  match p with
  | .shadow _ => true
  | _ => false

/-- A post pass that `Run` appends to `postPasses`: `deferredLightingPass` or
`atmospherePass`. -/
inductive PostRenderPass where
  | deferredLighting
  | atmosphere
  deriving DecidableEq, Repr

/-- A camera of `params.cameras`. -/
structure CameraActor where
  position : Vec3
  deriving DecidableEq

/-- The two member functions of the shadow-map allocator that `Run` calls, on
an allocator state of type `σ`. -/
structure ShadowMapCalls (σ : Type) where
  Reset : σ → σ
  AllocShadowMaps : σ → Int → Int × σ

/-- The calls of `Run` on a `ShadowMapResource`. -/
def ShadowMapResource.calls : ShadowMapCalls ShadowMapResource :=
  { Reset := ShadowMapResource.Reset, AllocShadowMaps := ShadowMapResource.AllocShadowMaps }

/-- `RenderProcedureParameters` as `Run` reads it: `cameras`, the actors of
`level`, and `renderer->GetSharedResource()->shadowMapResources`. -/
structure RenderProcedureParameters (σ : Type) where
  cameras : List CameraActor
  Actors : List Actor
  shadowMapResources : σ

/-- The members of `StandardRenderProcedure` (lines 41-65) that `Run` reads or
writes, after `Init`. -/
structure StandardRenderProcedure where
  deferred : Bool := false
  directionalLights : List Actor := []
  lightingData : List LightUniforms := []
  useAtmosphere : Bool := false
  deriving DecidableEq

/-- What one `Run` leaves behind: the procedure, the two output lists, and the
byte count passed to `lightUniformBuffer->SetData`. -/
structure RunOutput where
  proc : StandardRenderProcedure
  renderPasses : List RenderPassInstance
  postPasses : List PostRenderPass
  uploadSize : Int
  deriving DecidableEq

/-- The split distance `zi` of cascade `i` (StandardRenderProcedure.cpp, lines
230-231), over any number type: `one` is `1.0f`, `pow` is `pow`, and `ofInt`
converts an `int`. -/
def cascadeSplit {α : Type} [Add α] [Sub α] [Mul α] [Div α] (one : α) (pow : α → α → α)
    (ofInt : Int → α) (TransitionFactor zmin zmax : α) (NumShadowCascades i : Int) : α :=
  let iOverN := ofInt (i + 1) / ofInt NumShadowCascades
  TransitionFactor * zmin * pow (zmax / zmin) iOverN
    + (one - TransitionFactor) * (zmin + iOverN * (zmax - zmin))

namespace StandardRenderProcedure

/-- The actor walk of `Run` (lines 175-195): directional lights are collected,
and an atmosphere actor sets `useAtmosphere`. -/
def Run.walk (actors : List Actor) (p : StandardRenderProcedure) : StandardRenderProcedure :=
  match actors with
  | [] => p
  | actor :: rest =>
    let actorType := actor.engineType
    let p :=
      if actorType = EngineActorType.Light then
        if actor.lightType = LightType.Directional then
          { p with directionalLights := p.directionalLights ++ [actor] }
        else p
      else if actorType = EngineActorType.Atmosphere then
        { p with useAtmosphere := true }
      else p
    Run.walk rest p

/-- The body of the cascade loop (lines 217-271) for cascade `i`: `zPlanes[i]`
and `lightMatrix[i]` are assigned, and an instance of the shadow pass on
`shadowMapRenderOutputs[i + shadowMapStartId]` is appended to `renderPasses`. -/
def Run.cascade (shadowMapStartId : Int) (st : LightUniforms × List RenderPassInstance)
    (i : Nat) : LightUniforms × List RenderPassInstance :=
  ({ st.1 with cascadesWritten := st.1.cascadesWritten ++ [(i : Int)] },
   st.2 ++ [RenderPassInstance.shadow ((i : Int) + shadowMapStartId)])

/-- The body of the light loop (lines 204-274) for one directional light, on
the allocator copy, `lightingData` and `renderPasses`. -/
def Run.light {σ : Type} (c : StandardConstants) (sm : ShadowMapCalls σ)
    (st : σ × List LightUniforms × List RenderPassInstance) (dirLight : Actor) :
    σ × List LightUniforms × List RenderPassInstance :=
  let shadowMapRes := st.1
  let lightingData := st.2.1
  let renderPasses := st.2.2
  let lightData : LightUniforms := {}
  let lightData := { lightData with lightColor := dirLight.Color }
  let lightData := { lightData with lightDir := dirLight.Direction }
  let lightData := { lightData with
    numCascades := if dirLight.EnableCascadedShadows then dirLight.NumShadowCascades else 0 }
  if dirLight.EnableCascadedShadows ∧ dirLight.NumShadowCascades > 0
      ∧ dirLight.NumShadowCascades ≤ c.MaxShadowCascades then
    let a := sm.AllocShadowMaps shadowMapRes dirLight.NumShadowCascades
    let shadowMapStartId := a.1
    let lightData := { lightData with shadowMapId := shadowMapStartId }
    if shadowMapStartId ≠ -1 then
      let r := (List.range dirLight.NumShadowCascades.toNat).foldl
        (Run.cascade shadowMapStartId) (lightData, renderPasses)
      (a.2, lightingData ++ [r.1], r.2)
    else
      (a.2, lightingData ++ [lightData], renderPasses)
  else
    (shadowMapRes, lightingData ++ [lightData], renderPasses)

/-- `StandardRenderProcedure::Run` (lines 120-295) on the two output lists.
`shadowMapRes` is a copy of the shared allocator (line 135), so the shared one
is not written. The product in the upload size is taken without overflow.
`shadowMapViewUniforms`, an `Array` of capacity 128 whose `Add` is defined
outside the sources, is not represented. -/
def Run {σ : Type} (c : StandardConstants) (sm : ShadowMapCalls σ) (p : StandardRenderProcedure)
    (renderPasses : List RenderPassInstance) (postPasses : List PostRenderPass)
    (params : RenderProcedureParameters σ) : RunOutput :=
  let shadowMapRes := params.shadowMapResources
  let shadowMapRes := sm.Reset shadowMapRes
  let p := { p with lightingData := [] }
  let camera := params.cameras.head?
  let p := { p with directionalLights := [] }
  let p := Run.walk params.Actors p
  let r :=
    match camera with
    | some _ =>
      let r := p.directionalLights.foldl (Run.light c sm) (shadowMapRes, p.lightingData, renderPasses)
      (r.2.1, r.2.2)
    | none => (p.lightingData, renderPasses)
  let p := { p with lightingData := r.1 }
  let renderPasses := r.2
  let uploadSize := min (c.sizeofLightUniforms * (p.lightingData.length : Int)) c.MaxLightBufferSize
  let renderPasses :=
    if p.deferred then renderPasses ++ [RenderPassInstance.gBuffer]
    else renderPasses ++ [RenderPassInstance.forwardBase]
  let postPasses :=
    if p.deferred then postPasses ++ [PostRenderPass.deferredLighting] else postPasses
  let postPasses :=
    if p.useAtmosphere then postPasses ++ [PostRenderPass.atmosphere] else postPasses
  { proc := p, renderPasses := renderPasses, postPasses := postPasses, uploadSize := uploadSize }

/-- The directional lights of a list of actors, in order. -/
def directionalLightsOf (actors : List Actor) : List Actor :=
  actors.filter (fun a =>
    decide (a.engineType = EngineActorType.Light) && decide (a.lightType = LightType.Directional))

/-- Whether a list of actors has an atmosphere actor. -/
def hasAtmosphere (actors : List Actor) : Bool :=
  actors.any (fun a => decide (a.engineType = EngineActorType.Atmosphere))

/-- The test of line 209: cascaded shadows are enabled and the number of
cascades lies in `(0, MaxShadowCascades]`. -/
def shadowsServiced (c : StandardConstants) (dirLight : Actor) : Bool :=
  dirLight.EnableCascadedShadows && decide (dirLight.NumShadowCascades > 0)
    && decide (dirLight.NumShadowCascades ≤ c.MaxShadowCascades)

/-- The lighting-data entry of a directional light, given the id its
allocation returned (read only when line 209 lets the light allocate). -/
def lightEntry (c : StandardConstants) (dirLight : Actor) (shadowMapStartId : Int) :
    LightUniforms :=
  { lightDir := dirLight.Direction
    lightColor := dirLight.Color
    numCascades := if dirLight.EnableCascadedShadows then dirLight.NumShadowCascades else 0
    shadowMapId := if shadowsServiced c dirLight then shadowMapStartId else -1
    cascadesWritten :=
      if shadowsServiced c dirLight && decide (shadowMapStartId ≠ -1) then
        (List.range dirLight.NumShadowCascades.toNat).map (fun (i : Nat) => (i : Int))
      else [] }

/-- The ids the allocator returns to the lights of a frame, in order, from
allocator state `shadowMapRes` on; `-1` stands for a light that does not
allocate. -/
def lightAllocs {σ : Type} (c : StandardConstants) (sm : ShadowMapCalls σ) (shadowMapRes : σ)
    (lights : List Actor) : List Int :=
  match lights with
  | [] => []
  | dirLight :: rest =>
    if shadowsServiced c dirLight then
      let a := sm.AllocShadowMaps shadowMapRes dirLight.NumShadowCascades
      a.1 :: lightAllocs c sm a.2 rest
    else
      -1 :: lightAllocs c sm shadowMapRes rest

/-- The lighting-data entries of the lights of a frame, in order. -/
def lightEntries {σ : Type} (c : StandardConstants) (sm : ShadowMapCalls σ) (shadowMapRes : σ)
    (lights : List Actor) : List LightUniforms :=
  List.zipWith (lightEntry c) lights (lightAllocs c sm shadowMapRes lights)

/-- The lighting data of a frame: with a camera, the entries of the
directional lights of the level, allocated from the reset allocator; without
a camera, none. -/
def frameEntries {σ : Type} (c : StandardConstants) (sm : ShadowMapCalls σ)
    (params : RenderProcedureParameters σ) : List LightUniforms :=
  match params.cameras.head? with
  | some _ =>
    lightEntries c sm (sm.Reset params.shadowMapResources) (directionalLightsOf params.Actors)
  | none => []

/-- The shadow pass instances recorded for the light of a lighting-data entry:
none when its `shadowMapId` is `-1`, otherwise one per cascade, on consecutive
render outputs from `shadowMapId` on. -/
def shadowPassesOf (e : LightUniforms) : List RenderPassInstance :=
  if e.shadowMapId = -1 then []
  else (List.range e.numCascades.toNat).map
    (fun (i : Nat) => RenderPassInstance.shadow ((i : Int) + e.shadowMapId))

end StandardRenderProcedure

/-! ## The atmosphere post pass (AtmospherePostRenderPass.cpp) -/

/-- The calls of `AtmospherePostRenderPass` on the hardware renderer, its
buffer, its textures, its descriptor set and the render attachments. -/
inductive AtmosphereCall where
  /-- `hwRenderer->CreateBuffer(BufferUsage::UniformBuffer, sizeof(AtmosphereParameters))` -/
  | createBuffer
  /-- `Print("missing atmosphere precompute data.\n")` -/
  | print
  /-- `hwRenderer->CreateTexture2D` or `CreateTexture3D` of the named texture -/
  | createTexture (name : String)
  /-- `SetData` on the named texture -/
  | textureSetData (name : String)
  /-- `parameterBuffer->SetData(data, count)` -/
  | bufferSetData (count : Int)
  /-- `atmosphereDesc->BeginUpdate()` -/
  | descriptorBeginUpdate
  /-- `atmosphereDesc->Update(binding, resource)`; the flag tells whether the
  resource pointer is non-null -/
  | descriptorUpdate (binding : Nat) (bound : Bool)
  /-- `atmosphereDesc->EndUpdate()` -/
  | descriptorEndUpdate
  /-- `attachments.SetAttachment(0, colorOutBuffer->Texture.Ptr())` -/
  | setAttachment
  deriving DecidableEq, Repr

/-- Whether a call writes GPU state: every call except `Print`. -/
def AtmosphereCall.writesGpuState (c : AtmosphereCall) : Bool :=
  match c with
  | .print => false
  | _ => true

/-- The members of `AtmospherePostRenderPass` (lines 19-26): `isValid`, whether
`parameterBuffer` and the three textures are non-null, whether
`colorBuffer->Texture` is non-null, and the calls made so far. -/
structure AtmospherePostRenderPass where
  isValid : Bool := true
  parameterBuffer : Bool := false
  transmittanceTex : Bool := false
  irradianceTex : Bool := false
  inscatterTex : Bool := false
  colorBufferTexture : Bool := false
  calls : List AtmosphereCall := []
  deriving DecidableEq

namespace AtmospherePostRenderPass

/-- `AtmospherePostRenderPass::Create` (lines 28-81). `FindFile` is
`Engine::FindFile(name, ResourceType::Material)` and `sizeofParameters` is
`sizeof(AtmosphereParameters)`; reading the three files is taken to succeed. -/
def Create (FindFile : String → String) (sizeofParameters : Int)
    (p : AtmospherePostRenderPass) : AtmospherePostRenderPass :=
  let p := { p with parameterBuffer := true, calls := p.calls ++ [AtmosphereCall.createBuffer] }
  let irradianceDataFile := FindFile "Atmosphere/irradiance.raw"
  let inscatterDataFile := FindFile "Atmosphere/inscatter.raw"
  let transmittanceDataFile := FindFile "Atmosphere/transmittance.raw"
  if irradianceDataFile.length = 0 ∨ inscatterDataFile.length = 0
      ∨ transmittanceDataFile.length = 0 then
    let p := { p with calls := p.calls ++ [AtmosphereCall.print] }
    { p with isValid := false }
  else
    let p := { p with irradianceTex := true, calls := p.calls ++
      [AtmosphereCall.createTexture "irradianceTex", AtmosphereCall.textureSetData "irradianceTex"] }
    let p := { p with inscatterTex := true, calls := p.calls ++
      [AtmosphereCall.createTexture "inscatterTex", AtmosphereCall.textureSetData "inscatterTex"] }
    let p := { p with transmittanceTex := true, calls := p.calls ++
      [AtmosphereCall.createTexture "transmittanceTex",
       AtmosphereCall.textureSetData "transmittanceTex"] }
    { p with calls := p.calls ++ [AtmosphereCall.bufferSetData sizeofParameters] }

/-- `AtmospherePostRenderPass::UpdateRenderAttachments` (lines 100-117). -/
def UpdateRenderAttachments (p : AtmospherePostRenderPass) : AtmospherePostRenderPass :=
  if !p.colorBufferTexture then p
  else
    { p with calls := p.calls ++
      [AtmosphereCall.descriptorBeginUpdate,
       AtmosphereCall.descriptorUpdate 0 p.parameterBuffer,
       AtmosphereCall.descriptorUpdate 1 true,
       AtmosphereCall.descriptorUpdate 2 true,
       AtmosphereCall.descriptorUpdate 3 p.transmittanceTex,
       AtmosphereCall.descriptorUpdate 4 p.irradianceTex,
       AtmosphereCall.descriptorUpdate 5 p.inscatterTex,
       AtmosphereCall.descriptorUpdate 6 true,
       AtmosphereCall.descriptorUpdate 7 true,
       AtmosphereCall.descriptorEndUpdate,
       AtmosphereCall.setAttachment] }

/-- `AtmospherePostRenderPass::SetParameters` (lines 126-130); the `assert` on
`count` is compiled out of a release build and does not branch. -/
def SetParameters (count : Int) (p : AtmospherePostRenderPass) : AtmospherePostRenderPass :=
  { p with calls := p.calls ++ [AtmosphereCall.bufferSetData count] }

end AtmospherePostRenderPass

/-! ## Finding files (Engine.cpp, lines 676-740) -/

/-- `ResourceType` (Engine.h, lines 51-55). -/
inductive ResourceType where
  | Font
  | Mesh
  | Shader
  | Level
  | Texture
  | Material
  | Landscape
  | Animation
  | Settings
  | ShaderCache
  | ExtTools
  deriving DecidableEq, Repr

/-- What `FindFile` reads besides its arguments: `File::Exists`,
`Path::Combine` and `Path::Normalize` of CoreLib, and the two directories of
the engine. -/
structure FileSystem where
  Exists : String → Bool
  Combine : String → String → String
  Normalize : String → String
  engineDir : String
  gameDir : String

/-- `Engine::GetDirectory` (Engine.cpp, lines 699-740). -/
def GetDirectory (fs : FileSystem) (useEngineDir : Bool) (type : ResourceType) : String :=
  let subDirName :=
    match type with
    | .Level => "Levels"
    | .Mesh => "Models"
    | .Shader => "Shaders"
    | .Texture => "Materials"
    | .Material => "Materials"
    | .Animation => "Animations"
    | .Landscape => "Landscapes"
    | .Settings => "Settings"
    | .ShaderCache => "Cache/Shaders"
    | .ExtTools => "ExtTools"
    | .Font => "Fonts"
  if useEngineDir then fs.Combine fs.engineDir subDirName
  else fs.Combine fs.gameDir subDirName

/-- `Engine::FindFile` (Engine.cpp, lines 676-697). `fuel` bounds the depth of
the recursion: every call, the outermost included, uses one unit, and `none`
tells that the fuel ran out. -/
def FindFile (fuel : Nat) (fs : FileSystem) (fileName : String) (type : ResourceType) :
    Option String :=
  match fuel with
  | 0 => none
  | fuel + 1 =>
    if fileName.length = 0 then some fileName
    else if fs.Exists fileName then some fileName
    else
      let localFile := fs.Normalize (fs.Combine (GetDirectory fs false type) fileName)
      if fs.Exists localFile then some localFile
      else
        let engineFile := fs.Normalize (fs.Combine (GetDirectory fs true type) fileName)
        if fs.Exists engineFile then some engineFile
        else if type = ResourceType.Shader then
          FindFile fuel fs fileName ResourceType.Material
        else if type = ResourceType.Texture ∨ type = ResourceType.Material
            ∨ type = ResourceType.Animation then
          FindFile fuel fs fileName ResourceType.Mesh
        else some ""

/-! ## Parsing an animation visualisation actor (AnimationVisualizationActor.cpp) -/

/-- What `AnimationVisualizationActor::ParseField` meets: the upcoming token,
whether the token after it is `{`, what `Actor::ParseField` returns and
leaves in `isInvalid` (from the value it finds there), and whether the loader
called for the field returns null. -/
structure FieldInput where
  lookAhead : String
  nextIsBrace : Bool
  ActorParseField : Bool → Bool × Bool
  loaderReturnsNull : Bool

/-- `AnimationVisualizationActor::ParseField` (lines 6-55): the value returned
and `isInvalid` afterwards. -/
def AnimationVisualizationActor.ParseField (inp : FieldInput) (isInvalid : Bool) : Bool × Bool :=
  let base := inp.ActorParseField isInvalid
  let isInvalid := base.2
  if base.1 then (true, isInvalid)
  else if inp.lookAhead = "mesh" then
    let isInvalid := if inp.loaderReturnsNull then false else isInvalid
    (true, isInvalid)
  else if inp.lookAhead = "material" then
    if inp.nextIsBrace then (true, isInvalid)
    else
      let isInvalid := if inp.loaderReturnsNull then true else isInvalid
      (true, isInvalid)
  else if inp.lookAhead = "Skeleton" then
    let isInvalid := if inp.loaderReturnsNull then true else isInvalid
    (true, isInvalid)
  else if inp.lookAhead = "MotionGraph" then
    let isInvalid := if inp.loaderReturnsNull then true else isInvalid
    (true, isInvalid)
  else (false, isInvalid)

/-- `Engine::ParseActor` (Engine.cpp, lines 649-659): `actor` is what
`CreateActor` returns and `Parse` is what `actor->Parse` does to `isInvalid`. -/
def ParseActor {α : Type} (actor : Option α) (Parse : Bool → Bool) : Option α :=
  let isInvalid := false
  let isInvalid := match actor with
    | some _ => Parse isInvalid
    | none => isInvalid
  if !isInvalid then actor else none

/-! ## The drawable factory (Renderer.cpp, lines 40-105) -/

/-- What the factory reads of a `Material`: the object (its address) and
whether its `MaterialModule` is set. -/
structure Material where
  ptr : Nat
  MaterialModule : Bool
  deriving DecidableEq, Repr

/-- What the factory reads of a `Mesh`: the object, `GetPrimitiveType()` and
`ElementRanges`. -/
structure Mesh where
  ptr : Nat
  primType : Int
  ElementRanges : List (Int × Int)
  deriving DecidableEq, Repr

/-- `DrawableType`, as far as the factory sets it. -/
inductive DrawableType where
  | Static
  | Skeletal
  deriving DecidableEq, Repr

/-- The fields of a `Drawable` the factory sets: the device mesh (the mesh it
was made from and whether it came from the cache), the material, the type,
the primitive type, the element range and the skeleton. -/
structure Drawable where
  mesh : Nat
  meshCached : Bool
  material : Material
  type : DrawableType
  primType : Int
  elementRange : Int × Int
  skeleton : Option Nat
  deriving DecidableEq, Repr

/-- How a call can go wrong without an exception being thrown: a null pointer
is dereferenced, or a list is indexed outside its bounds. -/
inductive Fault where
  | nullDereference
  | indexOutOfRange
  deriving DecidableEq, Repr

/-- The calls the factory makes on the scene resources and on the transform
module of the new drawable. -/
inductive ServiceCall where
  /-- `sceneRes->RegisterMaterial(material)` -/
  | registerMaterial (material : Nat)
  /-- `sceneResources->LoadDrawableMesh(mesh)` -/
  | loadDrawableMesh (mesh : Nat)
  /-- `sceneResources->CreateDrawableMesh(mesh)` -/
  | createDrawableMesh (mesh : Nat)
  /-- `CreateTransformModuleInstance(*rs->transformModule, name, uniformBufferSize)` -/
  | createTransformModuleInstance (name : String) (uniformBufferSize : Int)
  /-- `rs->transformModule->SetUniformData(&lightmapId, sizeof(lightmapId))` -/
  | setUniformData
  /-- the `BeginUpdate`, `Update(1, ...)`, `EndUpdate` on descriptor set `i` -/
  | updateBlendShapeBinding (i : Nat)
  deriving DecidableEq, Repr

/-- What the factory reads from the engine: `Engine::Instance()->GetLevel()`
(`none` when null) with what its `LoadErrorMaterial()` returns, and the
constant `DynamicBufferLengthMultiplier`. -/
structure ServiceEnv where
  level : Option (Option Material)
  DynamicBufferLengthMultiplier : Nat

namespace RendererServiceImpl

/-- `mesh->ElementRanges[elementId]`. -/
def elementRangeAt (mesh : Mesh) (elementId : Int) : Except Fault (Int × Int) :=
  if elementId < 0 then Except.error Fault.indexOutOfRange
  else match mesh.ElementRanges[elementId.toNat]? with
    | some range => Except.ok range
    | none => Except.error Fault.indexOutOfRange

/-- `RendererServiceImpl::CreateDrawableShared` (Renderer.cpp, lines 44-54):
the call it makes to obtain the device mesh. -/
def CreateDrawableShared (mesh : Mesh) (cacheMesh : Bool) : ServiceCall :=
  if cacheMesh then ServiceCall.loadDrawableMesh mesh.ptr
  else ServiceCall.createDrawableMesh mesh.ptr

/-- `RendererServiceImpl::CreateStaticDrawable` (Renderer.cpp, lines 67-84). -/
def CreateStaticDrawable (env : ServiceEnv) (mesh : Mesh) (elementId : Int)
    (material : Option Material) (cacheMesh : Bool) :
    Except Fault (Drawable × List ServiceCall) :=
  let fallback : Except Fault (Option Material) :=
    match material with
    | some m => Except.ok (some m)
    | none =>
      match env.level with
      | none => Except.error Fault.nullDereference
      | some level => Except.ok level
  match fallback with
  | Except.error f => Except.error f
  | Except.ok none => Except.error Fault.nullDereference
  | Except.ok (some material) =>
    let register := if !material.MaterialModule then
        [ServiceCall.registerMaterial material.ptr] else []
    match elementRangeAt mesh elementId with
    | Except.error f => Except.error f
    | Except.ok range =>
      Except.ok
        ({ mesh := mesh.ptr, meshCached := cacheMesh, material := material,
           type := DrawableType.Static, primType := mesh.primType, elementRange := range,
           skeleton := none },
         register ++ [CreateDrawableShared mesh cacheMesh,
           ServiceCall.createTransformModuleInstance "StaticMeshTransform" 80]
           ++ List.replicate env.DynamicBufferLengthMultiplier ServiceCall.setUniformData)

/-- `RendererServiceImpl::CreateSkeletalDrawable` (Renderer.cpp, lines 85-104). -/
def CreateSkeletalDrawable (env : ServiceEnv) (mesh : Mesh) (elementId : Int)
    (skeleton : Option Nat) (material : Option Material) (cacheMesh : Bool) :
    Except Fault (Drawable × List ServiceCall) :=
  match material with
  | none => Except.error Fault.nullDereference
  | some material =>
    let register := if !material.MaterialModule then
        [ServiceCall.registerMaterial material.ptr] else []
    match elementRangeAt mesh elementId with
    | Except.error f => Except.error f
    | Except.ok range =>
      Except.ok
        ({ mesh := mesh.ptr, meshCached := cacheMesh, material := material,
           type := DrawableType.Skeletal, primType := mesh.primType, elementRange := range,
           skeleton := skeleton },
         register ++ [CreateDrawableShared mesh cacheMesh,
           ServiceCall.createTransformModuleInstance "SkeletalAnimationTransform" 4096]
           ++ (List.range env.DynamicBufferLengthMultiplier).map
                ServiceCall.updateBlendShapeBinding)

end RendererServiceImpl

/-! ## The engine (Engine.h, Engine.cpp) -/

/-- `EngineMode` (Engine.h, lines 60-63). -/
inductive EngineMode where
  | Normal
  | Editor
  deriving DecidableEq, Repr

/-- One entry of `uiSystemInterface->windowContexts`: the window (its
address), `IsVisible()` and `GetClientHeight()`. -/
structure SystemWindow where
  id : Nat
  visible : Bool
  clientHeight : Int
  deriving DecidableEq, Repr

/-- The calls `Engine` makes on its collaborators: the renderer, the hardware
renderer, fences, the UI system, the input dispatcher and the level. Calls on
`drawCallStatForm` are not recorded. -/
inductive EngineCall where
  /-- `inputDispatcher->DispatchInput(channel)`; the flag tells the editor channel -/
  | dispatchInput (editorChannel : Bool)
  /-- `Print(...)`, up to the write to the console form -/
  | print
  /-- `renderer->Wait()` -/
  | rendererWait
  /-- `renderer->DestroyContext()` -/
  | destroyContext
  /-- `renderer->InitializeLevel(level)` -/
  | initializeLevel
  /-- `level->GetPhysicsScene().Tick()` -/
  | physicsTick
  /-- `actor.Value->Tick()` for the actor at this position of `level->Actors` -/
  | actorTick (index : Nat)
  /-- `levelEditor->Tick()` -/
  | levelEditorTick
  /-- `fence->Wait()` -/
  | fenceWait (fence : Nat)
  /-- `fence->Reset()` -/
  | fenceReset (fence : Nat)
  /-- `hardwareRenderer->ResetTempBufferVersion(version)` -/
  | resetTempBufferVersion (version : Nat)
  /-- `renderer->RenderFrame()` -/
  | renderFrame
  /-- `uiEntry->DrawUI()` of a window -/
  | drawUI (window : Nat)
  /-- `uiSystemInterface->TransferDrawCommands(context, isMainWindow, commands)` -/
  | transferDrawCommands (window : Nat) (isMainWindow : Bool)
  /-- `hardwareRenderer->CreateFence()`, with the fence it returns -/
  | createFence (fence : Nat)
  /-- `hardwareRenderer->BeginJobSubmission()` -/
  | beginJobSubmission
  /-- `uiSystemInterface->QueueDrawCommands(background, context, viewport, fence)` -/
  | queueDrawCommands (window : Nat) (isMainWindow : Bool) (fence : Option Nat)
  /-- `hardwareRenderer->EndJobSubmission(fence)` -/
  | endJobSubmission (fence : Option Nat)
  /-- `hardwareRenderer->Present(surface, uiOverlayTexture)` -/
  | present (window : Nat)
  deriving DecidableEq, Repr

/-- The calls that act on a buffering slot: waiting for, resetting or creating
a fence, `ResetTempBufferVersion`, and `RenderFrame`. -/
def EngineCall.touchesSlot (c : EngineCall) : Bool :=
  match c with
  | .fenceWait _ => true
  | .fenceReset _ => true
  | .createFence _ => true
  | .resetTempBufferVersion _ => true
  | .renderFrame => true
  | _ => false

/-- What a level load meets: `FindFile` or the `Level` constructor throws an
`Exception`; or the level is built and `Renderer::InitializeLevel` throws; or
both succeed. -/
inductive LoadOutcome where
  | levelThrows
  | initThrows (level : Level)
  | ok (level : Level)
  deriving DecidableEq

/-- What one `Tick` reads from outside the engine object.
* `inputReady`: `enableInput && mainWindow->Focused() && !KeyInputConsumed`;
* `windows`, `mainWindow`: the window contexts, in iteration order, and the
  main window;
* `printRefreshes`: whether a `Print` call goes on to `RefreshUI` (a console
  form exists, not headless, more than 0.2 s since the last UI update);
* `load`: what a level load meets, if this `Tick` loads the level;
* `rendererEnv`: what the renderer reads while it initialises a level. -/
structure EngineEnv where
  inputReady : Bool
  windows : List SystemWindow
  mainWindow : Nat
  printRefreshes : Bool
  load : LoadOutcome
  rendererEnv : RendererEnv

/-- The state of `Engine` (Engine.h, lines 67-101) that the frame loop reads or
writes; `statPtr` is the function-local `static int ptr` of `Tick`, and
`nextFence` names the object the next `CreateFence()` returns. -/
structure Engine where
  frameCounter : Nat := 0
  inDataTransfer : Bool := false
  levelToLoad : String := ""
  fencePool : List (List Nat) := []
  syncFences : List (List Nat) := []
  level : Option Level := none
  renderer : RendererImpl := {}
  hasLevelEditor : Bool := false
  engineMode : EngineMode := EngineMode.Normal
  renderStats : List RenderStat := []
  statPtr : Int := 0
  nextFence : Nat := 0

namespace Engine

/-- `Engine::RefreshUI` (Engine.cpp, lines 111-133). -/
def RefreshUI (env : EngineEnv) (s : Engine) : Engine × List EngineCall :=
  if !s.inDataTransfer then
    let draw := env.windows.flatMap (fun w =>
      [EngineCall.drawUI w.id, EngineCall.transferDrawCommands w.id (env.mainWindow == w.id)])
    let submit := env.windows.flatMap (fun w =>
      [EngineCall.beginJobSubmission,
       EngineCall.queueDrawCommands w.id (env.mainWindow == w.id) none,
       EngineCall.endJobSubmission none,
       EngineCall.present w.id])
    ({ s with renderer := s.renderer.Wait }, draw ++ submit ++ [EngineCall.rendererWait])
  else
    (s, [])

/-- `Engine::Print` (Engine.h, lines 244-280), as far as the engine state goes. -/
def Print (env : EngineEnv) (s : Engine) : Engine × List EngineCall :=
  if env.printRefreshes then
    let (s, calls) := RefreshUI env s
    (s, [EngineCall.print] ++ calls)
  else
    (s, [EngineCall.print])

/-- `Engine::LoadLevel` (Engine.cpp, lines 588-606). When `InitializeLevel`
throws, the renderer is left as after its first statement (`level = pLevel`);
what else it did before the exception is not modelled. -/
def LoadLevel (env : EngineEnv) (s : Engine) : Engine × List EngineCall :=
  let s := { s with renderer := s.renderer.Wait }
  let s := { s with level := none }
  let s := { s with renderer := s.renderer.DestroyContext }
  match env.load with
  | .levelThrows =>
    let (s, calls) := Print env s
    (s, [EngineCall.rendererWait, EngineCall.destroyContext] ++ calls)
  | .initThrows level =>
    let s := { s with level := some level }
    let s := { s with inDataTransfer := true }
    let s := { s with renderer := { s.renderer with level := some level } }
    let (s, calls) := Print env s
    (s, [EngineCall.rendererWait, EngineCall.destroyContext, EngineCall.initializeLevel] ++ calls)
  | .ok level =>
    let s := { s with level := some level }
    let s := { s with inDataTransfer := true }
    let s := { s with renderer := s.renderer.InitializeLevel env.rendererEnv (some level) }
    let s := { s with inDataTransfer := false }
    (s, [EngineCall.rendererWait, EngineCall.destroyContext, EngineCall.initializeLevel])

/-- What building a level from text meets, in `NewLevel` and
`LoadLevelFromText`: the `Level` constructor throws; or the level object is
built and `LoadFromText` throws, leaving the object as it then is; or
`Renderer::InitializeLevel` throws; or all succeed. -/
inductive TextLoadOutcome where
  | ctorThrows
  | textThrows (level : Level)
  | initThrows (level : Level)
  | ok (level : Level)
  deriving DecidableEq

/-- `Engine::NewLevel` (Engine.cpp, lines 619-637). As in `LoadLevel`, a
renderer whose `InitializeLevel` throws is left as after its first statement. -/
def NewLevel (env : EngineEnv) (o : TextLoadOutcome) (s : Engine) : Engine × List EngineCall :=
  let s := { s with renderer := s.renderer.Wait }
  let s := { s with level := none }
  let s := { s with renderer := s.renderer.DestroyContext }
  match o with
  | .ctorThrows =>
    let (s, calls) := Print env s
    (s, [EngineCall.rendererWait, EngineCall.destroyContext] ++ calls)
  | .textThrows level =>
    let s := { s with level := some level }
    let (s, calls) := Print env s
    (s, [EngineCall.rendererWait, EngineCall.destroyContext] ++ calls)
  | .initThrows level =>
    let s := { s with level := some level }
    let s := { s with renderer := { s.renderer with level := some level } }
    let (s, calls) := Print env s
    (s, [EngineCall.rendererWait, EngineCall.destroyContext, EngineCall.initializeLevel] ++ calls)
  | .ok level =>
    let s := { s with level := some level }
    let s := { s with renderer := s.renderer.InitializeLevel env.rendererEnv (some level) }
    let s := { s with inDataTransfer := false }
    (s, [EngineCall.rendererWait, EngineCall.destroyContext, EngineCall.initializeLevel])

/-- The outcome of an operation that has no handler of its own: the engine and
the calls made up to its end, and whether an `Exception` left it. -/
structure Raising where
  engine : Engine
  calls : List EngineCall
  raised : Bool

/-- `Engine::LoadLevelFromText` (Engine.cpp, lines 608-617). -/
def LoadLevelFromText (env : EngineEnv) (o : TextLoadOutcome) (s : Engine) : Raising :=
  let s := { s with level := none }
  let s := { s with renderer := s.renderer.DestroyContext }
  match o with
  | .ctorThrows =>
    { engine := s, calls := [EngineCall.destroyContext], raised := true }
  | .textThrows level =>
    let s := { s with level := some level }
    { engine := s, calls := [EngineCall.destroyContext], raised := true }
  | .initThrows level =>
    let s := { s with level := some level }
    let s := { s with inDataTransfer := true }
    let s := { s with renderer := { s.renderer with level := some level } }
    { engine := s, calls := [EngineCall.destroyContext, EngineCall.initializeLevel],
      raised := true }
  | .ok level =>
    let s := { s with level := some level }
    let s := { s with inDataTransfer := true }
    let s := { s with renderer := s.renderer.InitializeLevel env.rendererEnv (some level) }
    let s := { s with inDataTransfer := false }
    { engine := s, calls := [EngineCall.destroyContext, EngineCall.initializeLevel],
      raised := false }

/-- The calls that hand work to the GPU: job submission and the renderer
operations that record and submit a frame. -/
def submitsWork (c : EngineCall) : Bool :=
  match c with
  | .beginJobSubmission => true
  | .queueDrawCommands _ _ _ => true
  | .endJobSubmission _ => true
  | .renderFrame => true
  | .initializeLevel => true
  | _ => false

/-- Whether every `DestroyContext` in `calls` comes after a `Renderer::Wait`
of the same list with no GPU work handed over in between; `waited` tells
whether such a `Wait` has already been seen. -/
def waitsBeforeDestroy (waited : Bool) (calls : List EngineCall) : Bool :=
  match calls with
  | [] => true
  | c :: rest =>
    if c = EngineCall.rendererWait then waitsBeforeDestroy true rest
    else if c = EngineCall.destroyContext then waited && waitsBeforeDestroy waited rest
    else if submitsWork c then waitsBeforeDestroy false rest
    else waitsBeforeDestroy waited rest

/-- The game-logic half of `Engine::Tick` (Engine.cpp, lines 306-336): input,
the pending level load, physics, actors, level editor. `none` when
`level->GetPhysicsScene()` dereferences a null `level`. -/
def Tick.gameLogic (env : EngineEnv) (s : Engine) : Option (Engine × List EngineCall) :=
  let input := if env.inputReady && decide (s.frameCounter > 2) then
      [EngineCall.dispatchInput (s.engineMode != EngineMode.Normal)] else []
  let (s, load) :=
    if s.level.isNone then
      if s.levelToLoad.length ≠ 0 then
        let (s, c1) := Print env s
        let (s, c2) := LoadLevel env s
        ({ s with levelToLoad := "" }, c1 ++ c2)
      else (s, [])
    else (s, [])
  match s.level with
  | none => none
  | some level =>
    some (s, input ++ load ++ [EngineCall.physicsTick]
      ++ (List.range level.Actors.length).map EngineCall.actorTick
      ++ (if s.hasLevelEditor then [EngineCall.levelEditorTick] else []))

/-- The local state of the submission loop of `Engine::Tick` (Engine.cpp, lines
366-389): `fencePool[version]`, `syncFences[version]`, `fenceAlloc`, the
object the next `CreateFence()` returns, and the calls made so far.
`version` is not reassigned in the loop, so the two lists are the same two
elements of `fencePool` and `syncFences` throughout. -/
structure SubmitState where
  pool : List Nat
  sync : List Nat
  fenceAlloc : Nat
  nextFence : Nat
  calls : List EngineCall

/-- The body of the submission loop of `Engine::Tick` for a visible window
(Engine.cpp, lines 373-388). -/
def Tick.submitOne (mainWindow : Nat) (w : SystemWindow) (st : SubmitState) : SubmitState :=
  let st := if st.pool.length = st.fenceAlloc then
      { st with pool := st.pool ++ [st.nextFence], nextFence := st.nextFence + 1,
                calls := st.calls ++ [EngineCall.createFence st.nextFence] }
    else st
  let fence := st.pool.getD st.fenceAlloc 0
  let st := { st with fenceAlloc := st.fenceAlloc + 1 }
  let st := { st with calls := st.calls ++
    [EngineCall.fenceReset fence, EngineCall.beginJobSubmission,
     EngineCall.queueDrawCommands w.id (mainWindow == w.id) (some fence),
     EngineCall.endJobSubmission (some fence)] }
  let st := { st with sync := st.sync ++ [fence] }
  if w.clientHeight < 2 then st
  else { st with calls := st.calls ++ [EngineCall.present w.id] }

/-- The submission loop of `Engine::Tick` (Engine.cpp, lines 369-389). -/
def Tick.submit (mainWindow : Nat) (windows : List SystemWindow) (st : SubmitState) :
    SubmitState :=
  match windows with
  | [] => st
  | w :: rest =>
    if !w.visible then
      Tick.submit mainWindow rest st
    else
      Tick.submit mainWindow rest (Tick.submitOne mainWindow w st)

/-- The statistics roll-over at the end of `Engine::Tick` (Engine.cpp, lines
399-411). -/
def Tick.rollStats (s : Engine) : Engine :=
  let stats := s.renderer.sharedRes.renderStats
  if stats.Divisor ≥ 20 then
    let s := { s with renderStats :=
      s.renderStats.set (s.statPtr % (s.renderStats.length : Int)).toNat stats }
    let s := { s with statPtr := s.statPtr + 1 }
    { s with renderer := { s.renderer with sharedRes :=
      { s.renderer.sharedRes with renderStats := stats.Clear } } }
  else s

/-- The rendering half of `Engine::Tick` (Engine.cpp, lines 338-412).
`K` is `DynamicBufferLengthMultiplier`, a constant declared outside the
sources; `frameCounter` is an `unsigned int`. -/
def Tick.render (K : Nat) (env : EngineEnv) (s : Engine) : Engine × List EngineCall :=
  let waits := (s.syncFences.getD (s.frameCounter % K) []).flatMap (fun f =>
    [EngineCall.fenceWait f, EngineCall.fenceReset f])
  let s := { s with inDataTransfer := true }
  let reset := [EngineCall.resetTempBufferVersion (s.frameCounter % K)]
  let s := { s with renderer := s.renderer.RenderFrame }
  let frame := [EngineCall.renderFrame]
  let ui := env.windows.flatMap (fun w =>
    if !w.visible then []
    else [EngineCall.drawUI w.id, EngineCall.transferDrawCommands w.id (env.mainWindow == w.id)])
  let version := s.frameCounter % K
  let s := { s with syncFences := s.syncFences.set version [] }
  let st := Tick.submit env.mainWindow env.windows
    { pool := s.fencePool.getD version [], sync := s.syncFences.getD version [],
      fenceAlloc := 0, nextFence := s.nextFence, calls := [] }
  let s := { s with fencePool := s.fencePool.set version st.pool,
                    syncFences := s.syncFences.set version st.sync,
                    nextFence := st.nextFence }
  let s := { s with inDataTransfer := false }
  let s := Tick.rollStats s
  let s := { s with frameCounter := (s.frameCounter + 1) % 2 ^ 32 }
  (s, waits ++ reset ++ frame ++ ui ++ st.calls)

/-- `Engine::Tick` (Engine.cpp, lines 304-413): the engine afterwards and the
calls made, in order; `none` when the null `level` is dereferenced. -/
def Tick (K : Nat) (env : EngineEnv) (s : Engine) : Option (Engine × List EngineCall) :=
  match Tick.gameLogic env s with
  | none => none
  | some (s, logic) =>
    let (s, render) := Tick.render K env s
    some (s, logic ++ render)

/-- A run of `Tick` calls, one per element of `envs`. -/
def ticks (K : Nat) (envs : List EngineEnv) (s : Engine) : Option Engine :=
  match envs with
  | [] => some s
  | env :: rest =>
    match Tick K env s with
    | none => none
    | some (s, _) => ticks K rest s

/-- The calls `Tick` makes first on the fences of a slot: wait, then reset,
fence by fence. -/
def fenceWaits (fences : List Nat) : List EngineCall :=
  fences.flatMap (fun f => [EngineCall.fenceWait f, EngineCall.fenceReset f])

/-- The number of `CreateFence` calls in a list of calls. -/
def createCount (calls : List EngineCall) : Nat :=
  (calls.filter (fun c => match c with | .createFence _ => true | _ => false)).length

/-- The number of visible windows. -/
def visibleCount (windows : List SystemWindow) : Nat :=
  (windows.filter (fun w => w.visible)).length

/-- The fence bookkeeping that `Tick` keeps: `fencePool` and `syncFences` have
`K` slots; in every slot the pool has no fence twice, every pooled fence was
created before the next `CreateFence`, and `syncFences` lists the first
entries of the pool, in order. -/
def fencesWellFormed (K : Nat) (s : Engine) : Prop :=
  s.fencePool.length = K ∧ s.syncFences.length = K ∧
  ∀ u : Nat, (s.fencePool.getD u []).Nodup ∧ (∀ f ∈ s.fencePool.getD u [], f < s.nextFence) ∧
    s.syncFences.getD u [] = (s.fencePool.getD u []).take (s.syncFences.getD u []).length

end Engine

/-! ## Sample data -/

namespace Sample

/-- Three render procedures with distinct names. -/
def standard : IRenderProcedure := ⟨1, "Standard"⟩

/-- The lightmap debug view procedure of the sample. -/
def lightmapDebug : IRenderProcedure := ⟨2, "Lightmap"⟩

/-- The light probe procedure of the sample. -/
def lightProbe : IRenderProcedure := ⟨3, "LightProbe"⟩

/-- A lightmap set whose mapping has two entries for one lightmap. -/
def mismatched : LightmapSet :=
  { ActorLightmapIds := [(0, 0), (1, 0)], Lightmaps := [⟨64, 64⟩] }

/-- A lightmap set with matching counts and square power-of-two lightmaps. -/
def wellFormed : LightmapSet :=
  { ActorLightmapIds := [(0, 0), (1, 1)], Lightmaps := [⟨64, 64⟩, ⟨1, 1⟩] }

/-- An environment in which no lightmap file is ever found. -/
def noLightmap : RendererEnv :=
  { FindFile := fun _ => "", ReplaceExt := fun f => f, LoadFromFile := fun _ => mismatched,
    MaxEnvMapCount := 32 }

/-- An environment in which every file is found and holds `mismatched`. -/
def badLightmap : RendererEnv :=
  { FindFile := fun f => f, ReplaceExt := fun f => f, LoadFromFile := fun _ => mismatched,
    MaxEnvMapCount := 32 }

/-- An environment in which every file is found and holds `wellFormed`. -/
def goodLightmap : RendererEnv :=
  { FindFile := fun f => f, ReplaceExt := fun f => f, LoadFromFile := fun _ => wellFormed,
    MaxEnvMapCount := 32 }

/-- A level with a light and a drawable and no environment-map actor. -/
def level : Level :=
  { Actors := [{ engineType := EngineActorType.Light, envMapId := -1, position := ⟨0, 0, 0⟩ },
      { engineType := EngineActorType.Drawable, envMapId := -1, position := ⟨1, 2, 3⟩ }],
    hasCamera := true, LightmapFileName := "", FileName := "a.level" }

/-- A level whose only environment-map actor got no env-map id (its
`GetEnvMapId()` is -1). -/
def unallocatedProbeLevel : Level :=
  { Actors := [{ engineType := EngineActorType.EnvMap, envMapId := -1, position := ⟨5, 5, 5⟩ }],
    hasCamera := true, LightmapFileName := "", FileName := "b.level" }

/-- A level with two environment-map actors holding the ids 0 and 1, and a drawable. -/
def probeLevel : Level :=
  { Actors := [{ engineType := EngineActorType.EnvMap, envMapId := 0, position := ⟨5, 5, 5⟩ },
      { engineType := EngineActorType.Drawable, envMapId := -1, position := ⟨1, 2, 3⟩ },
      { engineType := EngineActorType.EnvMap, envMapId := 1, position := ⟨7, 0, 7⟩ }],
    hasCamera := true, LightmapFileName := "", FileName := "c.level" }

/-- The renderer right after construction with the three sample procedures. -/
def renderer : RendererImpl :=
  match RendererImpl.create standard lightmapDebug lightProbe with
  | some r => r
  | none => {}

/-- The sample renderer pointing at the sample level, before any lightmap is
looked for. -/
def entered : RendererImpl :=
  { renderer with level := some level }

/-- The renderer `entered`, holding a device lightmap set from an earlier level. -/
def withLightmap : RendererImpl :=
  { entered with sceneRes := { deviceLightmapSet := some { source := wellFormed } } }

/-- The sample renderer pointing at `probeLevel`. -/
def probing : RendererImpl :=
  { renderer with level := some probeLevel }

/-- The sample renderer pointing at `unallocatedProbeLevel`. -/
def unprobed : RendererImpl :=
  { renderer with level := some unallocatedProbeLevel }

/-- The sample renderer with the sample level loaded. -/
def loaded : RendererImpl :=
  RendererImpl.InitializeLevel noLightmap renderer (some level)

/-- Three windows: the main one, a hidden one, and a visible one of height 1. -/
def windows : List SystemWindow := [⟨10, true, 400⟩, ⟨11, false, 300⟩, ⟨12, true, 1⟩]

/-- The surroundings of a `Tick`: the three windows, input ready. -/
def engineEnv : EngineEnv :=
  { inputReady := true, windows := windows, mainWindow := 10, printRefreshes := false,
    load := LoadOutcome.ok level, rendererEnv := noLightmap }

/-- An engine with two buffering slots at frame 4, the sample level loaded:
slot 0 holds the fences 100 and 101 of frame 2, slot 1 the fence 200. -/
def engine : Engine :=
  { frameCounter := 4, fencePool := [[100, 101], [200]], syncFences := [[100, 101], [200]],
    level := some level, renderer := loaded, renderStats := List.replicate 16 {},
    nextFence := 300 }

/-- The same engine at frame 5, which uses slot 1. -/
def engineOdd : Engine := { engine with frameCounter := 5 }

/-- The sample engine with no level and nothing left to load. -/
def noLevel : Engine := { engine with level := none, levelToLoad := "" }

/-- The sample engine with no level and a level file still to load. -/
def pending : Engine := { engine with level := none, levelToLoad := "missing.level" }

/-- Surroundings in which the level file cannot be read: the `Level`
constructor throws. -/
def unreadable : EngineEnv := { engineEnv with load := LoadOutcome.levelThrows }

/-- Surroundings in which the level is built and `InitializeLevel` throws. -/
def initFails : EngineEnv := { engineEnv with load := LoadOutcome.initThrows level }

/-- A mesh with two element ranges. -/
def mesh : Mesh := { ptr := 40, primType := 4, ElementRanges := [(0, 30), (30, 12)] }

/-- The error material of the level, with its module set. -/
def errorMaterial : Material := { ptr := 99, MaterialModule := true }

/-- The engine as the drawable factory sees it: a level is loaded, and its
error material is available. -/
def serviceEnv : ServiceEnv :=
  { level := some (some errorMaterial), DynamicBufferLengthMultiplier := 2 }

/-- The constants of the sample: four cascades at most. -/
def constants : StandardConstants :=
  { MaxShadowCascades := 4, MaxLightBufferSize := 1000, sizeofLightUniforms := 320 }

/-- A shadow-map allocator of four slots, all free. -/
def shadowMaps : ShadowMapResource :=
  { shadowMapArraySize := 4, shadowMapArrayFreeBits := fun _ => true }

/-- A directional light with three cascades. -/
def sun : Actor :=
  { engineType := EngineActorType.Light, envMapId := -1, position := ⟨0, 0, 0⟩,
    lightType := LightType.Directional, EnableCascadedShadows := true, NumShadowCascades := 3,
    Color := ⟨1, 1, 1⟩, Direction := ⟨0, 1, 0⟩ }

/-- A directional light with two cascades. -/
def moon : Actor :=
  { engineType := EngineActorType.Light, envMapId := -1, position := ⟨0, 0, 0⟩,
    lightType := LightType.Directional, EnableCascadedShadows := true, NumShadowCascades := 2,
    Color := ⟨0, 0, 1⟩, Direction := ⟨1, 0, 0⟩ }

/-- An atmosphere actor. -/
def sky : Actor :=
  { engineType := EngineActorType.Atmosphere, envMapId := -1, position := ⟨0, 0, 0⟩ }

/-- A camera at the origin. -/
def camera : CameraActor := { position := ⟨0, 0, 0⟩ }

/-- A frame with a camera, two directional lights and an atmosphere actor. -/
def outdoor : RenderProcedureParameters ShadowMapResource :=
  { cameras := [camera], Actors := [sun, sky, moon], shadowMapResources := shadowMaps }

/-- A frame with a camera and one directional light, without atmosphere actor. -/
def indoor : RenderProcedureParameters ShadowMapResource :=
  { cameras := [camera], Actors := [sun], shadowMapResources := shadowMaps }

/-- The forward procedure after `Init`. -/
def forward : StandardRenderProcedure := {}

/-- A file lookup that finds the inscatter and transmittance tables but not the
irradiance table. -/
def irradianceMissing (name : String) : String :=
  if name = "Atmosphere/irradiance.raw" then "" else "Game/Materials/" ++ name

/-- A file lookup that finds every file. -/
def allFound (name : String) : String := "Game/Materials/" ++ name

/-- An atmosphere pass before `Create`, whose colour buffer has a texture. -/
def atmospherePass : AtmospherePostRenderPass := { colorBufferTexture := true }

/-- A file system in which `wood.material` exists in the material directories
of both the game and the engine, and nowhere else. -/
def disk : FileSystem :=
  { Exists := fun path =>
      path == "Game/Materials/wood.material" || path == "Engine/Materials/wood.material"
    Combine := fun a b => a ++ "/" ++ b
    Normalize := fun path => path
    engineDir := "Engine"
    gameDir := "Game" }

/-- A `mesh` field, not handled by `Actor::ParseField`, whose mesh fails to load. -/
def missingMesh : FieldInput :=
  { lookAhead := "mesh", nextIsBrace := false, ActorParseField := fun inv => (false, inv),
    loaderReturnsNull := true }

/-- A `Skeleton` field, not handled by `Actor::ParseField`, whose skeleton
fails to load. -/
def missingSkeleton : FieldInput :=
  { lookAhead := "Skeleton", nextIsBrace := false, ActorParseField := fun inv => (false, inv),
    loaderReturnsNull := true }

end Sample

/-! ## Lemmas on the containers -/

namespace EnumerableDictionary

variable {κ ν : Type} [DecidableEq κ]

theorem TryGetValue_set_self (d : EnumerableDictionary κ ν) (k : κ) (v : ν) :
    TryGetValue (set d k v) k = some v := by
  induction d with
  | nil => simp [set, TryGetValue]
  | cons e rest ih =>
    obtain ⟨k0, v0⟩ := e
    by_cases h : k0 = k
    · simp [set, TryGetValue, h]
    · simp [set, TryGetValue, h, ih]

theorem TryGetValue_set_of_ne (d : EnumerableDictionary κ ν) (k k2 : κ) (v : ν) (h : k ≠ k2) :
    TryGetValue (set d k v) k2 = TryGetValue d k2 := by
  induction d with
  | nil => simp [set, TryGetValue, h]
  | cons e rest ih =>
    obtain ⟨k0, v0⟩ := e
    by_cases h0 : k0 = k
    · subst h0
      simp [set, TryGetValue, h]
    · by_cases h1 : k0 = k2
      · subst h1
        simp [set, TryGetValue, h0]
      · simp [set, TryGetValue, h0, h1, ih]

theorem set_of_absent (d : EnumerableDictionary κ ν) (k : κ) (v : ν)
    (h : TryGetValue d k = none) : set d k v = d ++ [(k, v)] := by
  induction d with
  | nil => simp [set]
  | cons e rest ih =>
    obtain ⟨k0, v0⟩ := e
    by_cases h0 : k0 = k
    · simp [TryGetValue, h0] at h
    · simp [TryGetValue, h0] at h
      simp [set, h0, ih h]

theorem TryGetValue_eq_none_iff (d : EnumerableDictionary κ ν) (k : κ) :
    TryGetValue d k = none ↔ k ∉ d.map Prod.fst := by
  induction d with
  | nil => simp [TryGetValue]
  | cons e rest ih =>
    obtain ⟨k0, v0⟩ := e
    by_cases h0 : k0 = k
    · simp [TryGetValue, h0]
    · have h1 : ¬ k = k0 := fun h => h0 h.symm
      simp [TryGetValue, h0, h1, ih]

end EnumerableDictionary

/-! ## World render pass ids (Renderer.cpp, lines 229-237) -/

namespace RendererImpl

open EnumerableDictionary

theorem RegisterWorldRenderPass_stored (r : RendererImpl) (a : Nat) :
    (RegisterWorldRenderPass r a).2.worldRenderPassIds.TryGetValue a
      = some (RegisterWorldRenderPass r a).1 := by
  unfold RegisterWorldRenderPass
  cases h : r.worldRenderPassIds.TryGetValue a with
  | some p => simpa using h
  | none => simp [TryGetValue_set_self]

theorem RegisterWorldRenderPass_keeps (r : RendererImpl) (a k : Nat) (v : Int)
    (h : r.worldRenderPassIds.TryGetValue k = some v) :
    (RegisterWorldRenderPass r a).2.worldRenderPassIds.TryGetValue k = some v := by
  unfold RegisterWorldRenderPass
  cases ha : r.worldRenderPassIds.TryGetValue a with
  | some p => simpa using h
  | none =>
    have hne : a ≠ k := by
      intro e
      subst e
      rw [ha] at h
      cases h
    simp [TryGetValue_set_of_ne _ _ _ _ hne, h]

theorem registerAll_snoc (r : RendererImpl) (ids : List Nat) (a : Nat) :
    registerAll r (ids ++ [a])
      = ((registerAll r ids).1 ++ [(RegisterWorldRenderPass (registerAll r ids).2 a).1],
          (RegisterWorldRenderPass (registerAll r ids).2 a).2) := by
  simp [registerAll, List.foldl_append]

theorem registerAll_length (r : RendererImpl) (ids : List Nat) :
    (registerAll r ids).1.length = ids.length := by
  induction ids using List.reverseRecOn with
  | nil => simp [registerAll]
  | append_singleton ids a ih => simp [registerAll_snoc, ih]

/-- Every call returns the id that the final dictionary stores for its shader id. -/
theorem registerAll_result_stored (r : RendererImpl) (ids : List Nat) :
    ∀ (i : Nat) (a : Nat), ids[i]? = some a →
      ∃ p, (registerAll r ids).1[i]? = some p ∧
        (registerAll r ids).2.worldRenderPassIds.TryGetValue a = some p := by
  induction ids using List.reverseRecOn with
  | nil => intro i a h; simp at h
  | append_singleton ids a0 ih =>
    intro i a h
    have hlen := registerAll_length r ids
    rw [registerAll_snoc]
    by_cases hi : i < ids.length
    · rw [List.getElem?_append_left hi] at h
      obtain ⟨p, hp1, hp2⟩ := ih i a h
      refine ⟨p, ?_, RegisterWorldRenderPass_keeps _ _ _ _ hp2⟩
      have hi2 : i < (registerAll r ids).1.length := by omega
      simp only []
      rw [List.getElem?_append_left hi2]
      exact hp1
    · have hi2 : ids.length ≤ i := by omega
      rw [List.getElem?_append_right hi2] at h
      have hi3 : i - ids.length = 0 := by
        by_contra hne
        have : (i - ids.length) = (i - ids.length - 1) + 1 := by omega
        rw [this] at h
        simp at h
      have hieq : i = ids.length := by omega
      rw [hi3] at h
      simp at h
      subst h
      refine ⟨(RegisterWorldRenderPass (registerAll r ids).2 a0).1, ?_,
        RegisterWorldRenderPass_stored _ _⟩
      simp only []
      rw [List.getElem?_append_right (by omega)]
      simp [hieq, hlen]

/-- C1. In any sequence of `RegisterWorldRenderPass` calls on one renderer
(whatever its state when the sequence starts), two calls that pass the same
shader id return the same pass id, whichever ids are registered in between. -/
theorem RegisterWorldRenderPass_same_id (r : RendererImpl) (shaderIds : List Nat)
    (i j : Nat) (a : Nat) (hi : shaderIds[i]? = some a) (hj : shaderIds[j]? = some a) :
    ∃ passId, (registerAll r shaderIds).1[i]? = some passId ∧
      (registerAll r shaderIds).1[j]? = some passId := by
  obtain ⟨p, hp1, hp2⟩ := registerAll_result_stored r shaderIds i a hi
  obtain ⟨q, hq1, hq2⟩ := registerAll_result_stored r shaderIds j a hj
  rw [hp2] at hq2
  cases hq2
  exact ⟨p, hp1, hq1⟩

/-- C1, at a concrete run: shader 7 is registered first and fourth, with
shaders 9 and 3 in between, and gets pass id 0 both times. -/
theorem RegisterWorldRenderPass_same_id_witness :
    ∃ passId, (registerAll {} [7, 9, 3, 7]).1[0]? = some passId ∧
      (registerAll {} [7, 9, 3, 7]).1[3]? = some passId :=
  RegisterWorldRenderPass_same_id {} [7, 9, 3, 7] 0 3 7 (by decide) (by decide)

theorem distinctBefore_snoc_of_mem (ids : List Nat) (a0 a : Nat) (h : a ∈ ids) :
    distinctBefore (ids ++ [a0]) a = distinctBefore ids a := by
  unfold distinctBefore
  rw [List.indexOf_append_of_mem h,
    List.take_append_of_le_length (List.indexOf_le_length)]

theorem distinctBefore_snoc_self (ids : List Nat) (a0 : Nat) (h : a0 ∉ ids) :
    distinctBefore (ids ++ [a0]) a0 = ids.toFinset.card := by
  unfold distinctBefore
  rw [List.indexOf_append_of_not_mem h]
  simp

/-- The invariant of the pass-id dictionary after registering `ids` on a
renderer whose dictionary was empty. -/
theorem registerAll_invariant (r : RendererImpl) (h0 : r.worldRenderPassIds = [])
    (ids : List Nat) :
    (∀ a ∈ ids, (registerAll r ids).2.worldRenderPassIds.TryGetValue a
        = some ((distinctBefore ids a : Nat) : Int)) ∧
    ((registerAll r ids).2.worldRenderPassIds.map Prod.fst).Nodup ∧
    (∀ x, x ∈ (registerAll r ids).2.worldRenderPassIds.map Prod.fst ↔ x ∈ ids) ∧
    (registerAll r ids).2.worldRenderPassIds.map Prod.snd
      = (List.range (registerAll r ids).2.worldRenderPassIds.length).map Int.ofNat := by
  induction ids using List.reverseRecOn with
  | nil => simp [registerAll, h0]
  | append_singleton ids a0 ih =>
    obtain ⟨ih1, ih2, ih3, ih4⟩ := ih
    rw [registerAll_snoc]
    simp only []
    have hcard : (registerAll r ids).2.worldRenderPassIds.length = ids.toFinset.card := by
      have e1 : ((registerAll r ids).2.worldRenderPassIds.map Prod.fst).toFinset = ids.toFinset := by
        ext x
        simp only [List.mem_toFinset]
        exact ih3 x
      rw [← e1, List.toFinset_card_of_nodup ih2, List.length_map]
    by_cases hmem : a0 ∈ ids
    · have hsame : (RegisterWorldRenderPass (registerAll r ids).2 a0).2 = (registerAll r ids).2 := by
        unfold RegisterWorldRenderPass
        rw [ih1 a0 hmem]
      rw [hsame]
      refine ⟨?_, ih2, ?_, ih4⟩
      · intro a ha
        have ha2 : a ∈ ids := by
          rcases List.mem_append.1 ha with h | h
          · exact h
          · simp at h; subst h; exact hmem
        rw [distinctBefore_snoc_of_mem ids a0 a ha2]
        exact ih1 a ha2
      · intro x
        rw [ih3 x]
        constructor
        · intro hx; exact List.mem_append.2 (Or.inl hx)
        · intro hx
          rcases List.mem_append.1 hx with h | h
          · exact h
          · simp at h; subst h; exact hmem
    · have hnone : (registerAll r ids).2.worldRenderPassIds.TryGetValue a0 = none := by
        rw [TryGetValue_eq_none_iff, ih3]
        exact hmem
      have hnew : (RegisterWorldRenderPass (registerAll r ids).2 a0).2.worldRenderPassIds
          = (registerAll r ids).2.worldRenderPassIds
              ++ [(a0, ((registerAll r ids).2.worldRenderPassIds.length : Int))] := by
        unfold RegisterWorldRenderPass
        rw [hnone]
        simp only []
        rw [set_of_absent _ _ _ hnone]
        rfl
      refine ⟨?_, ?_, ?_, ?_⟩
      · intro a ha
        rcases List.mem_append.1 ha with h | h
        · rw [distinctBefore_snoc_of_mem ids a0 a h]
          exact RegisterWorldRenderPass_keeps _ _ _ _ (ih1 a h)
        · simp at h
          subst h
          rw [distinctBefore_snoc_self ids a hmem, RegisterWorldRenderPass_stored]
          unfold RegisterWorldRenderPass
          rw [hnone]
          simp only [Count, hcard]
      · rw [hnew, List.map_append]
        simp only [List.map_cons, List.map_nil]
        rw [List.nodup_append]
        refine ⟨ih2, by simp, ?_⟩
        intro x hx hx2
        simp at hx2
        subst hx2
        exact hmem ((ih3 x).1 hx)
      · intro x
        rw [hnew, List.map_append, List.mem_append, List.mem_append, ih3 x]
        simp
      · rw [hnew, List.map_append, List.length_append, ih4]
        simp [List.range_succ]

/-- In a dictionary whose values are pairwise distinct, a value determines its key. -/
theorem TryGetValue_injective (d : EnumerableDictionary Nat Int) (hv : (d.map Prod.snd).Nodup)
    (a b : Nat) (p : Int) (ha : d.TryGetValue a = some p) (hb : d.TryGetValue b = some p) :
    a = b := by
  have hmem : ∀ (d : EnumerableDictionary Nat Int) (k : Nat) (v : Int),
      d.TryGetValue k = some v → v ∈ d.map Prod.snd := by
    intro d
    induction d with
    | nil => intro k v h; simp [TryGetValue] at h
    | cons e rest ih =>
      obtain ⟨k0, v0⟩ := e
      intro k v h
      by_cases h0 : k0 = k
      · simp [TryGetValue, h0] at h
        simp [h]
      · simp [TryGetValue, h0] at h
        simp [ih k v h]
  induction d with
  | nil => simp [TryGetValue] at ha
  | cons e rest ih =>
    obtain ⟨k0, v0⟩ := e
    simp only [List.map_cons, List.nodup_cons] at hv
    by_cases h1 : k0 = a
    · by_cases h2 : k0 = b
      · rw [← h1, ← h2]
      · simp [TryGetValue, h1] at ha
        simp [TryGetValue, h2] at hb
        have := hmem rest b p hb
        rw [← ha] at this
        exact absurd this hv.1
    · by_cases h2 : k0 = b
      · simp [TryGetValue, h1] at ha
        simp [TryGetValue, h2] at hb
        have := hmem rest a p ha
        rw [← hb] at this
        exact absurd this hv.1
      · simp [TryGetValue, h1] at ha
        simp [TryGetValue, h2] at hb
        exact ih hv.2 ha hb

/-- C2. Pass ids are assigned on first sight. On a renderer whose pass-id
dictionary is empty (a new renderer), after any sequence of
`RegisterWorldRenderPass` calls: the call for shader id `a` returns the number
of distinct shader ids registered before the first registration of `a` (so the
k-th distinct id gets k-1); two calls that return the same pass id passed the
same shader id; and the pass ids in use are exactly `0 .. n-1`, in order of
first registration, where `n` is the number of distinct shader ids. -/
theorem RegisterWorldRenderPass_first_sight (r : RendererImpl)
    (h0 : r.worldRenderPassIds = []) (shaderIds : List Nat) :
    (∀ (i a : Nat), shaderIds[i]? = some a →
      (registerAll r shaderIds).1[i]? = some ((distinctBefore shaderIds a : Nat) : Int)) ∧
    (∀ (i j a b : Nat) (p : Int), shaderIds[i]? = some a → shaderIds[j]? = some b →
      (registerAll r shaderIds).1[i]? = some p → (registerAll r shaderIds).1[j]? = some p →
      a = b) ∧
    (registerAll r shaderIds).2.worldRenderPassIds.map Prod.snd
      = (List.range shaderIds.toFinset.card).map Int.ofNat ∧
    (registerAll r shaderIds).2.worldRenderPassIds.length = shaderIds.toFinset.card := by
  obtain ⟨h1, h2, h3, h4⟩ := registerAll_invariant r h0 shaderIds
  have hcard : (registerAll r shaderIds).2.worldRenderPassIds.length
      = shaderIds.toFinset.card := by
    have e1 : ((registerAll r shaderIds).2.worldRenderPassIds.map Prod.fst).toFinset
        = shaderIds.toFinset := by
      ext x
      simp only [List.mem_toFinset]
      exact h3 x
    rw [← e1, List.toFinset_card_of_nodup h2, List.length_map]
  have hvals : ((registerAll r shaderIds).2.worldRenderPassIds.map Prod.snd).Nodup := by
    rw [h4]
    exact (List.nodup_range _).map (fun x y hxy => by simpa using hxy)
  refine ⟨?_, ?_, ?_, hcard⟩
  · intro i a hi
    obtain ⟨p, hp1, hp2⟩ := registerAll_result_stored r shaderIds i a hi
    have ha : a ∈ shaderIds := List.getElem?_mem hi
    rw [h1 a ha] at hp2
    rw [hp1, ← hp2]
  · intro i j a b p hi hj hpi hpj
    obtain ⟨p1, hp1, hp2⟩ := registerAll_result_stored r shaderIds i a hi
    obtain ⟨q1, hq1, hq2⟩ := registerAll_result_stored r shaderIds j b hj
    rw [hpi] at hp1
    rw [hpj] at hq1
    cases hp1
    cases hq1
    exact TryGetValue_injective _ hvals a b p hp2 hq2
  · rw [h4, hcard]

/-- C2, at a concrete run on a new renderer: of the shader ids 7, 9, 7, 3 the
third call repeats the first, so 3 is the third distinct id and gets pass id 2. -/
theorem RegisterWorldRenderPass_first_sight_witness :
    (registerAll {} [7, 9, 7, 3]).1 = [0, 1, 0, 2] ∧
    (registerAll {} [7, 9, 7, 3]).1[3]? = some ((distinctBefore [7, 9, 7, 3] 3 : Nat) : Int) :=
  ⟨by decide, (RegisterWorldRenderPass_first_sight {} rfl [7, 9, 7, 3]).1 3 3 (by decide)⟩

end RendererImpl

end GameEngine

/-! ## Frames, debug views and level initialisation (Renderer.cpp) -/

namespace GameEngine

namespace RendererImpl

open EnumerableDictionary

theorem runCount_append (a b : List RenderCall) :
    runCount (a ++ b) = runCount a + runCount b := by
  simp [runCount, List.filter_append]

theorem waitCount_append (a b : List RenderCall) :
    waitCount (a ++ b) = waitCount a + waitCount b := by
  simp [waitCount, List.filter_append]

theorem runCount_runOfActive (r : RendererImpl) :
    runCount (runOfActive r) = if r.currentRenderProcedure.isSome then 1 else 0 := by
  unfold runOfActive
  cases r.currentRenderProcedure <;> simp [runCount]

theorem waitCount_runOfActive (r : RendererImpl) : waitCount (runOfActive r) = 0 := by
  unfold runOfActive
  cases r.currentRenderProcedure <;> simp [waitCount]

theorem RunRenderProcedure_of_level (r : RendererImpl) (L : Level) (h : r.level = some L) :
    RunRenderProcedure r = { r with log := r.log ++ runOfActive r } := by
  rcases r with ⟨a, b, c, d, e, f, g, lv, i, j, k⟩
  simp only at h
  subst h
  cases c <;> simp [RunRenderProcedure, runOfActive, emit]

theorem RenderFrame_of_level (r : RendererImpl) (L : Level) (h : r.level = some L) :
    (RenderFrame r).log = r.log ++ runOfActive r ∧
    (RenderFrame r).sharedRes.renderStats.Divisor = r.sharedRes.renderStats.Divisor + 1 ∧
    (RenderFrame r).level = some L := by
  unfold RenderFrame
  rw [h]
  simp only []
  rw [RunRenderProcedure_of_level _ L rfl]
  simp [runOfActive]

/-- C5, amended. `RenderFrame` does nothing when no level is loaded. When a
level is loaded it adds exactly 1 to `renderStats.Divisor` and its only calls
are: one `Run` on the active render procedure when there is one, and no call
at all when `currentRenderProcedure` is null; in particular it never calls
`Wait` on the hardware renderer. -/
theorem RenderFrame_spec (r : RendererImpl) :
    (r.level = none → RenderFrame r = r) ∧
    (∀ L, r.level = some L →
      (RenderFrame r).sharedRes.renderStats.Divisor = r.sharedRes.renderStats.Divisor + 1 ∧
      (RenderFrame r).log = r.log ++ runOfActive r ∧
      runCount (RenderFrame r).log
        = runCount r.log + (if r.currentRenderProcedure.isSome then 1 else 0) ∧
      waitCount (RenderFrame r).log = waitCount r.log) := by
  constructor
  · intro h
    unfold RenderFrame
    rw [h]
  · intro L h
    obtain ⟨e1, e2, -⟩ := RenderFrame_of_level r L h
    refine ⟨e2, e1, ?_, ?_⟩
    · rw [e1, runCount_append, runCount_runOfActive]
    · rw [e1, waitCount_append, waitCount_runOfActive]
      rfl

/-- C5, at a concrete renderer: the sample level is loaded and the standard
procedure is active; a frame adds 1 to the divisor and runs that procedure once. -/
theorem RenderFrame_spec_witness :
    (RenderFrame Sample.loaded).sharedRes.renderStats.Divisor = 0 + 1 ∧
    (RenderFrame Sample.loaded).log = Sample.loaded.log ++ [RenderCall.procRun 1] :=
  ⟨((RenderFrame_spec Sample.loaded).2 Sample.level (by decide)).1,
   ((RenderFrame_spec Sample.loaded).2 Sample.level (by decide)).2.1⟩

/-- C5 as stated fails: after `SetDebugView` with a name that is not
registered a level is still loaded, and `RenderFrame` runs no render procedure. -/
theorem RenderFrame_without_procedure_runs_nothing :
    (SetDebugView Sample.loaded "NoSuchView").level = some Sample.level ∧
    runCount (RenderFrame (SetDebugView Sample.loaded "NoSuchView")).log
      = runCount (SetDebugView Sample.loaded "NoSuchView").log ∧
    ¬ (runCount (RenderFrame (SetDebugView Sample.loaded "NoSuchView")).log
      = runCount (SetDebugView Sample.loaded "NoSuchView").log + 1) := by
  decide

theorem TryGetValue_mem {κ ν : Type} [DecidableEq κ] (d : EnumerableDictionary κ ν) (k : κ)
    (v : ν) (h : d.TryGetValue k = some v) : (k, v) ∈ d := by
  induction d with
  | nil => simp [TryGetValue] at h
  | cons e rest ih =>
    obtain ⟨k0, v0⟩ := e
    by_cases h0 : k0 = k
    · simp [TryGetValue, h0] at h
      simp [h0, h]
    · simp [TryGetValue, h0] at h
      simp [ih h]

/-- C6, amended. After construction the active render procedure is the first
one registered. After `SetDebugView(viewName)` it is the procedure registered
under `viewName` when there is one, and null when `viewName` is not the name
of a registered procedure; so at most one procedure is active at any time. -/
theorem SetDebugView_spec :
    (∀ standard lightmapDebug lightProbe : IRenderProcedure,
      standard.name ≠ lightmapDebug.name → standard.name ≠ lightProbe.name →
      lightmapDebug.name ≠ lightProbe.name →
      ∃ r, create standard lightmapDebug lightProbe = some r ∧
        r.currentRenderProcedure = some standard ∧
        r.renderProcedures = [(standard.name, standard), (lightmapDebug.name, lightmapDebug),
          (lightProbe.name, lightProbe)]) ∧
    (∀ (r : RendererImpl) (viewName : String),
      (∀ proc, r.renderProcedures.TryGetValue viewName = some proc →
        (SetDebugView r viewName).currentRenderProcedure = some proc ∧
        (viewName, proc) ∈ r.renderProcedures) ∧
      (viewName ∉ r.renderProcedures.map Prod.fst →
        (SetDebugView r viewName).currentRenderProcedure = none)) := by
  constructor
  · intro p1 p2 p3 h12 h13 h23
    simp [create, RegisterRenderProcedure, EnumerableDictionary.Add, TryGetValue, emit,
      h12, h13, h23]
  · intro r viewName
    constructor
    · intro proc h
      refine ⟨?_, TryGetValue_mem _ _ _ h⟩
      unfold SetDebugView
      simp [h]
    · intro h
      have hn := (TryGetValue_eq_none_iff r.renderProcedures viewName).2 h
      unfold SetDebugView
      simp [hn]

/-- C6, at the sample renderer: construction succeeds and makes the standard
procedure active. -/
theorem SetDebugView_spec_witness :
    ∃ r, create Sample.standard Sample.lightmapDebug Sample.lightProbe = some r ∧
      r.currentRenderProcedure = some Sample.standard ∧
      r.renderProcedures = [(Sample.standard.name, Sample.standard),
        (Sample.lightmapDebug.name, Sample.lightmapDebug),
        (Sample.lightProbe.name, Sample.lightProbe)] :=
  SetDebugView_spec.1 Sample.standard Sample.lightmapDebug Sample.lightProbe
    (by decide) (by decide) (by decide)

/-- C6 as stated fails: on the renderer just constructed with three registered
procedures, `SetDebugView` with an unregistered name leaves
`currentRenderProcedure` null. -/
theorem SetDebugView_unknown_name_gives_null :
    create Sample.standard Sample.lightmapDebug Sample.lightProbe = some Sample.renderer ∧
    Sample.renderer.renderProcedures.length = 3 ∧
    (SetDebugView Sample.renderer "NoSuchView").currentRenderProcedure = none := by
  decide

theorem TryLoadLightmap_frame (env : RendererEnv) (r : RendererImpl) :
    (TryLoadLightmap env r).level = r.level ∧
    (TryLoadLightmap env r).currentRenderProcedure = r.currentRenderProcedure ∧
    (TryLoadLightmap env r).defaultEnvMapId = r.defaultEnvMapId ∧
    (TryLoadLightmap env r).sharedRes = r.sharedRes := by
  unfold TryLoadLightmap
  cases h : r.level with
  | none => simp [h]
  | some L =>
    simp only []
    split_ifs <;> simp [emit, h]

theorem rebind_frame (procs : List (String × IRenderProcedure)) (r : RendererImpl) :
    (InitializeLevel.rebind procs r).level = r.level ∧
    (InitializeLevel.rebind procs r).currentRenderProcedure = r.currentRenderProcedure ∧
    (InitializeLevel.rebind procs r).defaultEnvMapId = r.defaultEnvMapId ∧
    (InitializeLevel.rebind procs r).sharedRes = r.sharedRes := by
  induction procs generalizing r with
  | nil => simp [InitializeLevel.rebind]
  | cons p rest ih =>
    simp only [InitializeLevel.rebind]
    obtain ⟨h1, h2, h3, h4⟩ := ih (emit (.updateSceneResourceBinding p.2.ptr)
      (emit (.updateSharedResourceBinding p.2.ptr) r))
    exact ⟨h1, h2, h3, h4⟩

theorem loop_frame (actors : List Actor) (r : RendererImpl) (n : Int) :
    (UpdateLightProbes.loop actors r n).1.level = r.level ∧
    (UpdateLightProbes.loop actors r n).1.currentRenderProcedure = r.currentRenderProcedure ∧
    (UpdateLightProbes.loop actors r n).1.defaultEnvMapId = r.defaultEnvMapId ∧
    (UpdateLightProbes.loop actors r n).1.sharedRes = r.sharedRes := by
  induction actors generalizing r n with
  | nil => simp [UpdateLightProbes.loop]
  | cons a rest ih =>
    simp only [UpdateLightProbes.loop]
    split_ifs with h1 h2
    · obtain ⟨e1, e2, e3, e4⟩ := ih (emit (.renderLightProbe a.envMapId a.position) r) (n + 1)
      exact ⟨e1, e2, e3, e4⟩
    · exact ih r (n + 1)
    · exact ih r n

theorem UpdateLightProbes_frame (env : RendererEnv) (r : RendererImpl) :
    (UpdateLightProbes env r).level = r.level ∧
    (UpdateLightProbes env r).currentRenderProcedure = r.currentRenderProcedure := by
  unfold UpdateLightProbes
  cases h : r.level with
  | none => simp [h]
  | some L =>
    obtain ⟨e1, e2, -, -⟩ := loop_frame L.Actors r 0
    simp only []
    split_ifs <;> simp [emit, e1, e2, h]

theorem prepared_frame (env : RendererEnv) (r : RendererImpl) (L : Level) :
    (InitializeLevel.prepared env r L).level = some L ∧
    (InitializeLevel.prepared env r L).currentRenderProcedure = r.currentRenderProcedure := by
  unfold InitializeLevel.prepared
  simp only []
  obtain ⟨a1, a2⟩ := UpdateLightProbes_frame env
    (InitializeLevel.rebind
      ({ TryLoadLightmap env { r with level := some L } with defaultEnvMapId := -1 }).renderProcedures
      { TryLoadLightmap env { r with level := some L } with defaultEnvMapId := -1 })
  obtain ⟨b1, b2, -, -⟩ := rebind_frame
    ({ TryLoadLightmap env { r with level := some L } with defaultEnvMapId := -1 }).renderProcedures
    { TryLoadLightmap env { r with level := some L } with defaultEnvMapId := -1 }
  obtain ⟨c1, c2, -, -⟩ := TryLoadLightmap_frame env { r with level := some L }
  constructor
  · rw [a1, b1]; exact c1
  · rw [a2, b2]; exact c2

theorem runOfActive_congr (r1 r2 : RendererImpl)
    (h : r1.currentRenderProcedure = r2.currentRenderProcedure) :
    runOfActive r1 = runOfActive r2 := by
  unfold runOfActive
  rw [h]

theorem InitializeLevel_some (env : RendererEnv) (r : RendererImpl) (L : Level) :
    InitializeLevel env r (some L)
      = { Wait (RenderFrame (RunRenderProcedure (InitializeLevel.prepared env r L))) with
          sharedRes := { (Wait (RenderFrame (RunRenderProcedure
              (InitializeLevel.prepared env r L)))).sharedRes with
            renderStats := (Wait (RenderFrame (RunRenderProcedure
              (InitializeLevel.prepared env r L)))).sharedRes.renderStats.Clear } } := rfl

/-- C7, amended. `InitializeLevel` with a null level changes nothing. With a
non-null level, once the light probes are updated, its remaining calls are:
`Run` on the active render procedure twice (once by the direct
`RunRenderProcedure()` and once inside the single `RenderFrame()`), or no
`Run` at all when `currentRenderProcedure` is null, and then one `Wait()` on
the hardware renderer; the level is then loaded and the statistics cleared. -/
theorem InitializeLevel_spec (env : RendererEnv) (r : RendererImpl) :
    InitializeLevel env r none = r ∧
    (∀ L : Level,
      (InitializeLevel env r (some L)).log
        = (InitializeLevel.prepared env r L).log ++ runOfActive r ++ runOfActive r
            ++ [RenderCall.hwWait] ∧
      runCount (InitializeLevel env r (some L)).log
        = runCount (InitializeLevel.prepared env r L).log
            + (if r.currentRenderProcedure.isSome then 2 else 0) ∧
      (InitializeLevel env r (some L)).level = some L ∧
      (InitializeLevel env r (some L)).sharedRes.renderStats.Divisor = 0) := by
  constructor
  · rfl
  · intro L
    obtain ⟨hl, hc⟩ := prepared_frame env r L
    have hrun := RunRenderProcedure_of_level (InitializeLevel.prepared env r L) L hl
    have hl2 : (RunRenderProcedure (InitializeLevel.prepared env r L)).level = some L := by
      rw [hrun]; exact hl
    obtain ⟨hlog, -, hlevel3⟩ :=
      RenderFrame_of_level (RunRenderProcedure (InitializeLevel.prepared env r L)) L hl2
    have hcur2 : (RunRenderProcedure (InitializeLevel.prepared env r L)).currentRenderProcedure
        = r.currentRenderProcedure := by
      rw [hrun]; exact hc
    have e : (InitializeLevel env r (some L)).log
        = (InitializeLevel.prepared env r L).log ++ runOfActive r ++ runOfActive r
            ++ [RenderCall.hwWait] := by
      rw [InitializeLevel_some]
      show ((RenderFrame (RunRenderProcedure (InitializeLevel.prepared env r L))).log
        ++ [RenderCall.hwWait]) = _
      rw [hlog, hrun]
      simp only []
      rw [runOfActive_congr _ r hc,
        runOfActive_congr { InitializeLevel.prepared env r L with
          log := (InitializeLevel.prepared env r L).log ++ runOfActive r } r hc]
    refine ⟨e, ?_, ?_, ?_⟩
    · rw [e]
      simp only [runCount_append, runCount_runOfActive]
      cases r.currentRenderProcedure <;> simp [runCount]
    · rw [InitializeLevel_some]
      exact hlevel3
    · rw [InitializeLevel_some]
      rfl

/-- C7 as stated fails: on the sample renderer, whose standard procedure is
active, the calls of `InitializeLevel` that follow the light probe update
are two `Run` calls on that procedure and one `Wait`, not one `Run`. -/
theorem InitializeLevel_runs_procedure_twice :
    (InitializeLevel Sample.noLightmap Sample.renderer (some Sample.level)).log
      = (InitializeLevel.prepared Sample.noLightmap Sample.renderer Sample.level).log
          ++ [RenderCall.procRun 1, RenderCall.procRun 1, RenderCall.hwWait] ∧
    ¬ (runCount (InitializeLevel Sample.noLightmap Sample.renderer (some Sample.level)).log
      = runCount (InitializeLevel.prepared Sample.noLightmap Sample.renderer Sample.level).log
          + 1) := by
  decide

/-! ## Lightmap validation (Renderer.cpp, lines 281-305) -/

/-- C8. When a lightmap file is found and the loaded set has a number of
actor-to-lightmap entries different from its number of lightmaps,
`TryLoadLightmap` returns normally, with the device lightmap set null and
nothing else changed, whatever device lightmap set there was before. -/
theorem TryLoadLightmap_count_mismatch (env : RendererEnv) (r : RendererImpl) (L : Level)
    (hL : r.level = some L) (hfile : (lightmapFileOf env L).length ≠ 0)
    (hcount : (env.LoadFromFile (lightmapFileOf env L)).ActorLightmapIds.length
      ≠ (env.LoadFromFile (lightmapFileOf env L)).Lightmaps.length) :
    TryLoadLightmap env r = { r with sceneRes := { r.sceneRes with deviceLightmapSet := none } } ∧
    (TryLoadLightmap env r).sceneRes.deviceLightmapSet = none := by
  have e : TryLoadLightmap env r
      = { r with sceneRes := { r.sceneRes with deviceLightmapSet := none } } := by
    unfold TryLoadLightmap
    rw [hL]
    simp only []
    rw [if_pos hfile, if_pos hcount]
  rw [e]
  exact ⟨rfl, rfl⟩

/-- C8, at a concrete renderer: a device lightmap set is present, the file
found holds two mapping entries for one lightmap, and the set ends up null. -/
theorem TryLoadLightmap_count_mismatch_witness :
    Sample.withLightmap.sceneRes.deviceLightmapSet ≠ none ∧
    (TryLoadLightmap Sample.badLightmap Sample.withLightmap).sceneRes.deviceLightmapSet = none :=
  ⟨by decide, (TryLoadLightmap_count_mismatch Sample.badLightmap Sample.withLightmap
    Sample.level rfl (by decide) (by decide)).2⟩

theorem count_below_eq_min (w : Int) (n : Nat) :
    ((List.range n).filter (fun k => decide ((2 : Int) ^ k < w))).length
      = min n (Nat.clog 2 w.toNat) := by
  induction n with
  | zero => simp
  | succ n ih =>
    rw [List.range_succ, List.filter_append, List.length_append, ih]
    have key : ((2 : Int) ^ n < w) ↔ n < Nat.clog 2 w.toNat := by
      rw [← Nat.pow_lt_iff_lt_clog (by norm_num : 1 < 2), Int.lt_toNat]
      push_cast
      rfl
    by_cases h : (2 : Int) ^ n < w
    · have h2 := key.1 h
      simp [h]
      omega
    · have h2 : ¬ n < Nat.clog 2 w.toNat := fun c => h (key.2 c)
      simp [h]
      omega

/-- On 32-bit values the model of `Log2Ceil` is the ceiling of the base-2 logarithm. -/
theorem Log2Ceil_eq_clog (w : Int) (h : w < 2 ^ 31) : Log2Ceil w = Nat.clog 2 w.toNat := by
  unfold Log2Ceil
  rw [count_below_eq_min]
  have : Nat.clog 2 w.toNat ≤ 31 := by
    rw [← Nat.le_pow_iff_clog_le (by norm_num : 1 < 2)]
    omega
  omega

theorem wrapInt32_of_small (x : Int) (h1 : -2 ^ 31 ≤ x) (h2 : x < 2 ^ 31) : wrapInt32 x = x := by
  unfold wrapInt32
  rw [Int.emod_eq_of_lt (by omega) (by omega)]
  omega

/-- On a 32-bit width the test `(1 << Log2Ceil(w)) != w` holds exactly when
`w` is not a power of two. -/
theorem shift_test_iff (w : Int) (h1 : -2 ^ 31 ≤ w) (h2 : w < 2 ^ 31) :
    (shiftLeftOne (Log2Ceil w) != w) = true ↔ ¬ ∃ k : Nat, w = 2 ^ k := by
  rw [Log2Ceil_eq_clog w h2]
  simp only [bne_iff_ne, ne_eq]
  rw [not_iff_not]
  constructor
  · intro h
    have hc : Nat.clog 2 w.toNat ≤ 31 := by
      rw [← Nat.le_pow_iff_clog_le (by norm_num : 1 < 2)]
      omega
    rcases Nat.lt_or_ge (Nat.clog 2 w.toNat) 31 with hlt | hge
    · refine ⟨Nat.clog 2 w.toNat, ?_⟩
      have hp : (2 : Int) ^ (Nat.clog 2 w.toNat) < 2 ^ 31 :=
        pow_lt_pow_right₀ (by norm_num) hlt
      have hpos : (0 : Int) < 2 ^ (Nat.clog 2 w.toNat) := by positivity
      unfold shiftLeftOne at h
      rw [wrapInt32_of_small _ (by omega) hp] at h
      exact h.symm
    · have h31 : Nat.clog 2 w.toNat = 31 := by omega
      rw [h31] at h
      have hw : w = -2 ^ 31 := by
        rw [← h]
        unfold shiftLeftOne wrapInt32
        norm_num
      have : w.toNat = 0 := by
        rw [hw]
        rfl
      rw [this] at h31
      simp at h31
  · rintro ⟨k, hk⟩
    have hk31 : k < 31 := by
      by_contra hge
      have : (2 : Int) ^ 31 ≤ 2 ^ k := pow_le_pow_right₀ (by norm_num) (by omega)
      omega
    have hnat : w.toNat = 2 ^ k := by
      rw [hk]
      have : ((2 : Int) ^ k) = (((2 ^ k : Nat)) : Int) := by push_cast; rfl
      rw [this, Int.toNat_natCast]
    rw [hnat, Nat.clog_pow 2 k (by norm_num)]
    unfold shiftLeftOne
    have hpos : (0 : Int) < 2 ^ k := by positivity
    rw [wrapInt32_of_small _ (by omega) (by omega)]
    exact hk.symm

/-- C9. When a lightmap file is found and the counts of the loaded set match,
`TryLoadLightmap` creates the device lightmap set if and only if every
lightmap has `Width` equal to `Height` and `Width` a power of two. For any
32-bit `Width`, zero and negative ones included, the source's test
`(1 << Log2Ceil(Width)) != Width` holds exactly when `Width` is not a power of
two. -/
theorem TryLoadLightmap_enables_iff (env : RendererEnv) (r : RendererImpl) (L : Level)
    (hL : r.level = some L) (hfile : (lightmapFileOf env L).length ≠ 0)
    (hcount : (env.LoadFromFile (lightmapFileOf env L)).ActorLightmapIds.length
      = (env.LoadFromFile (lightmapFileOf env L)).Lightmaps.length)
    (hint : ∀ lm ∈ (env.LoadFromFile (lightmapFileOf env L)).Lightmaps,
      -2 ^ 31 ≤ lm.Width ∧ lm.Width < 2 ^ 31) :
    ((TryLoadLightmap env r).sceneRes.deviceLightmapSet
        = some { source := env.LoadFromFile (lightmapFileOf env L) }
      ↔ ∀ lm ∈ (env.LoadFromFile (lightmapFileOf env L)).Lightmaps,
          lm.Width = lm.Height ∧ ∃ k : Nat, lm.Width = 2 ^ k) ∧
    ((TryLoadLightmap env r).sceneRes.deviceLightmapSet = none
      ↔ ¬ ∀ lm ∈ (env.LoadFromFile (lightmapFileOf env L)).Lightmaps,
          lm.Width = lm.Height ∧ ∃ k : Nat, lm.Width = 2 ^ k) ∧
    (∀ w : Int, -2 ^ 31 ≤ w → w < 2 ^ 31 →
      ((shiftLeftOne (Log2Ceil w) != w) = true ↔ ¬ ∃ k : Nat, w = 2 ^ k)) := by
  have hany : (env.LoadFromFile (lightmapFileOf env L)).Lightmaps.any lightmapRejected = false
      ↔ ∀ lm ∈ (env.LoadFromFile (lightmapFileOf env L)).Lightmaps,
          lm.Width = lm.Height ∧ ∃ k : Nat, lm.Width = 2 ^ k := by
    rw [List.any_eq_false]
    constructor
    · intro h lm hlm
      have h3 := h lm hlm
      obtain ⟨b1, b2⟩ := hint lm hlm
      have hs := shift_test_iff lm.Width b1 b2
      unfold lightmapRejected at h3
      simp only [Bool.or_eq_true, not_or, bne_iff_ne, ne_eq, not_not] at h3
      refine ⟨h3.1, ?_⟩
      by_contra hne
      have := hs.2 hne
      simp only [bne_iff_ne, ne_eq] at this
      exact this h3.2
    · intro h lm hlm
      obtain ⟨e1, e2⟩ := h lm hlm
      obtain ⟨b1, b2⟩ := hint lm hlm
      have hs := shift_test_iff lm.Width b1 b2
      unfold lightmapRejected
      simp only [Bool.or_eq_true, not_or, bne_iff_ne, ne_eq, not_not]
      refine ⟨e1, ?_⟩
      by_contra hne
      have h4 : (shiftLeftOne (Log2Ceil lm.Width) != lm.Width) = true := by
        simp only [bne_iff_ne, ne_eq]
        exact hne
      exact (hs.1 h4) e2
  have hcases : (TryLoadLightmap env r).sceneRes.deviceLightmapSet
      = if (env.LoadFromFile (lightmapFileOf env L)).Lightmaps.any lightmapRejected = true
        then none else some { source := env.LoadFromFile (lightmapFileOf env L) } := by
    unfold TryLoadLightmap
    rw [hL]
    simp only []
    rw [if_pos hfile, if_neg (not_not.2 hcount)]
    split_ifs <;> simp [emit]
  refine ⟨?_, ?_, shift_test_iff⟩
  · rw [hcases, ← hany]
    cases (env.LoadFromFile (lightmapFileOf env L)).Lightmaps.any lightmapRejected <;> simp
  · rw [hcases, ← hany]
    cases (env.LoadFromFile (lightmapFileOf env L)).Lightmaps.any lightmapRejected <;> simp

/-- C9, at a concrete renderer: the file found holds a 64 x 64 and a 1 x 1
lightmap for two mapped actors, and the device lightmap set is created. -/
theorem TryLoadLightmap_enables_iff_witness :
    (TryLoadLightmap Sample.goodLightmap Sample.entered).sceneRes.deviceLightmapSet
      = some { source := Sample.wellFormed } :=
  (TryLoadLightmap_enables_iff Sample.goodLightmap Sample.entered Sample.level rfl
    (by decide) (by decide) (by decide)).1.2
    (by
      intro lm hlm
      have h : lm = ⟨64, 64⟩ ∨ lm = ⟨1, 1⟩ := by
        simpa [Sample.goodLightmap, Sample.wellFormed] using hlm
      rcases h with h | h
      · subst h
        exact ⟨rfl, 6, by norm_num⟩
      · subst h
        exact ⟨rfl, 0, by norm_num⟩)

/-! ## The default light probe (Renderer.cpp, lines 259-280) -/

theorem loop_without_envmap (actors : List Actor) (r : RendererImpl) (n : Int)
    (h : ∀ a ∈ actors, a.engineType ≠ EngineActorType.EnvMap) :
    UpdateLightProbes.loop actors r n = (r, n) := by
  induction actors with
  | nil => rfl
  | cons a rest ih =>
    have ha : a.engineType ≠ EngineActorType.EnvMap := h a (List.mem_cons_self _ _)
    simp only [UpdateLightProbes.loop, if_neg ha]
    exact ih (fun b hb => h b (List.mem_cons_of_mem _ hb))

theorem UpdateLightProbes_keeps_default (env : RendererEnv) (r : RendererImpl)
    (h : r.defaultEnvMapId ≠ -1) :
    (UpdateLightProbes env r).defaultEnvMapId = r.defaultEnvMapId ∧
    (UpdateLightProbes env r).sharedRes = r.sharedRes := by
  unfold UpdateLightProbes
  cases hl : r.level with
  | none => simp
  | some L =>
    obtain ⟨-, -, e3, e4⟩ := loop_frame L.Actors r 0
    have h2 : (UpdateLightProbes.loop L.Actors r 0).1.defaultEnvMapId ≠ -1 := by
      rw [e3]; exact h
    simp only []
    split_ifs
    · simp [emit, e3, e4]
    · simp [e3, e4]

theorem RenderFrame_keeps_default (r : RendererImpl) :
    (RenderFrame r).defaultEnvMapId = r.defaultEnvMapId := by
  unfold RenderFrame
  cases hl : r.level with
  | none => rfl
  | some L =>
    simp only []
    rw [RunRenderProcedure_of_level _ L rfl]

theorem UpdateLightmap_keeps_default (r : RendererImpl) (ls : LightmapSet) :
    (UpdateLightmap r ls).defaultEnvMapId = r.defaultEnvMapId := by
  have hfold : ∀ (procs : List (String × IRenderProcedure)) (r0 : RendererImpl),
      (procs.foldl (fun r proc => emit (.updateSceneResourceBinding proc.2.ptr) r) r0).defaultEnvMapId
        = r0.defaultEnvMapId := by
    intro procs
    induction procs with
    | nil => intro r0; rfl
    | cons p rest ih => intro r0; simp only [List.foldl_cons]; rw [ih]; rfl
  unfold UpdateLightmap
  cases hl : r.level with
  | none => rfl
  | some L =>
    simp only []
    rw [hfold]
    rfl

theorem applyOp_keeps_default (env : RendererEnv) (r : RendererImpl) (op : RendererOp)
    (h : r.defaultEnvMapId ≠ -1) :
    (applyOp env r op).defaultEnvMapId = r.defaultEnvMapId := by
  cases op with
  | UpdateLightProbes => exact (UpdateLightProbes_keeps_default env r h).1
  | RenderFrame => exact RenderFrame_keeps_default r
  | SetDebugView viewName => rfl
  | RegisterWorldRenderPass shaderId =>
    simp only [applyOp, RegisterWorldRenderPass]
    cases r.worldRenderPassIds.TryGetValue shaderId <;> rfl
  | UpdateLightmap ls => exact UpdateLightmap_keeps_default r ls
  | Wait => rfl
  | Resize w h => rfl
  | DestroyContext => rfl
  | levelChanged level => rfl
  | AllocEnvMap => rfl

theorem applyOps_keeps_default (env : RendererEnv) (ops : List RendererOp) (r : RendererImpl)
    (h : r.defaultEnvMapId ≠ -1) :
    (applyOps env r ops).defaultEnvMapId = r.defaultEnvMapId ∧
    defaultEnvMapChanges env r ops = 0 := by
  induction ops generalizing r with
  | nil => exact ⟨rfl, rfl⟩
  | cons op rest ih =>
    have e := applyOp_keeps_default env r op h
    have h2 : (applyOp env r op).defaultEnvMapId ≠ -1 := by rw [e]; exact h
    obtain ⟨i1, i2⟩ := ih (applyOp env r op) h2
    constructor
    · show (applyOps env (applyOp env r op) rest).defaultEnvMapId = _
      rw [i1, e]
    · simp only [defaultEnvMapChanges, e, i2, if_true]

theorem defaultEnvMapChanges_le_one (env : RendererEnv) (ops : List RendererOp)
    (r : RendererImpl) : defaultEnvMapChanges env r ops ≤ 1 := by
  induction ops generalizing r with
  | nil => simp [defaultEnvMapChanges]
  | cons op rest ih =>
    by_cases h : r.defaultEnvMapId = -1
    · by_cases hc : (applyOp env r op).defaultEnvMapId = r.defaultEnvMapId
      · simp only [defaultEnvMapChanges, hc, if_true]
        have := ih (applyOp env r op)
        omega
      · have h2 : (applyOp env r op).defaultEnvMapId ≠ -1 := by
          rw [h] at hc; exact hc
        have := (applyOps_keeps_default env rest (applyOp env r op) h2).2
        simp only [defaultEnvMapChanges, hc, if_false, this]
        omega
    · have := (applyOps_keeps_default env (op :: rest) r h).2
      omega

/-- C10. With a level loaded that has no environment-map actor,
`UpdateLightProbes` makes exactly one `RenderLightProbe` call, at world
position (0, 1000, 0), into `defaultEnvMapId`. That id comes from
`AllocEnvMap` only when `defaultEnvMapId` is -1; once it is allocated a
further `UpdateLightProbes` reuses it and leaves the allocator alone, and over
any sequence of renderer operations other than `InitializeLevel` the id
changes at most once, and not at all when it is already allocated. -/
theorem UpdateLightProbes_default_probe (env : RendererEnv) (r : RendererImpl) (L : Level)
    (hL : r.level = some L)
    (hno : ∀ a ∈ L.Actors, a.engineType ≠ EngineActorType.EnvMap) :
    (UpdateLightProbes env r).log
      = r.log ++ [RenderCall.renderLightProbe (UpdateLightProbes env r).defaultEnvMapId
          ⟨0, 1000, 0⟩] ∧
    (r.defaultEnvMapId = -1 →
      (UpdateLightProbes env r).defaultEnvMapId
          = (r.sharedRes.AllocEnvMap env.MaxEnvMapCount).1 ∧
      (UpdateLightProbes env r).sharedRes = (r.sharedRes.AllocEnvMap env.MaxEnvMapCount).2) ∧
    (r.defaultEnvMapId ≠ -1 →
      (UpdateLightProbes env r).defaultEnvMapId = r.defaultEnvMapId ∧
      (UpdateLightProbes env r).sharedRes = r.sharedRes) ∧
    (∀ ops : List RendererOp,
      defaultEnvMapChanges env r ops ≤ 1 ∧
      (r.defaultEnvMapId ≠ -1 →
        defaultEnvMapChanges env r ops = 0 ∧
        (applyOps env r ops).defaultEnvMapId = r.defaultEnvMapId)) := by
  have hloop := loop_without_envmap L.Actors r 0 hno
  refine ⟨?_, ?_, UpdateLightProbes_keeps_default env r, ?_⟩
  · unfold UpdateLightProbes
    rw [hL]
    simp only [hloop, if_true]
    by_cases h : r.defaultEnvMapId = -1
    · simp [h, emit]
    · simp [h, emit]
  · intro h
    unfold UpdateLightProbes
    rw [hL]
    simp only [hloop, if_true]
    simp [h, emit]
  · intro ops
    refine ⟨defaultEnvMapChanges_le_one env ops r, fun h => ?_⟩
    obtain ⟨a, b⟩ := applyOps_keeps_default env ops r h
    exact ⟨b, a⟩

/-- C10, at the sample renderer: the sample level has no environment-map
actor, so a further `UpdateLightProbes` renders the one default probe into the
id 0 allocated when the level was initialised. -/
theorem UpdateLightProbes_default_probe_witness :
    (UpdateLightProbes Sample.noLightmap Sample.loaded).log
      = Sample.loaded.log ++ [RenderCall.renderLightProbe
          (UpdateLightProbes Sample.noLightmap Sample.loaded).defaultEnvMapId ⟨0, 1000, 0⟩] ∧
    (UpdateLightProbes Sample.noLightmap Sample.loaded).defaultEnvMapId = 0 ∧
    (UpdateLightProbes Sample.noLightmap Sample.loaded).sharedRes.envMapAllocPtr = 1 :=
  ⟨(UpdateLightProbes_default_probe Sample.noLightmap Sample.loaded Sample.level
      (by decide) (by decide)).1, by decide, by decide⟩

end RendererImpl

end GameEngine

/-! ## Frame pacing (Engine.cpp, lines 304-413) -/

namespace GameEngine

namespace Engine

theorem RefreshUI_frame (env : EngineEnv) (s : Engine) :
    (RefreshUI env s).1.syncFences = s.syncFences ∧
    (RefreshUI env s).1.fencePool = s.fencePool ∧
    (RefreshUI env s).1.frameCounter = s.frameCounter ∧
    (RefreshUI env s).1.nextFence = s.nextFence ∧
    (RefreshUI env s).1.level = s.level ∧
    (RefreshUI env s).1.levelToLoad = s.levelToLoad ∧
    ∀ c ∈ (RefreshUI env s).2, c.touchesSlot = false := by
  unfold RefreshUI
  split_ifs
  · refine ⟨rfl, rfl, rfl, rfl, rfl, rfl, ?_⟩
    intro c hc
    simp only [List.mem_append, List.mem_flatMap, List.mem_cons, List.mem_singleton,
      List.not_mem_nil, or_false] at hc
    rcases hc with (⟨w, -, h | h⟩ | ⟨w, -, h | h | h | h⟩) | h <;> subst h <;> rfl
  · refine ⟨rfl, rfl, rfl, rfl, rfl, rfl, ?_⟩
    intro c hc
    simp at hc

theorem Print_frame (env : EngineEnv) (s : Engine) :
    (Print env s).1.syncFences = s.syncFences ∧
    (Print env s).1.fencePool = s.fencePool ∧
    (Print env s).1.frameCounter = s.frameCounter ∧
    (Print env s).1.nextFence = s.nextFence ∧
    (Print env s).1.level = s.level ∧
    (Print env s).1.levelToLoad = s.levelToLoad ∧
    ∀ c ∈ (Print env s).2, c.touchesSlot = false := by
  obtain ⟨h1, h2, h3, h4, h5, h6, h7⟩ := RefreshUI_frame env s
  unfold Print
  split_ifs
  · refine ⟨h1, h2, h3, h4, h5, h6, ?_⟩
    intro c hc
    simp only [List.mem_append, List.mem_singleton] at hc
    rcases hc with h | h
    · subst h; rfl
    · exact h7 c h
  · refine ⟨rfl, rfl, rfl, rfl, rfl, rfl, ?_⟩
    intro c hc
    simp only [List.mem_singleton] at hc
    subst hc
    rfl

theorem LoadLevel_frame (env : EngineEnv) (s : Engine) :
    (LoadLevel env s).1.syncFences = s.syncFences ∧
    (LoadLevel env s).1.fencePool = s.fencePool ∧
    (LoadLevel env s).1.frameCounter = s.frameCounter ∧
    (LoadLevel env s).1.nextFence = s.nextFence ∧
    ∀ c ∈ (LoadLevel env s).2, c.touchesSlot = false := by
  unfold LoadLevel
  cases env.load with
  | levelThrows =>
    simp only []
    obtain ⟨h1, h2, h3, h4, -, -, h7⟩ := Print_frame env
      { s with renderer := s.renderer.Wait.DestroyContext, level := none }
    refine ⟨h1, h2, h3, h4, ?_⟩
    intro c hc
    simp only [List.mem_append, List.mem_cons, List.not_mem_nil, or_false] at hc
    rcases hc with (h | h) | h
    · subst h; rfl
    · subst h; rfl
    · exact h7 c h
  | initThrows L =>
    simp only []
    obtain ⟨h1, h2, h3, h4, -, -, h7⟩ := Print_frame env
      { s with renderer := { s.renderer.Wait.DestroyContext with level := some L },
               level := some L, inDataTransfer := true }
    refine ⟨h1, h2, h3, h4, ?_⟩
    intro c hc
    simp only [List.mem_append, List.mem_cons, List.not_mem_nil, or_false] at hc
    rcases hc with (h | h | h) | h
    · subst h; rfl
    · subst h; rfl
    · subst h; rfl
    · exact h7 c h
  | ok L =>
    refine ⟨rfl, rfl, rfl, rfl, ?_⟩
    intro c hc
    simp only [List.mem_cons, List.not_mem_nil, or_false] at hc
    rcases hc with h | h | h <;> subst h <;> rfl

/-- The pending level load of `Tick.gameLogic`, as a function of its own. -/
theorem gameLogic_load_frame (env : EngineEnv) (s : Engine) :
    ∀ (s1 : Engine) (load : List EngineCall),
      (if s.level.isNone then
        if s.levelToLoad.length ≠ 0 then
          ({ (LoadLevel env (Print env s).1).1 with levelToLoad := "" },
            (Print env s).2 ++ (LoadLevel env (Print env s).1).2)
        else (s, [])
      else (s, [])) = (s1, load) →
      s1.syncFences = s.syncFences ∧ s1.fencePool = s.fencePool ∧
      s1.frameCounter = s.frameCounter ∧ s1.nextFence = s.nextFence ∧
      ∀ c ∈ load, c.touchesSlot = false := by
  intro s1 load h
  obtain ⟨p1, p2, p3, p4, -, -, p7⟩ := Print_frame env s
  obtain ⟨l1, l2, l3, l4, l5⟩ := LoadLevel_frame env (Print env s).1
  split_ifs at h with h1 h2
  · simp only [Prod.mk.injEq] at h
    obtain ⟨rfl, rfl⟩ := h
    refine ⟨l1.trans p1, l2.trans p2, l3.trans p3, l4.trans p4, ?_⟩
    intro c hc
    rcases List.mem_append.1 hc with h | h
    · exact p7 c h
    · exact l5 c h
  · simp only [Prod.mk.injEq] at h
    obtain ⟨rfl, rfl⟩ := h
    exact ⟨rfl, rfl, rfl, rfl, by simp⟩
  · simp only [Prod.mk.injEq] at h
    obtain ⟨rfl, rfl⟩ := h
    exact ⟨rfl, rfl, rfl, rfl, by simp⟩

theorem gameLogic_frame (env : EngineEnv) (s s1 : Engine) (pre : List EngineCall)
    (h : Tick.gameLogic env s = some (s1, pre)) :
    s1.syncFences = s.syncFences ∧ s1.fencePool = s.fencePool ∧
    s1.frameCounter = s.frameCounter ∧ s1.nextFence = s.nextFence ∧
    ∀ c ∈ pre, c.touchesSlot = false := by
  unfold Tick.gameLogic at h
  simp only [] at h
  generalize hq : (if s.level.isNone then
        if s.levelToLoad.length ≠ 0 then
          ({ (LoadLevel env (Print env s).1).1 with levelToLoad := "" },
            (Print env s).2 ++ (LoadLevel env (Print env s).1).2)
        else (s, [])
      else (s, [])) = q at h
  obtain ⟨s2, load⟩ := q
  obtain ⟨a1, a2, a3, a4, a5⟩ := gameLogic_load_frame env s s2 load hq
  simp only [] at h
  cases hl : s2.level with
  | none => rw [hl] at h; simp at h
  | some L =>
    rw [hl] at h
    simp only [Option.some.injEq, Prod.mk.injEq] at h
    obtain ⟨rfl, rfl⟩ := h
    refine ⟨a1, a2, a3, a4, ?_⟩
    intro c hc
    simp only [List.mem_append, List.mem_map, List.mem_range, List.mem_singleton] at hc
    rcases hc with (((h | h) | h) | ⟨i, -, h⟩) | h
    · split_ifs at h
      · simp only [List.mem_singleton] at h; subst h; rfl
      · simp at h
    · exact a5 c h
    · subst h; rfl
    · subst h; rfl
    · split_ifs at h
      · simp only [List.mem_singleton] at h; subst h; rfl
      · simp at h

theorem createCount_append (a b : List EngineCall) :
    createCount (a ++ b) = createCount a + createCount b := by
  simp [createCount, List.filter_append]

theorem createCount_of_untouched (a : List EngineCall)
    (h : ∀ c ∈ a, c.touchesSlot = false) : createCount a = 0 := by
  unfold createCount
  rw [List.length_eq_zero, List.filter_eq_nil_iff]
  intro c hc
  have := h c hc
  cases c <;> simp_all [EngineCall.touchesSlot]

theorem submitOne_spec (m : Nat) (w : SystemWindow) (st : SubmitState)
    (h : st.fenceAlloc ≤ st.pool.length) :
    (∃ t, (Tick.submitOne m w st).pool = st.pool ++ t ∧
      t.length = (st.fenceAlloc + 1) - st.pool.length) ∧
    (Tick.submitOne m w st).fenceAlloc = st.fenceAlloc + 1 ∧
    (∃ u, (Tick.submitOne m w st).calls = st.calls ++ u ∧
      createCount u = (st.fenceAlloc + 1) - st.pool.length ∧
      ∀ c ∈ u, c ≠ EngineCall.renderFrame ∧ ∀ v, c ≠ EngineCall.resetTempBufferVersion v) := by
  unfold Tick.submitOne
  by_cases hp : st.pool.length = st.fenceAlloc
  · simp only [hp, if_true]
    refine ⟨⟨[st.nextFence], ?_, ?_⟩, ?_, ?_⟩
    · split_ifs <;> rfl
    · simp only [List.length_singleton]; omega
    · split_ifs <;> rfl
    · split_ifs
      · refine ⟨_, List.append_assoc _ _ _, ?_, ?_⟩
        · simp [createCount]
        · intro c hc
          simp only [List.mem_append, List.mem_cons, List.mem_singleton, List.not_mem_nil,
            or_false] at hc
          rcases hc with h | h | h | h | h <;> subst h <;> simp
      · refine ⟨_, by simp only [List.append_assoc]; rfl, ?_, ?_⟩
        · simp [createCount]
        · intro c hc
          simp only [List.mem_append, List.mem_cons, List.mem_singleton, List.not_mem_nil,
            or_false] at hc
          rcases hc with h | (h | h | h | h) | h <;> subst h <;> simp
  · simp only [hp, if_false]
    refine ⟨⟨[], ?_, ?_⟩, ?_, ?_⟩
    · split_ifs <;> simp
    · simp only [List.length_nil]; omega
    · split_ifs <;> rfl
    · split_ifs
      · refine ⟨_, rfl, ?_, ?_⟩
        · simp [createCount]; omega
        · intro c hc
          simp only [List.mem_cons, List.mem_singleton, List.not_mem_nil, or_false] at hc
          rcases hc with h | h | h | h <;> subst h <;> simp
      · refine ⟨_, by simp only [List.append_assoc]; rfl, ?_, ?_⟩
        · simp [createCount]; omega
        · intro c hc
          simp only [List.mem_append, List.mem_cons, List.mem_singleton, List.not_mem_nil,
            or_false] at hc
          rcases hc with (h | h | h | h) | h <;> subst h <;> simp

theorem visibleCount_cons (w : SystemWindow) (rest : List SystemWindow) :
    visibleCount (w :: rest) = (if w.visible then 1 else 0) + visibleCount rest := by
  unfold visibleCount
  by_cases h : w.visible
  · simp [h]; omega
  · simp [h]

theorem submit_spec (m : Nat) (ws : List SystemWindow) :
    ∀ st : SubmitState, st.fenceAlloc ≤ st.pool.length →
    (∃ t, (Tick.submit m ws st).pool = st.pool ++ t ∧
      t.length = (st.fenceAlloc + visibleCount ws) - st.pool.length) ∧
    (Tick.submit m ws st).fenceAlloc = st.fenceAlloc + visibleCount ws ∧
    (∃ u, (Tick.submit m ws st).calls = st.calls ++ u ∧
      createCount u = (st.fenceAlloc + visibleCount ws) - st.pool.length ∧
      ∀ c ∈ u, c ≠ EngineCall.renderFrame ∧ ∀ v, c ≠ EngineCall.resetTempBufferVersion v) := by
  induction ws with
  | nil =>
    intro st h
    refine ⟨⟨[], by simp [Tick.submit], by simp [visibleCount]; omega⟩, by simp [Tick.submit, visibleCount],
      ⟨[], by simp [Tick.submit], by simp [createCount, visibleCount]; omega, by simp⟩⟩
  | cons w rest ih =>
    intro st h
    rw [visibleCount_cons]
    by_cases hv : w.visible
    · obtain ⟨⟨t1, ht1, hl1⟩, hf1, ⟨u1, hu1, hc1, hn1⟩⟩ := submitOne_spec m w st h
      have hle : (Tick.submitOne m w st).fenceAlloc ≤ (Tick.submitOne m w st).pool.length := by
        rw [hf1, ht1, List.length_append]; omega
      obtain ⟨⟨t2, ht2, hl2⟩, hf2, ⟨u2, hu2, hc2, hn2⟩⟩ := ih (Tick.submitOne m w st) hle
      have hs : Tick.submit m (w :: rest) st = Tick.submit m rest (Tick.submitOne m w st) := by
        simp [Tick.submit, hv]
      rw [hs]
      simp only [hv, if_true]
      rw [hf1, ht1, List.length_append] at hl2
      rw [hf1, ht1, List.length_append] at hc2
      refine ⟨⟨t1 ++ t2, ?_, ?_⟩, ?_, ⟨u1 ++ u2, ?_, ?_, ?_⟩⟩
      · rw [ht2, ht1, List.append_assoc]
      · rw [List.length_append]; omega
      · rw [hf2, hf1]; omega
      · rw [hu2, hu1, List.append_assoc]
      · rw [createCount_append]; omega
      · intro c hc
        rcases List.mem_append.1 hc with h | h
        · exact hn1 c h
        · exact hn2 c h
    · have hs : Tick.submit m (w :: rest) st = Tick.submit m rest st := by
        simp [Tick.submit, hv]
      rw [hs]
      simp only [hv]
      simpa using ih st h

theorem rollStats_frame (s : Engine) :
    (Tick.rollStats s).fencePool = s.fencePool ∧
    (Tick.rollStats s).syncFences = s.syncFences ∧
    (Tick.rollStats s).frameCounter = s.frameCounter := by
  unfold Tick.rollStats
  simp only []
  split_ifs <;> exact ⟨rfl, rfl, rfl⟩

/-- The calls of `Tick.render`, in order. -/
theorem render_calls (K : Nat) (env : EngineEnv) (s : Engine) :
    (Tick.render K env s).2
      = fenceWaits (s.syncFences.getD (s.frameCounter % K) [])
        ++ [EngineCall.resetTempBufferVersion (s.frameCounter % K), EngineCall.renderFrame]
        ++ (env.windows.flatMap (fun w =>
            if !w.visible then []
            else [EngineCall.drawUI w.id,
              EngineCall.transferDrawCommands w.id (env.mainWindow == w.id)])
          ++ (Tick.submit env.mainWindow env.windows
            { pool := s.fencePool.getD (s.frameCounter % K) [],
              sync := (s.syncFences.set (s.frameCounter % K) []).getD (s.frameCounter % K) [],
              fenceAlloc := 0, nextFence := s.nextFence, calls := [] }).calls) := by
  simp [Tick.render, fenceWaits]

theorem render_fencePool (K : Nat) (env : EngineEnv) (s : Engine) :
    (Tick.render K env s).1.fencePool
      = s.fencePool.set (s.frameCounter % K)
          (Tick.submit env.mainWindow env.windows
            { pool := s.fencePool.getD (s.frameCounter % K) [],
              sync := (s.syncFences.set (s.frameCounter % K) []).getD (s.frameCounter % K) [],
              fenceAlloc := 0, nextFence := s.nextFence, calls := [] }).pool := by
  unfold Tick.render
  simp only []
  exact (rollStats_frame _).1

theorem Tick_eq (K : Nat) (env : EngineEnv) (s s2 : Engine) (calls : List EngineCall)
    (h : Tick K env s = some (s2, calls)) :
    ∃ s1 pre, Tick.gameLogic env s = some (s1, pre) ∧
      s2 = (Tick.render K env s1).1 ∧ calls = pre ++ (Tick.render K env s1).2 := by
  unfold Tick at h
  cases hg : Tick.gameLogic env s with
  | none => rw [hg] at h; simp at h
  | some r =>
    obtain ⟨s1, pre⟩ := r
    rw [hg] at h
    simp only [Option.some.injEq, Prod.mk.injEq] at h
    exact ⟨s1, pre, rfl, h.1.symm, h.2.symm⟩

theorem Tick_returns (K : Nat) (env : EngineEnv) (s : Engine) (hl : s.level ≠ none) :
    ∃ r, Tick K env s = some r := by
  cases hlv : s.level with
  | none => exact absurd hlv hl
  | some L => simp [Tick, Tick.gameLogic, hlv]

/-- C3. A `Tick` returns whenever a level is loaded, and in every `Tick` that
returns, with frame counter `N` at entry, the calls made are: calls that
touch no fence and no buffering slot; then, for each fence recorded in
`syncFences[N mod K]`, `Wait` followed by `Reset`; then
`ResetTempBufferVersion(N mod K)` and `Renderer::RenderFrame`; and after these
no further `ResetTempBufferVersion` or `RenderFrame`. -/
theorem Tick_waits_before_frame (K : Nat) (env : EngineEnv) (s : Engine) :
    (s.level ≠ none → ∃ r, Tick K env s = some r) ∧
    (∀ (s2 : Engine) (calls : List EngineCall), Tick K env s = some (s2, calls) →
      ∃ pre post, calls
          = pre ++ fenceWaits (s.syncFences.getD (s.frameCounter % K) [])
            ++ [EngineCall.resetTempBufferVersion (s.frameCounter % K), EngineCall.renderFrame]
            ++ post ∧
        (∀ c ∈ pre, c.touchesSlot = false) ∧
        (∀ c ∈ post, c ≠ EngineCall.renderFrame ∧
          ∀ v, c ≠ EngineCall.resetTempBufferVersion v)) := by
  constructor
  · exact Tick_returns K env s
  · intro s2 calls h
    obtain ⟨s1, pre, hg, -, hc⟩ := Tick_eq K env s s2 calls h
    obtain ⟨a1, a2, a3, a4, a5⟩ := gameLogic_frame env s s1 pre hg
    obtain ⟨-, -, ⟨u, hu, -, hn⟩⟩ := submit_spec env.mainWindow env.windows
      { pool := s1.fencePool.getD (s1.frameCounter % K) [],
        sync := (s1.syncFences.set (s1.frameCounter % K) []).getD (s1.frameCounter % K) [],
        fenceAlloc := 0, nextFence := s1.nextFence, calls := [] } (Nat.zero_le _)
    simp only [List.nil_append] at hu
    refine ⟨pre, (env.windows.flatMap (fun w =>
        if !w.visible then []
        else [EngineCall.drawUI w.id,
          EngineCall.transferDrawCommands w.id (env.mainWindow == w.id)])) ++ u, ?_, a5, ?_⟩
    · rw [hc, render_calls, hu, a1, a3]
      simp only [List.append_assoc]
    · intro c hcm
      rcases List.mem_append.1 hcm with h1 | h1
      · simp only [List.mem_flatMap] at h1
        obtain ⟨w, -, hw⟩ := h1
        split_ifs at hw
        · simp at hw
        · simp only [List.mem_cons, List.mem_singleton, List.not_mem_nil, or_false] at hw
          rcases hw with h | h <;> subst h <;> simp
      · exact hn c h1

/-- C3, at the sample engine: frame 4 of two slots uses slot 0; the level is
loaded, so the `Tick` returns, and it waits for and resets the fences 100 and
101 before `ResetTempBufferVersion(0)` and `RenderFrame`. -/
theorem Tick_waits_before_frame_witness :
    ∃ r, Tick 2 Sample.engineEnv Sample.engine = some r ∧
      ∃ pre post, r.2
          = pre ++ [EngineCall.fenceWait 100, EngineCall.fenceReset 100,
              EngineCall.fenceWait 101, EngineCall.fenceReset 101]
            ++ [EngineCall.resetTempBufferVersion 0, EngineCall.renderFrame] ++ post ∧
        (∀ c ∈ pre, c.touchesSlot = false) := by
  obtain ⟨r, hr⟩ := (Tick_waits_before_frame 2 Sample.engineEnv Sample.engine).1 (by decide)
  obtain ⟨pre, post, h1, h2, -⟩ :=
    (Tick_waits_before_frame 2 Sample.engineEnv Sample.engine).2 r.1 r.2 hr
  exact ⟨r, hr, pre, post, h1, h2⟩

theorem getD_set_self (l : List (List Nat)) (v : Nat) (x : List Nat) (h : v < l.length) :
    (l.set v x).getD v [] = x := by
  simp [List.getD_eq_getElem?_getD, List.getElem?_set_self h]

theorem getD_set_other (l : List (List Nat)) (v u : Nat) (x : List Nat) (h : u ≠ v) :
    (l.set v x).getD u [] = l.getD u [] := by
  simp [List.getD_eq_getElem?_getD, List.getElem?_set_ne (Ne.symm h)]

/-- What one `Tick` does to the fence pools. -/
theorem Tick_fencePool_step (K : Nat) (hK : 0 < K) (env : EngineEnv) (s s2 : Engine)
    (calls : List EngineCall) (hlen : s.fencePool.length = K)
    (h : Tick K env s = some (s2, calls)) :
    s2.fencePool.length = K ∧
    (∃ t, s2.fencePool.getD (s.frameCounter % K) []
        = s.fencePool.getD (s.frameCounter % K) [] ++ t ∧
      t.length = visibleCount env.windows - (s.fencePool.getD (s.frameCounter % K) []).length) ∧
    createCount calls
      = visibleCount env.windows - (s.fencePool.getD (s.frameCounter % K) []).length ∧
    (∀ u, u ≠ s.frameCounter % K → s2.fencePool.getD u [] = s.fencePool.getD u []) := by
  obtain ⟨s1, pre, hg, hs, hc⟩ := Tick_eq K env s s2 calls h
  obtain ⟨a1, a2, a3, a4, a5⟩ := gameLogic_frame env s s1 pre hg
  obtain ⟨⟨t, ht, htl⟩, -, ⟨u, hu, hcu, -⟩⟩ := submit_spec env.mainWindow env.windows
    { pool := s1.fencePool.getD (s1.frameCounter % K) [],
      sync := (s1.syncFences.set (s1.frameCounter % K) []).getD (s1.frameCounter % K) [],
      fenceAlloc := 0, nextFence := s1.nextFence, calls := [] } (Nat.zero_le _)
  simp only [List.nil_append, Nat.zero_add] at hu ht htl hcu
  have hv : s.frameCounter % K < s.fencePool.length := by
    rw [hlen]; exact Nat.mod_lt _ hK
  have hpool := render_fencePool K env s1
  rw [ht, a2, a3] at hpool
  rw [a2, a3] at htl hcu
  refine ⟨?_, ⟨t, ?_, htl⟩, ?_, ?_⟩
  · rw [hs, hpool, List.length_set, hlen]
  · rw [hs, hpool, getD_set_self _ _ _ hv]
  · rw [hc, createCount_append, createCount_of_untouched pre a5, render_calls, hu]
    have e1 : createCount (fenceWaits (s1.syncFences.getD (s1.frameCounter % K) [])) = 0 := by
      unfold createCount fenceWaits
      rw [List.length_eq_zero, List.filter_eq_nil_iff]
      intro c hcm
      simp only [List.mem_flatMap, List.mem_cons, List.mem_singleton, List.not_mem_nil,
        or_false] at hcm
      obtain ⟨f, -, h | h⟩ := hcm <;> subst h <;> simp
    have e2 : createCount (env.windows.flatMap (fun w =>
        if !w.visible then []
        else [EngineCall.drawUI w.id,
          EngineCall.transferDrawCommands w.id (env.mainWindow == w.id)])) = 0 := by
      unfold createCount
      rw [List.length_eq_zero, List.filter_eq_nil_iff]
      intro c hcm
      simp only [List.mem_flatMap] at hcm
      obtain ⟨w, -, hw⟩ := hcm
      split_ifs at hw
      · simp at hw
      · simp only [List.mem_cons, List.mem_singleton, List.not_mem_nil, or_false] at hw
        rcases hw with h | h <;> subst h <;> simp
    simp only [createCount_append, e1, e2, hcu]
    simp [createCount]
  · intro w hw
    rw [hs, hpool, getD_set_other _ _ _ _ hw]

/-- C4. The per-slot fence pool is grow-only and lazy. A `Tick` that uses slot
`v = N mod K` keeps the number of slots, leaves the pool of every other slot
as it is, and extends the pool of slot `v` at its end by exactly as many new
fences as there are visible windows beyond the pool's size: it makes that many
`CreateFence` calls and the pool's size becomes the maximum of its old size
and the number of visible windows. Hence, over any run of `Tick` calls, no
slot's pool ever gets smaller. -/
theorem Tick_fencePool_grow_only (K : Nat) (hK : 0 < K) :
    (∀ (env : EngineEnv) (s s2 : Engine) (calls : List EngineCall),
      s.fencePool.length = K → Tick K env s = some (s2, calls) →
      s2.fencePool.length = K ∧
      (∃ t, s2.fencePool.getD (s.frameCounter % K) []
          = s.fencePool.getD (s.frameCounter % K) [] ++ t) ∧
      (s2.fencePool.getD (s.frameCounter % K) []).length
        = max (s.fencePool.getD (s.frameCounter % K) []).length (visibleCount env.windows) ∧
      createCount calls
        = visibleCount env.windows - (s.fencePool.getD (s.frameCounter % K) []).length ∧
      (∀ u, u ≠ s.frameCounter % K → s2.fencePool.getD u [] = s.fencePool.getD u [])) ∧
    (∀ (envs : List EngineEnv) (s s2 : Engine),
      s.fencePool.length = K → ticks K envs s = some s2 →
      s2.fencePool.length = K ∧
      ∀ u, (s.fencePool.getD u []).length ≤ (s2.fencePool.getD u []).length) := by
  constructor
  · intro env s s2 calls hlen h
    obtain ⟨h1, ⟨t, ht, htl⟩, h3, h4⟩ := Tick_fencePool_step K hK env s s2 calls hlen h
    refine ⟨h1, ⟨t, ht⟩, ?_, h3, h4⟩
    rw [ht, List.length_append, htl]
    omega
  · intro envs
    induction envs with
    | nil =>
      intro s s2 hlen h
      simp only [ticks, Option.some.injEq] at h
      subst h
      exact ⟨hlen, fun u => Nat.le_refl _⟩
    | cons env rest ih =>
      intro s s2 hlen h
      unfold ticks at h
      cases ht : Tick K env s with
      | none => rw [ht] at h; simp at h
      | some r =>
        obtain ⟨s1, calls⟩ := r
        rw [ht] at h
        simp only [] at h
        obtain ⟨h1, ⟨t, hte, -⟩, -, h4⟩ := Tick_fencePool_step K hK env s s1 calls hlen ht
        obtain ⟨i1, i2⟩ := ih s1 s2 h1 h
        refine ⟨i1, fun u => ?_⟩
        refine Nat.le_trans ?_ (i2 u)
        by_cases hu : u = s.frameCounter % K
        · subst hu
          rw [hte, List.length_append]
          omega
        · rw [h4 u hu]

/-- C4, at the sample engine: frame 5 of two slots uses slot 1, whose pool
holds one fence while two windows are visible; the `Tick` creates one fence,
the pool of slot 1 has two fences afterwards and the pool of slot 0 is as before. -/
theorem Tick_fencePool_grow_only_witness :
    ∃ r, Tick 2 Sample.engineEnv Sample.engineOdd = some r ∧
      (r.1.fencePool.getD 1 []).length = 2 ∧ createCount r.2 = 1 ∧
      r.1.fencePool.getD 0 [] = [100, 101] := by
  obtain ⟨r, hr⟩ := Tick_returns 2 Sample.engineEnv Sample.engineOdd (by decide)
  obtain ⟨-, -, h3, h4, h5⟩ := (Tick_fencePool_grow_only 2 (by decide)).1
    Sample.engineEnv Sample.engineOdd r.1 r.2 (by decide) hr
  exact ⟨r, hr, h3, h4, h5 0 (by decide)⟩

end Engine

end GameEngine

/-! ## Light probes of the environment-map actors (Renderer.cpp, lines 259-280) -/

namespace GameEngine

namespace RendererImpl

theorem probeCount_append (a b : List RenderCall) :
    probeCount (a ++ b) = probeCount a + probeCount b := by
  simp [probeCount, List.filter_append]

theorem loop_eq (actors : List Actor) (r : RendererImpl) (n : Int) :
    UpdateLightProbes.loop actors r n
      = ({ r with log := r.log ++ lightProbeCalls actors }, n + (envMapCount actors : Int)) := by
  induction actors generalizing r n with
  | nil => simp [UpdateLightProbes.loop, lightProbeCalls, envMapCount]
  | cons a rest ih =>
    simp only [UpdateLightProbes.loop]
    by_cases h1 : a.engineType = EngineActorType.EnvMap
    · by_cases h2 : a.envMapId = -1
      · rw [if_pos h1, ih]
        simp [lightProbeCalls, envMapCount, h1, h2, List.filterMap_cons]
        omega
      · rw [if_pos h1, ih]
        simp [lightProbeCalls, envMapCount, h1, h2, List.filterMap_cons, emit]
        omega
    · rw [if_neg h1, ih]
      simp [lightProbeCalls, envMapCount, h1, List.filterMap_cons]

theorem probeCount_lightProbeCalls (actors : List Actor) :
    probeCount (lightProbeCalls actors) = (lightProbeCalls actors).length := by
  unfold probeCount
  congr 1
  rw [List.filter_eq_self]
  intro c hc
  unfold lightProbeCalls at hc
  rw [List.mem_filterMap] at hc
  obtain ⟨a, -, ha⟩ := hc
  split_ifs at ha
  simp only [Option.some.injEq] at ha
  subst ha
  rfl

theorem length_lightProbeCalls (actors : List Actor) :
    (lightProbeCalls actors).length = allocatedProbeCount actors := by
  induction actors with
  | nil => rfl
  | cons a rest ih =>
    unfold lightProbeCalls allocatedProbeCount at *
    by_cases h : a.engineType = EngineActorType.EnvMap ∧ a.envMapId ≠ -1
    · rw [List.filterMap_cons, if_pos h, List.filter_cons, if_pos (by simpa using h)]
      simp only [List.length_cons]
      rw [ih]
    · rw [List.filterMap_cons, if_neg h, List.filter_cons, if_neg (by simpa using h)]
      exact ih

/-- C11, amended. With a level loaded that has at least one environment-map
actor, the `RenderLightProbe` calls of `UpdateLightProbes` are exactly one for
each environment-map actor whose env-map id is not -1, in actor order, with
that actor's id and position; an environment-map actor with id -1 is counted
but not rendered, so their number is the number of environment-map actors
that hold an id, which may be zero. With no environment-map actor there is
exactly one call, the default probe. -/
theorem UpdateLightProbes_probe_calls (env : RendererEnv) (r : RendererImpl) (L : Level)
    (hL : r.level = some L) :
    (envMapCount L.Actors ≠ 0 →
      (UpdateLightProbes env r).log = r.log ++ lightProbeCalls L.Actors ∧
      probeCount (UpdateLightProbes env r).log
        = probeCount r.log + allocatedProbeCount L.Actors ∧
      allocatedProbeCount L.Actors ≤ envMapCount L.Actors) ∧
    (envMapCount L.Actors = 0 →
      probeCount (UpdateLightProbes env r).log = probeCount r.log + 1) := by
  have hloop := loop_eq L.Actors r 0
  constructor
  · intro hne
    have hlog : (UpdateLightProbes env r).log = r.log ++ lightProbeCalls L.Actors := by
      unfold UpdateLightProbes
      rw [hL]
      simp only [hloop]
      have : ¬ ((0 : Int) + (envMapCount L.Actors : Int) = 0) := by omega
      rw [if_neg this]
    refine ⟨hlog, ?_, ?_⟩
    · rw [hlog, probeCount_append, probeCount_lightProbeCalls, length_lightProbeCalls]
    · unfold allocatedProbeCount envMapCount
      apply List.Sublist.length_le
      apply List.monotone_filter_right
      intro a ha
      simp only [decide_eq_true_eq] at ha ⊢
      exact ha.1
  · intro h0
    have hcalls : lightProbeCalls L.Actors = [] := by
      have := length_lightProbeCalls L.Actors
      have hle : allocatedProbeCount L.Actors ≤ envMapCount L.Actors := by
        unfold allocatedProbeCount envMapCount
        apply List.Sublist.length_le
        apply List.monotone_filter_right
        intro a ha
        simp only [decide_eq_true_eq] at ha ⊢
        exact ha.1
      exact List.length_eq_zero.1 (by omega)
    have hlog : (UpdateLightProbes env r).log
        = r.log ++ [RenderCall.renderLightProbe (UpdateLightProbes env r).defaultEnvMapId
            ⟨0, 1000, 0⟩] := by
      unfold UpdateLightProbes
      rw [hL]
      simp only [hloop, hcalls, h0]
      by_cases h : r.defaultEnvMapId = -1
      · simp [h, emit]
      · simp [h, emit]
    rw [hlog, probeCount_append]
    simp [probeCount]

/-- C11, at a concrete level: two environment-map actors hold the ids 0
and 1, and `UpdateLightProbes` renders these two probes. -/
theorem UpdateLightProbes_probe_calls_witness :
    (UpdateLightProbes Sample.noLightmap Sample.probing).log
      = Sample.probing.log ++ [RenderCall.renderLightProbe 0 ⟨5, 5, 5⟩,
          RenderCall.renderLightProbe 1 ⟨7, 0, 7⟩] :=
  ((UpdateLightProbes_probe_calls Sample.noLightmap Sample.probing Sample.probeLevel rfl).1
    (by decide)).1

/-- C11 as stated fails: the level has one environment-map actor, whose
env-map id is -1, and `UpdateLightProbes` renders no probe at all. -/
theorem UpdateLightProbes_unallocated_probe_not_rendered :
    Sample.unprobed.level = some Sample.unallocatedProbeLevel ∧
    envMapCount Sample.unallocatedProbeLevel.Actors = 1 ∧
    (UpdateLightProbes Sample.noLightmap Sample.unprobed).log = Sample.unprobed.log ∧
    probeCount (UpdateLightProbes Sample.noLightmap Sample.unprobed).log
      = probeCount Sample.unprobed.log := by
  decide

end RendererImpl

end GameEngine

/-! ## Level loading (Engine.cpp, lines 588-637) and the null level -/

namespace GameEngine

namespace Engine

theorem waitsBeforeDestroy_of_none (calls : List EngineCall)
    (h : ∀ c ∈ calls, c ≠ EngineCall.destroyContext) (waited : Bool) :
    waitsBeforeDestroy waited calls = true := by
  induction calls generalizing waited with
  | nil => rfl
  | cons c rest ih =>
    have hc : c ≠ EngineCall.destroyContext := h c (List.mem_cons_self _ _)
    have hr : ∀ d ∈ rest, d ≠ EngineCall.destroyContext :=
      fun d hd => h d (List.mem_cons_of_mem _ hd)
    unfold waitsBeforeDestroy
    split_ifs
    · exact ih hr true
    · exact ih hr false
    · exact ih hr waited

theorem RefreshUI_no_destroy (env : EngineEnv) (s : Engine) :
    ∀ c ∈ (RefreshUI env s).2, c ≠ EngineCall.destroyContext := by
  intro c hc
  unfold RefreshUI at hc
  split_ifs at hc
  · simp only [List.mem_append, List.mem_flatMap, List.mem_cons, List.mem_singleton,
      List.not_mem_nil, or_false] at hc
    rcases hc with (⟨w, -, h | h⟩ | ⟨w, -, h | h | h | h⟩) | h <;> subst h <;> simp
  · simp at hc

theorem Print_no_destroy (env : EngineEnv) (s : Engine) :
    ∀ c ∈ (Print env s).2, c ≠ EngineCall.destroyContext := by
  intro c hc
  unfold Print at hc
  split_ifs at hc
  · simp only [List.mem_append, List.mem_singleton] at hc
    rcases hc with h | h
    · subst h; simp
    · exact RefreshUI_no_destroy env s c h
  · simp only [List.mem_singleton] at hc
    subst hc
    simp

theorem Print_inDataTransfer (env : EngineEnv) (s : Engine) :
    (Print env s).1.inDataTransfer = s.inDataTransfer ∧ EngineCall.print ∈ (Print env s).2 := by
  unfold Print RefreshUI
  split_ifs <;> simp

/-- C15, evaluated on the code. In `LoadLevel` and in `NewLevel` the call of
`DestroyContext` follows a `Renderer::Wait` with no GPU work handed over in
between, whatever the load meets. In `LoadLevelFromText` it does not:
`DestroyContext` is its first call, and no `Wait` precedes it. -/
theorem DestroyContext_wait_discipline :
    (∀ (env : EngineEnv) (s : Engine), waitsBeforeDestroy false (LoadLevel env s).2 = true) ∧
    (∀ (env : EngineEnv) (o : TextLoadOutcome) (s : Engine),
      waitsBeforeDestroy false (NewLevel env o s).2 = true) ∧
    (∀ (env : EngineEnv) (o : TextLoadOutcome) (s : Engine),
      (LoadLevelFromText env o s).calls.head? = some EngineCall.destroyContext ∧
      waitsBeforeDestroy false (LoadLevelFromText env o s).calls = false) := by
  refine ⟨?_, ?_, ?_⟩
  · intro env s
    unfold LoadLevel
    cases env.load with
    | levelThrows =>
      simp only [List.cons_append, List.nil_append, waitsBeforeDestroy, if_true, Bool.true_and]
      simp only [reduceCtorEq, if_false, if_true, Bool.true_and]
      exact waitsBeforeDestroy_of_none _ (Print_no_destroy env _) true
    | initThrows L =>
      simp only [List.cons_append, List.nil_append, waitsBeforeDestroy, if_true, Bool.true_and]
      simp only [reduceCtorEq, if_false, if_true, Bool.true_and, submitsWork]
      exact waitsBeforeDestroy_of_none _ (Print_no_destroy env _) false
    | ok L =>
      simp [waitsBeforeDestroy, submitsWork]
  · intro env o s
    unfold NewLevel
    cases o with
    | ctorThrows =>
      simp only [List.cons_append, List.nil_append, waitsBeforeDestroy, if_true, Bool.true_and]
      simp only [reduceCtorEq, if_false, if_true, Bool.true_and]
      exact waitsBeforeDestroy_of_none _ (Print_no_destroy env _) true
    | textThrows L =>
      simp only [List.cons_append, List.nil_append, waitsBeforeDestroy, if_true, Bool.true_and]
      simp only [reduceCtorEq, if_false, if_true, Bool.true_and]
      exact waitsBeforeDestroy_of_none _ (Print_no_destroy env _) true
    | initThrows L =>
      simp only [List.cons_append, List.nil_append, waitsBeforeDestroy, if_true, Bool.true_and]
      simp only [reduceCtorEq, if_false, if_true, Bool.true_and, submitsWork]
      exact waitsBeforeDestroy_of_none _ (Print_no_destroy env _) false
    | ok L =>
      simp [waitsBeforeDestroy, submitsWork]
  · intro env o s
    unfold LoadLevelFromText
    cases o <;> simp [waitsBeforeDestroy, submitsWork]

theorem Tick_none_of_null (K : Nat) (env : EngineEnv) (s : Engine) (hl : s.level = none)
    (h : s.levelToLoad.length = 0 ∨ env.load = LoadOutcome.levelThrows) :
    Tick K env s = none := by
  have hg : Tick.gameLogic env s = none := by
    unfold Tick.gameLogic
    simp only [hl, Option.isNone_none, if_true]
    by_cases h0 : s.levelToLoad.length = 0
    · simp [h0, hl]
    · have hthrow : env.load = LoadOutcome.levelThrows := by
        rcases h with h | h
        · exact absurd h h0
        · exact h
      have hlev : (LoadLevel env (Print env s).1).1.level = none := by
        unfold LoadLevel
        rw [hthrow]
        simp only []
        exact (Print_frame env _).2.2.2.2.1
      simp only [ne_eq, h0, not_false_eq_true, if_true]
      simp only [hlev]
  unfold Tick
  rw [hg]

/-- C16, evaluated on the code. A `Tick` with no level loaded does not
complete: with nothing left to load, and likewise after a load whose `Level`
constructor throws, it reaches `level->GetPhysicsScene()` with a null `level`. -/
theorem Tick_null_level_dereferences :
    Sample.noLevel.level = none ∧ Sample.noLevel.levelToLoad = "" ∧
    Tick 2 Sample.engineEnv Sample.noLevel = none ∧
    Sample.unreadable.load = LoadOutcome.levelThrows ∧
    Tick 2 Sample.unreadable Sample.pending = none :=
  ⟨rfl, rfl, Tick_none_of_null 2 Sample.engineEnv Sample.noLevel rfl (Or.inl (by decide)),
    rfl, Tick_none_of_null 2 Sample.unreadable Sample.pending rfl (Or.inr rfl)⟩

/-- C17, amended. `LoadLevel` returns normally whatever the load meets: an
`Exception` from the `Level` constructor or from `InitializeLevel` ends in the
handler, which prints. After a failure of the constructor the engine has no
level; after a failure inside `InitializeLevel` it keeps the level just
built; after a success it has the level. -/
theorem LoadLevel_outcome (env : EngineEnv) (s : Engine) :
    (env.load = LoadOutcome.levelThrows →
      (LoadLevel env s).1.level = none ∧ EngineCall.print ∈ (LoadLevel env s).2) ∧
    (∀ L, env.load = LoadOutcome.initThrows L →
      (LoadLevel env s).1.level = some L ∧ EngineCall.print ∈ (LoadLevel env s).2) ∧
    (∀ L, env.load = LoadOutcome.ok L → (LoadLevel env s).1.level = some L) := by
  refine ⟨?_, ?_, ?_⟩
  · intro h
    unfold LoadLevel
    rw [h]
    simp only []
    refine ⟨(Print_frame env _).2.2.2.2.1, ?_⟩
    exact List.mem_append.2 (Or.inr (Print_inDataTransfer env _).2)
  · intro L h
    unfold LoadLevel
    rw [h]
    simp only []
    refine ⟨(Print_frame env _).2.2.2.2.1, ?_⟩
    exact List.mem_append.2 (Or.inr (Print_inDataTransfer env _).2)
  · intro L h
    unfold LoadLevel
    rw [h]

/-- C17, at the sample engine: the level file cannot be read, `LoadLevel`
returns after printing and the engine has no level. -/
theorem LoadLevel_outcome_witness :
    (LoadLevel Sample.unreadable Sample.engine).1.level = none ∧
    EngineCall.print ∈ (LoadLevel Sample.unreadable Sample.engine).2 :=
  (LoadLevel_outcome Sample.unreadable Sample.engine).1 rfl

/-- C17 as stated fails: when `InitializeLevel` throws, `LoadLevel` returns
with the engine holding the level it has just built. -/
theorem LoadLevel_keeps_level_after_init_failure :
    Sample.initFails.load = LoadOutcome.initThrows Sample.level ∧
    (LoadLevel Sample.initFails Sample.engine).1.level = some Sample.level ∧
    (LoadLevel Sample.initFails Sample.engine).1.level ≠ none := by
  decide

end Engine

end GameEngine

/-! ## Drawables with a missing material (Renderer.cpp, lines 67-104) -/

namespace GameEngine

namespace RendererServiceImpl

/-- C14, evaluated on the code. With a null material `CreateStaticDrawable`
falls back to the error material of the level: the drawable it returns holds
that material. `CreateSkeletalDrawable` has no such fallback: with a null
material it dereferences the null pointer, whatever its other arguments. -/
theorem null_material_fallback :
    (∃ d calls, CreateStaticDrawable Sample.serviceEnv Sample.mesh 0 none true
        = Except.ok (d, calls) ∧ d.material = Sample.errorMaterial) ∧
    (∀ (env : ServiceEnv) (mesh : Mesh) (elementId : Int) (skeleton : Option Nat)
        (cacheMesh : Bool),
      CreateSkeletalDrawable env mesh elementId skeleton none cacheMesh
        = Except.error Fault.nullDereference) := by
  constructor
  · exact ⟨_, _, rfl, rfl⟩
  · intro env mesh elementId skeleton cacheMesh
    rfl

end RendererServiceImpl

end GameEngine

/-! ## Sizes of formats and data types (HardwareRenderer.h, lines 244-380) -/

namespace GameEngine

/-- C18, evaluated on the code. `StorageFormatSize` throws for eleven formats:
for `Invalid` and the six block-compressed formats, and also for `R_16`,
`R_I16`, `RGBA_8_SRGB` and `Depth24`, which are uncompressed formats with a
texel size; for the other 23 formats it returns 1, 2, 4, 8 or 16. -/
theorem StorageFormatSize_table :
    StorageFormat.all.filter (fun f => (StorageFormatSize f).isNone)
      = [StorageFormat.Invalid, StorageFormat.R_16, StorageFormat.R_I16,
         StorageFormat.RGBA_8_SRGB, StorageFormat.Depth24, StorageFormat.RGBA_Compressed,
         StorageFormat.BC1, StorageFormat.BC5, StorageFormat.BC3, StorageFormat.BC1_SRGB,
         StorageFormat.BC6H] ∧
    StorageFormatSize StorageFormat.R_16 = none ∧
    StorageFormatSize StorageFormat.R_I16 = none ∧
    StorageFormatSize StorageFormat.RGBA_8_SRGB = none ∧
    StorageFormatSize StorageFormat.Depth24 = none ∧
    StorageFormatSize StorageFormat.RG_8 = some 2 ∧
    StorageFormatSize StorageFormat.RGBA_8 = some 4 ∧
    StorageFormatSize StorageFormat.Depth32 = some 4 ∧
    StorageFormatSize StorageFormat.RGBA_F32 = some 16 ∧
    (∀ f : StorageFormat, f ∈ StorageFormat.all) := by
  refine ⟨by decide, rfl, rfl, rfl, rfl, rfl, rfl, rfl, rfl, ?_⟩
  intro f
  cases f <;> decide

theorem DataTypeSize_none_iff (t : Int) :
    DataTypeSize t = none ↔ t ∉ DataType.enumerators := by
  by_cases h : t ∈ DataType.enumerators
  · simp only [h, not_true_eq_false, iff_false]
    simp only [DataType.enumerators, List.mem_cons, List.mem_singleton, List.not_mem_nil,
      or_false] at h
    rcases h with h | h | h | h | h | h | h | h | h | h | h | h | h | h | h | h | h | h | h | h
      | h | h | h | h | h | h | h | h | h | h <;> subst h <;> decide
  · simp only [h, not_false_eq_true, iff_true]
    simp only [DataType.enumerators, List.mem_cons, List.mem_singleton, List.not_mem_nil,
      or_false, not_or] at h
    simp [DataTypeSize, h]

theorem NumDataTypeElems_none_iff (t : Int) :
    NumDataTypeElems t = none ↔ t ∉ DataType.enumerators := by
  by_cases h : t ∈ DataType.enumerators
  · simp only [h, not_true_eq_false, iff_false]
    simp only [DataType.enumerators, List.mem_cons, List.mem_singleton, List.not_mem_nil,
      or_false] at h
    rcases h with h | h | h | h | h | h | h | h | h | h | h | h | h | h | h | h | h | h | h | h
      | h | h | h | h | h | h | h | h | h | h <;> subst h <;> decide
  · simp only [h, not_false_eq_true, iff_true]
    simp only [DataType.enumerators, List.mem_cons, List.mem_singleton, List.not_mem_nil,
      or_false, not_or] at h
    simp [NumDataTypeElems, h]

/-- C27. For every `DataType` enumerator other than `UInt4_10_10_10_2` the
element type is a one-element enumerator and the size is the number of
elements times the size of the element type; for every enumerator the number
of elements is `(t & 3) + 1`; and `DataTypeSize` and `NumDataTypeElems` throw
on the same integer values, namely those that are no enumerator. -/
theorem DataType_sizes :
    (∀ t ∈ DataType.enumerators, t ≠ DataType.UInt4_10_10_10_2 →
      GetDataTypeElementType t ∈ DataType.scalars ∧
      ∃ n e, NumDataTypeElems t = some n ∧ DataTypeSize (GetDataTypeElementType t) = some e ∧
        DataTypeSize t = some (n * e)) ∧
    (∀ t ∈ DataType.enumerators, NumDataTypeElems t = some (t % 4 + 1)) ∧
    (∀ t : Int, DataTypeSize t = none ↔ t ∉ DataType.enumerators) ∧
    (∀ t : Int, NumDataTypeElems t = none ↔ t ∉ DataType.enumerators) ∧
    (∀ t : Int, DataTypeSize t = none ↔ NumDataTypeElems t = none) := by
  refine ⟨?_, ?_, DataTypeSize_none_iff, NumDataTypeElems_none_iff, ?_⟩
  · intro t h hne
    simp only [DataType.enumerators, List.mem_cons, List.mem_singleton, List.not_mem_nil,
      or_false] at h
    rcases h with h | h | h | h | h | h | h | h | h | h | h | h | h | h | h | h | h | h | h | h
      | h | h | h | h | h | h | h | h | h | h <;> subst h
    all_goals first
      | exact absurd rfl hne
      | exact ⟨by decide, _, _, rfl, rfl, rfl⟩
  · intro t h
    simp only [DataType.enumerators, List.mem_cons, List.mem_singleton, List.not_mem_nil,
      or_false] at h
    rcases h with h | h | h | h | h | h | h | h | h | h | h | h | h | h | h | h | h | h | h | h
      | h | h | h | h | h | h | h | h | h | h <;> subst h <;> decide
  · intro t
    rw [DataTypeSize_none_iff, NumDataTypeElems_none_iff]

/-- C27, at `Short3`: it is an enumerator other than `UInt4_10_10_10_2`, its
element type is `Short`, and its 6 bytes are 3 elements of 2 bytes. -/
theorem DataType_sizes_witness :
    GetDataTypeElementType DataType.Short3 ∈ DataType.scalars ∧
    ∃ n e, NumDataTypeElems DataType.Short3 = some n ∧
      DataTypeSize (GetDataTypeElementType DataType.Short3) = some e ∧
      DataTypeSize DataType.Short3 = some (n * e) :=
  DataType_sizes.1 DataType.Short3 (by decide) (by decide)

/-! ## Alignment (Renderer.cpp, lines 27-36) -/

theorem Align_eq (ptr alignment : Int) (hp : 0 ≤ ptr) (ha : 0 < alignment) :
    Align ptr alignment
      = if ptr % alignment = 0 then ptr else ptr + (alignment - ptr % alignment) := by
  unfold Align
  rw [Int.tmod_eq_emod hp (le_of_lt ha)]
  by_cases h : ptr % alignment = 0
  · simp [h]
  · simp [h]

theorem Align_dvd (ptr alignment : Int) (hp : 0 ≤ ptr) (ha : 0 < alignment) :
    alignment ∣ Align ptr alignment := by
  rw [Align_eq ptr alignment hp ha]
  by_cases h : ptr % alignment = 0
  · rw [if_pos h]
    exact Int.dvd_of_emod_eq_zero h
  · rw [if_neg h]
    have e : ptr + (alignment - ptr % alignment)
        = alignment * (ptr / alignment + 1) := by
      have := Int.emod_add_ediv ptr alignment
      linarith
    rw [e]
    exact Dvd.intro _ rfl

/-- C30. For `ptr ≥ 0` and `alignment > 0`, `Align(ptr, alignment)` is the
least multiple of `alignment` that is at least `ptr`: it is a multiple of
`alignment`, it lies in `[ptr, ptr + alignment)`, no multiple of `alignment`
lies between `ptr` and it, and aligning it again changes nothing. -/
theorem Align_least_multiple (ptr alignment : Int) (hp : 0 ≤ ptr) (ha : 0 < alignment) :
    alignment ∣ Align ptr alignment ∧
    ptr ≤ Align ptr alignment ∧ Align ptr alignment < ptr + alignment ∧
    (∀ k : Int, alignment ∣ k → ptr ≤ k → Align ptr alignment ≤ k) ∧
    Align (Align ptr alignment) alignment = Align ptr alignment := by
  have hm0 : 0 ≤ ptr % alignment := Int.emod_nonneg _ (ne_of_gt ha)
  have hm1 : ptr % alignment < alignment := Int.emod_lt_of_pos _ ha
  have hdvd := Align_dvd ptr alignment hp ha
  have hle : ptr ≤ Align ptr alignment := by
    rw [Align_eq ptr alignment hp ha]
    split_ifs <;> omega
  have hlt : Align ptr alignment < ptr + alignment := by
    rw [Align_eq ptr alignment hp ha]
    split_ifs with h
    · omega
    · have : 0 < ptr % alignment := lt_of_le_of_ne hm0 (Ne.symm h)
      omega
  refine ⟨hdvd, hle, hlt, ?_, ?_⟩
  · intro k hk hpk
    obtain ⟨j, rfl⟩ := hk
    obtain ⟨i, hi⟩ := hdvd
    rw [hi] at hlt ⊢
    by_contra hcon
    have hji : j < i := by
      by_contra hji
      have : alignment * i ≤ alignment * j := Int.mul_le_mul_of_nonneg_left (not_lt.1 hji) (le_of_lt ha)
      exact hcon this
    have h1 : j + 1 ≤ i := hji
    have h2 : alignment * (j + 1) ≤ alignment * i :=
      Int.mul_le_mul_of_nonneg_left h1 (le_of_lt ha)
    have h3 : alignment * (j + 1) = alignment * j + alignment := by ring
    omega
  · have hp2 : 0 ≤ Align ptr alignment := le_trans hp hle
    rw [Align_eq (Align ptr alignment) alignment hp2 ha]
    rw [if_pos (Int.emod_eq_zero_of_dvd hdvd)]

/-- C30, at 13 and 8: the result is 16. -/
theorem Align_least_multiple_witness :
    Align 13 8 = 16 ∧ (8 : Int) ∣ Align 13 8 ∧ Align (Align 13 8) 8 = Align 13 8 :=
  ⟨by decide, (Align_least_multiple 13 8 (by decide) (by decide)).1,
    (Align_least_multiple 13 8 (by decide) (by decide)).2.2.2.2⟩

end GameEngine

/-! ## The env-map slot allocator (RenderContext.h, lines 160-170) -/

namespace GameEngine

namespace RendererSharedResource

theorem AllocEnvMap_ptr_bounds (M : Int) (sr : RendererSharedResource)
    (h : 0 ≤ sr.envMapAllocPtr ∧ sr.envMapAllocPtr ≤ M) :
    0 ≤ (sr.AllocEnvMap M).2.envMapAllocPtr ∧ (sr.AllocEnvMap M).2.envMapAllocPtr ≤ M := by
  unfold AllocEnvMap
  split_ifs with hlt
  · simp only
    omega
  · exact h

theorem runEnvMapOps_ptr_bounds (M : Int) (hM : 0 ≤ M) (ops : List EnvMapOp) :
    ∀ sr : RendererSharedResource, (0 ≤ sr.envMapAllocPtr ∧ sr.envMapAllocPtr ≤ M) →
      0 ≤ (sr.runEnvMapOps M ops).envMapAllocPtr ∧ (sr.runEnvMapOps M ops).envMapAllocPtr ≤ M := by
  induction ops with
  | nil => intro sr h; exact h
  | cons op rest ih =>
    intro sr h
    cases op with
    | AllocEnvMap =>
      simp only [runEnvMapOps]
      exact ih _ (AllocEnvMap_ptr_bounds M sr h)
    | ResetEnvMapAllocation =>
      simp only [runEnvMapOps]
      exact ih _ ⟨le_refl _, hM⟩

theorem runEnvMapOps_append (M : Int) (ops more : List EnvMapOp) :
    ∀ sr : RendererSharedResource,
      sr.runEnvMapOps M (ops ++ more) = (sr.runEnvMapOps M ops).runEnvMapOps M more := by
  induction ops with
  | nil => intro sr; rfl
  | cons op rest ih =>
    intro sr
    cases op <;> simp only [List.cons_append, runEnvMapOps] <;> exact ih _

theorem runEnvMapOps_reset_ptr (M : Int) (ops : List EnvMapOp) (sr : RendererSharedResource) :
    (sr.runEnvMapOps M (ops ++ [EnvMapOp.ResetEnvMapAllocation])).envMapAllocPtr = 0 := by
  rw [runEnvMapOps_append]
  rfl

theorem allocMany_ids (M : Int) (n : Nat) :
    ∀ (sr : RendererSharedResource) (p : Int), sr.envMapAllocPtr = p →
      (sr.allocMany M n).1 = (List.range n).map (fun (k : Nat) => idAt M (p + (k : Int))) := by
  induction n with
  | zero => intro sr p _; rfl
  | succ n ih =>
    intro sr p hp
    subst hp
    rw [List.range_succ_eq_map, List.map_cons, List.map_map]
    simp only [allocMany]
    by_cases hlt : sr.envMapAllocPtr < M
    · have h1 : (sr.AllocEnvMap M).1 = sr.envMapAllocPtr := by simp [AllocEnvMap, hlt]
      have h2 : (sr.AllocEnvMap M).2.envMapAllocPtr = sr.envMapAllocPtr + 1 := by
        simp [AllocEnvMap, hlt]
      rw [h1, ih _ (sr.envMapAllocPtr + 1) h2]
      have e0 : idAt M (sr.envMapAllocPtr + ((0 : Nat) : Int)) = sr.envMapAllocPtr := by
        simp [idAt, hlt]
      rw [e0]
      congr 1
      apply List.map_congr_left
      intro k _
      simp only [Function.comp, Nat.succ_eq_add_one, Nat.cast_add, Nat.cast_one]
      congr 1
      ring
    · have h1 : (sr.AllocEnvMap M).1 = -1 := by simp [AllocEnvMap, hlt]
      have h2 : (sr.AllocEnvMap M).2 = sr := by simp [AllocEnvMap, hlt]
      rw [h1, h2, ih sr _ rfl]
      have e0 : idAt M (sr.envMapAllocPtr + ((0 : Nat) : Int)) = -1 := by
        simp [idAt, hlt]
      rw [e0]
      congr 1
      apply List.map_congr_left
      intro k _
      have hk : (0 : Int) ≤ (k : Int) := Int.ofNat_nonneg k
      simp only [Function.comp, Nat.succ_eq_add_one, Nat.cast_add, Nat.cast_one, idAt]
      rw [if_neg (by omega), if_neg (by omega)]

theorem idAt_filter_nodup (M : Int) (n : Nat) :
    (((List.range n).map (fun (k : Nat) => idAt M (0 + (k : Int)))).filter (fun i => i ≠ -1)).Nodup := by
  rw [List.filter_map]
  apply List.Nodup.map_on
  · intro a ha b hb hab
    simp only [List.mem_filter, Function.comp, idAt, zero_add, ne_eq, decide_not,
      Bool.not_eq_eq_eq_not, Bool.not_true, decide_eq_false_iff_not, Decidable.not_not] at ha hb
    have ha2 := ha.2
    have hb2 := hb.2
    simp only [idAt, zero_add] at hab
    by_cases h1 : (a : Int) < M
    · by_cases h2 : (b : Int) < M
      · rw [if_pos h1, if_pos h2] at hab
        exact_mod_cast hab
      · rw [if_neg h2] at hb2
        exact absurd rfl hb2
    · rw [if_neg h1] at ha2
      exact absurd rfl ha2
  · exact (List.nodup_range n).filter _

/-- C26. For a maximum `MaxEnvMapCount ≥ 0` and an allocator whose pointer
starts at 0: after any sequence of `AllocEnvMap` and `ResetEnvMapAllocation`
calls the pointer lies in `[0, MaxEnvMapCount]`; the allocations made since
the start or since a reset return, in call order, `k - 1` for the `k`-th call
when `k ≤ MaxEnvMapCount` and `-1` otherwise; an allocation that returns `-1`
leaves the allocator unchanged; and the ids other than `-1` returned since a
reset are pairwise distinct. -/
theorem AllocEnvMap_slots (MaxEnvMapCount : Int) (hM : 0 ≤ MaxEnvMapCount)
    (sr : RendererSharedResource) (h0 : sr.envMapAllocPtr = 0) :
    (∀ ops, 0 ≤ (sr.runEnvMapOps MaxEnvMapCount ops).envMapAllocPtr ∧
      (sr.runEnvMapOps MaxEnvMapCount ops).envMapAllocPtr ≤ MaxEnvMapCount) ∧
    (∀ n, (sr.allocMany MaxEnvMapCount n).1
      = (List.range n).map (fun (k : Nat) => if (k : Int) < MaxEnvMapCount then (k : Int) else -1)) ∧
    (∀ ops n,
      ((sr.runEnvMapOps MaxEnvMapCount (ops ++ [EnvMapOp.ResetEnvMapAllocation])).allocMany
          MaxEnvMapCount n).1
        = (List.range n).map (fun (k : Nat) => if (k : Int) < MaxEnvMapCount then (k : Int) else -1)) ∧
    (∀ ops,
      ((sr.runEnvMapOps MaxEnvMapCount ops).AllocEnvMap MaxEnvMapCount).1 = -1 →
      ((sr.runEnvMapOps MaxEnvMapCount ops).AllocEnvMap MaxEnvMapCount).2
        = sr.runEnvMapOps MaxEnvMapCount ops) ∧
    (∀ ops n,
      (((sr.runEnvMapOps MaxEnvMapCount (ops ++ [EnvMapOp.ResetEnvMapAllocation])).allocMany
          MaxEnvMapCount n).1.filter (fun i => i ≠ -1)).Nodup) := by
  have hb : ∀ ops, 0 ≤ (sr.runEnvMapOps MaxEnvMapCount ops).envMapAllocPtr ∧
      (sr.runEnvMapOps MaxEnvMapCount ops).envMapAllocPtr ≤ MaxEnvMapCount := fun ops =>
    runEnvMapOps_ptr_bounds MaxEnvMapCount hM ops sr ⟨by omega, by omega⟩
  have hid : ∀ (s : RendererSharedResource) (n : Nat), s.envMapAllocPtr = 0 →
      (s.allocMany MaxEnvMapCount n).1
        = (List.range n).map (fun (k : Nat) => if (k : Int) < MaxEnvMapCount then (k : Int) else -1) := by
    intro s n hs
    rw [allocMany_ids MaxEnvMapCount n s 0 hs]
    apply List.map_congr_left
    intro k _
    simp [idAt]
  refine ⟨hb, fun n => hid sr n h0, fun ops n => hid _ n (runEnvMapOps_reset_ptr _ ops sr), ?_, ?_⟩
  · intro ops h
    have hp := (hb ops).1
    unfold AllocEnvMap at h ⊢
    split_ifs at h ⊢ with hlt
    · simp only at h
      omega
    · rfl
  · intro ops n
    rw [allocMany_ids MaxEnvMapCount n _ 0 (runEnvMapOps_reset_ptr _ ops sr)]
    exact idAt_filter_nodup MaxEnvMapCount n

/-- C26, with two slots: four allocations return 0, 1, -1, -1, and after a
reset the next three return 0, 1, -1. -/
theorem AllocEnvMap_slots_witness :
    (({} : RendererSharedResource).allocMany 2 4).1 = [0, 1, -1, -1] ∧
    ((({} : RendererSharedResource).runEnvMapOps 2
        ([EnvMapOp.AllocEnvMap, EnvMapOp.AllocEnvMap, EnvMapOp.AllocEnvMap]
          ++ [EnvMapOp.ResetEnvMapAllocation])).allocMany 2 3).1 = [0, 1, -1] :=
  ⟨((AllocEnvMap_slots 2 (by decide) {} rfl).2.1 4).trans (by decide),
   ((AllocEnvMap_slots 2 (by decide) {} rfl).2.2.1
      [EnvMapOp.AllocEnvMap, EnvMapOp.AllocEnvMap, EnvMapOp.AllocEnvMap] 3).trans (by decide)⟩

end RendererSharedResource

end GameEngine

/-! ## The passes of a frame (StandardRenderProcedure.cpp, lines 120-295) -/

namespace GameEngine

namespace StandardRenderProcedure

theorem walk_spec (actors : List Actor) :
    ∀ p : StandardRenderProcedure,
      (Run.walk actors p).directionalLights = p.directionalLights ++ directionalLightsOf actors ∧
      (Run.walk actors p).useAtmosphere = (p.useAtmosphere || hasAtmosphere actors) ∧
      (Run.walk actors p).deferred = p.deferred ∧
      (Run.walk actors p).lightingData = p.lightingData := by
  induction actors with
  | nil => intro p; simp [Run.walk, directionalLightsOf, hasAtmosphere]
  | cons a rest ih =>
    intro p
    simp only [Run.walk]
    by_cases h1 : a.engineType = EngineActorType.Light
    · by_cases h2 : a.lightType = LightType.Directional
      · simp only [h1, h2, if_true]
        obtain ⟨i1, i2, i3, i4⟩ := ih { p with directionalLights := p.directionalLights ++ [a] }
        refine ⟨?_, ?_, i3, i4⟩
        · rw [i1]
          simp [directionalLightsOf, h1, h2]
        · rw [i2]
          simp [hasAtmosphere, h1]
      · simp only [h1, h2, if_true, if_false]
        obtain ⟨i1, i2, i3, i4⟩ := ih p
        refine ⟨?_, ?_, i3, i4⟩
        · rw [i1]
          simp [directionalLightsOf, h1, h2]
        · rw [i2]
          simp [hasAtmosphere, h1]
    · by_cases h3 : a.engineType = EngineActorType.Atmosphere
      · simp only [h3, if_true]
        have hne : ¬ (EngineActorType.Atmosphere = EngineActorType.Light) := by decide
        simp only [hne, if_false]
        obtain ⟨i1, i2, i3, i4⟩ := ih { p with useAtmosphere := true }
        refine ⟨?_, ?_, i3, i4⟩
        · rw [i1]
          simp [directionalLightsOf, h3]
        · rw [i2]
          simp [hasAtmosphere, h3]
      · simp only [h1, h3, if_false]
        obtain ⟨i1, i2, i3, i4⟩ := ih p
        refine ⟨?_, ?_, i3, i4⟩
        · rw [i1]
          simp [directionalLightsOf, h1]
        · rw [i2]
          simp [hasAtmosphere, h3]

theorem cascade_fold (start : Int) (n : Nat) (e : LightUniforms) (rp : List RenderPassInstance) :
    (List.range n).foldl (Run.cascade start) (e, rp)
      = ({ e with cascadesWritten :=
            e.cascadesWritten ++ (List.range n).map (fun (i : Nat) => (i : Int)) },
         rp ++ (List.range n).map
            (fun (i : Nat) => RenderPassInstance.shadow ((i : Int) + start))) := by
  induction n with
  | zero => simp
  | succ n ih =>
    rw [List.range_succ, List.foldl_append, ih]
    simp [Run.cascade]

theorem light_spec {σ : Type} (c : StandardConstants) (sm : ShadowMapCalls σ)
    (st : σ × List LightUniforms × List RenderPassInstance) (l : Actor) :
    Run.light c sm st l
      = ((if shadowsServiced c l then (sm.AllocShadowMaps st.1 l.NumShadowCascades).2 else st.1),
         st.2.1 ++ [lightEntry c l (sm.AllocShadowMaps st.1 l.NumShadowCascades).1],
         st.2.2 ++ shadowPassesOf (lightEntry c l (sm.AllocShadowMaps st.1 l.NumShadowCascades).1)) := by
  unfold Run.light
  by_cases hg : l.EnableCascadedShadows = true ∧ l.NumShadowCascades > 0
      ∧ l.NumShadowCascades ≤ c.MaxShadowCascades
  · have hs : shadowsServiced c l = true := by
      simp [shadowsServiced, hg.1, hg.2.1, hg.2.2]
    simp only [hg, and_self, if_true, hs]
    by_cases hid : (sm.AllocShadowMaps st.1 l.NumShadowCascades).1 = -1
    · simp [hid, lightEntry, hs, shadowPassesOf, hg.1]
    · simp only [ne_eq, hid, not_false_eq_true, if_true]
      rw [cascade_fold]
      simp [lightEntry, hs, hid, shadowPassesOf, hg.1]
  · have hs : shadowsServiced c l = false := by
      simp only [shadowsServiced, Bool.and_eq_false_imp, Bool.and_eq_true, decide_eq_true_eq,
        decide_eq_false_iff_not]
      intro h
      exact fun h2 => hg ⟨h.1, h.2, h2⟩
    rw [if_neg hg]
    simp [hs, lightEntry, shadowPassesOf]

theorem lights_spec {σ : Type} (c : StandardConstants) (sm : ShadowMapCalls σ)
    (lights : List Actor) :
    ∀ (r : σ) (ld : List LightUniforms) (rp : List RenderPassInstance),
      ((lights.foldl (Run.light c sm) (r, ld, rp)).2.1 = ld ++ lightEntries c sm r lights) ∧
      ((lights.foldl (Run.light c sm) (r, ld, rp)).2.2
        = rp ++ (lightEntries c sm r lights).flatMap shadowPassesOf) := by
  induction lights with
  | nil => intro r ld rp; simp [lightEntries, lightAllocs]
  | cons l rest ih =>
    intro r ld rp
    rw [List.foldl_cons, light_spec]
    by_cases hs : shadowsServiced c l = true
    · simp only [hs, if_true]
      obtain ⟨i1, i2⟩ := ih (sm.AllocShadowMaps r l.NumShadowCascades).2
        (ld ++ [lightEntry c l (sm.AllocShadowMaps r l.NumShadowCascades).1])
        (rp ++ shadowPassesOf (lightEntry c l (sm.AllocShadowMaps r l.NumShadowCascades).1))
      rw [i1, i2]
      simp [lightEntries, lightAllocs, hs]
    · have hs2 : shadowsServiced c l = false := by simpa using hs
      simp only [hs2, Bool.false_eq_true, if_false]
      obtain ⟨i1, i2⟩ := ih r
        (ld ++ [lightEntry c l (sm.AllocShadowMaps r l.NumShadowCascades).1])
        (rp ++ shadowPassesOf (lightEntry c l (sm.AllocShadowMaps r l.NumShadowCascades).1))
      rw [i1, i2]
      simp [lightEntries, lightAllocs, hs2, lightEntry]

theorem lightAllocs_length {σ : Type} (c : StandardConstants) (sm : ShadowMapCalls σ)
    (lights : List Actor) :
    ∀ r : σ, (lightAllocs c sm r lights).length = lights.length := by
  induction lights with
  | nil => intro r; rfl
  | cons l rest ih =>
    intro r
    unfold lightAllocs
    split_ifs <;> simp [ih]

/-- The state and the lists that one `Run` leaves behind. -/
theorem Run_eq {σ : Type} (c : StandardConstants) (sm : ShadowMapCalls σ)
    (p : StandardRenderProcedure) (renderPasses : List RenderPassInstance)
    (postPasses : List PostRenderPass) (params : RenderProcedureParameters σ) :
    (Run c sm p renderPasses postPasses params).proc.lightingData = frameEntries c sm params ∧
    (Run c sm p renderPasses postPasses params).proc.deferred = p.deferred ∧
    (Run c sm p renderPasses postPasses params).proc.useAtmosphere
      = (p.useAtmosphere || hasAtmosphere params.Actors) ∧
    (Run c sm p renderPasses postPasses params).renderPasses
      = renderPasses ++ (frameEntries c sm params).flatMap shadowPassesOf
        ++ [if p.deferred then RenderPassInstance.gBuffer else RenderPassInstance.forwardBase] ∧
    (Run c sm p renderPasses postPasses params).postPasses
      = postPasses ++ (if p.deferred then [PostRenderPass.deferredLighting] else [])
        ++ (if (p.useAtmosphere || hasAtmosphere params.Actors) then [PostRenderPass.atmosphere]
            else []) ∧
    (Run c sm p renderPasses postPasses params).uploadSize
      = min (c.sizeofLightUniforms * ((frameEntries c sm params).length : Int))
          c.MaxLightBufferSize := by
  obtain ⟨w1, w2, w3, w4⟩ := walk_spec params.Actors
    { p with lightingData := [], directionalLights := [] }
  simp only [List.nil_append] at w1
  simp only [] at w2 w3 w4
  unfold Run frameEntries
  simp only []
  cases hc : params.cameras.head? with
  | none =>
    simp only [w2, w3, w4]
    refine ⟨trivial, trivial, trivial, ?_, ?_, trivial⟩
    · split_ifs <;> simp
    · split_ifs <;> simp
  | some cam =>
    obtain ⟨f1, f2⟩ := lights_spec c sm (directionalLightsOf params.Actors)
      (sm.Reset params.shadowMapResources) [] renderPasses
    simp only [w1, w2, w3, w4, f1, f2, List.nil_append]
    refine ⟨trivial, trivial, trivial, ?_, ?_, trivial⟩
    · split_ifs <;> simp
    · split_ifs <;> simp

theorem lightEntries_mem {σ : Type} (c : StandardConstants) (sm : ShadowMapCalls σ)
    (lights : List Actor) :
    ∀ (r : σ) (e : LightUniforms), e ∈ lightEntries c sm r lights →
      ∃ l ∈ lights, ∃ id, e = lightEntry c l id := by
  induction lights with
  | nil => intro r e h; simp [lightEntries, lightAllocs] at h
  | cons l rest ih =>
    intro r e h
    unfold lightEntries lightAllocs at h
    split_ifs at h with hs
    · simp only [List.zipWith_cons_cons, List.mem_cons] at h
      rcases h with h | h
      · exact ⟨l, List.mem_cons_self _ _, _, h⟩
      · obtain ⟨l2, hl2, id, hid⟩ := ih _ e h
        exact ⟨l2, List.mem_cons_of_mem _ hl2, id, hid⟩
    · simp only [List.zipWith_cons_cons, List.mem_cons] at h
      rcases h with h | h
      · exact ⟨l, List.mem_cons_self _ _, _, h⟩
      · obtain ⟨l2, hl2, id, hid⟩ := ih _ e h
        exact ⟨l2, List.mem_cons_of_mem _ hl2, id, hid⟩

theorem lightEntries_map {σ : Type} (c : StandardConstants) (sm : ShadowMapCalls σ)
    (lights : List Actor) :
    ∀ r : σ, (lightEntries c sm r lights).map
        (fun e => (e.lightColor, e.lightDir, e.numCascades))
      = lights.map (fun l => (l.Color, l.Direction,
          if l.EnableCascadedShadows then l.NumShadowCascades else 0)) := by
  induction lights with
  | nil => intro r; rfl
  | cons l rest ih =>
    intro r
    unfold lightEntries lightAllocs
    split_ifs with hs
    · simp only [List.zipWith_cons_cons, List.map_cons]
      exact congrArg₂ _ rfl (ih _)
    · simp only [List.zipWith_cons_cons, List.map_cons]
      exact congrArg₂ _ rfl (ih _)

theorem lightEntries_length {σ : Type} (c : StandardConstants) (sm : ShadowMapCalls σ)
    (lights : List Actor) (r : σ) : (lightEntries c sm r lights).length = lights.length := by
  have h := congrArg List.length (lightEntries_map c sm lights r)
  simpa using h

theorem lightEntry_props (c : StandardConstants) (l : Actor) (id : Int) :
    (∀ i ∈ (lightEntry c l id).cascadesWritten, 0 ≤ i ∧ i < c.MaxShadowCascades) ∧
    ((lightEntry c l id).shadowMapId ≠ -1 →
      0 < (lightEntry c l id).numCascades ∧
      (lightEntry c l id).numCascades ≤ c.MaxShadowCascades) ∧
    (lightEntry c l id).cascadesWritten.length = (shadowPassesOf (lightEntry c l id)).length ∧
    ((lightEntry c l id).shadowMapId = -1 →
      shadowPassesOf (lightEntry c l id) = [] ∧ (lightEntry c l id).cascadesWritten = []) := by
  by_cases hs : shadowsServiced c l = true
  · have hs2 := hs
    simp only [shadowsServiced, Bool.and_eq_true, decide_eq_true_eq] at hs2
    obtain ⟨⟨h1, h2⟩, h3⟩ := hs2
    by_cases hid : id = -1
    · subst hid
      simp [lightEntry, hs, shadowPassesOf]
    · refine ⟨?_, ?_, ?_, ?_⟩
      · intro i hi
        simp only [lightEntry, hs, hid, ne_eq, not_false_eq_true, decide_True, Bool.and_self,
          if_true, List.mem_map, List.mem_range] at hi
        obtain ⟨k, hk, rfl⟩ := hi
        omega
      · intro _
        simp only [lightEntry, h1, if_true]
        exact ⟨h2, h3⟩
      · simp [lightEntry, hs, hid, shadowPassesOf, h1]
      · intro h
        simp [lightEntry, hs] at h
        exact absurd h hid
  · have hs2 : shadowsServiced c l = false := by simpa using hs
    simp [lightEntry, hs2, shadowPassesOf]

theorem shadowPassesOf_isShadow (es : List LightUniforms) :
    ∀ q ∈ es.flatMap shadowPassesOf, q.isShadow = true := by
  intro q hq
  simp only [List.mem_flatMap] at hq
  obtain ⟨e, -, he⟩ := hq
  unfold shadowPassesOf at he
  split_ifs at he
  · simp at he
  · simp only [List.mem_map, List.mem_range] at he
    obtain ⟨i, -, rfl⟩ := he
    rfl

theorem frameEntries_of_camera {σ : Type} (c : StandardConstants) (sm : ShadowMapCalls σ)
    (params : RenderProcedureParameters σ) (h : params.cameras ≠ []) :
    frameEntries c sm params
      = lightEntries c sm (sm.Reset params.shadowMapResources)
          (directionalLightsOf params.Actors) := by
  unfold frameEntries
  cases hc : params.cameras with
  | nil => exact absurd hc h
  | cons cam rest => rfl

/-- C12. Whatever the procedure state, the allocator and the frame, the
render-pass instances that `Run` appends are some instances of the shadow pass
followed by one base instance, which comes last: `gBufferInstance` if the
procedure is deferred and `forwardBaseInstance` if not. -/
theorem Run_base_pass_last {σ : Type} (c : StandardConstants) (sm : ShadowMapCalls σ)
    (p : StandardRenderProcedure) (renderPasses : List RenderPassInstance)
    (postPasses : List PostRenderPass) (params : RenderProcedureParameters σ) :
    ∃ shadows : List RenderPassInstance,
      (∀ q ∈ shadows, q.isShadow = true) ∧
      (Run c sm p renderPasses postPasses params).renderPasses
        = renderPasses ++ shadows
          ++ [if p.deferred then RenderPassInstance.gBuffer else RenderPassInstance.forwardBase] ∧
      (if p.deferred then RenderPassInstance.gBuffer
        else RenderPassInstance.forwardBase).isShadow = false := by
  refine ⟨(frameEntries c sm params).flatMap shadowPassesOf, shadowPassesOf_isShadow _,
    (Run_eq c sm p renderPasses postPasses params).2.2.2.1, ?_⟩
  split_ifs <;> rfl

/-- C21, evaluated on the code. The post passes `Run` appends are the
deferred-lighting pass if the procedure is deferred, followed by the
atmosphere pass if the level of this frame has an atmosphere actor or
`useAtmosphere` was already set when `Run` began; `Run` never clears
`useAtmosphere`. In the sample, a frame with an atmosphere actor followed by a
frame without one queues the atmosphere pass in the second frame too. -/
theorem Run_atmosphere_flag_sticks :
    (∀ (c : StandardConstants) (sm : ShadowMapCalls ShadowMapResource)
      (p : StandardRenderProcedure) (renderPasses : List RenderPassInstance)
      (postPasses : List PostRenderPass) (params : RenderProcedureParameters ShadowMapResource),
      (Run c sm p renderPasses postPasses params).postPasses
        = postPasses ++ (if p.deferred then [PostRenderPass.deferredLighting] else [])
          ++ (if (p.useAtmosphere || hasAtmosphere params.Actors) then
                [PostRenderPass.atmosphere] else []) ∧
      (Run c sm p renderPasses postPasses params).proc.useAtmosphere
        = (p.useAtmosphere || hasAtmosphere params.Actors)) ∧
    hasAtmosphere Sample.indoor.Actors = false ∧
    (Run Sample.constants ShadowMapResource.calls
      (Run Sample.constants ShadowMapResource.calls Sample.forward [] [] Sample.outdoor).proc
      [] [] Sample.indoor).postPasses = [PostRenderPass.atmosphere] := by
  refine ⟨fun c sm p rp pp params => ⟨(Run_eq c sm p rp pp params).2.2.2.2.1,
    (Run_eq c sm p rp pp params).2.2.1⟩, by decide, ?_⟩
  rw [(Run_eq _ _ _ _ _ _).2.2.2.2.1, (Run_eq _ _ _ _ _ _).2.2.1, (Run_eq _ _ _ _ _ _).2.1]
  decide

/-- C23. When a camera exists, the lighting data of the frame has one entry per
directional light of the level, in the order of the actor walk, with the
colour, the direction and `numCascades` of that light, whatever the allocator
returns; the shadow passes of the frame are those of the entries; and an
entry whose `shadowMapId` is `-1`, as it is for a light whose allocation
returns `-1`, has no shadow pass and no cascade written. -/
theorem Run_lighting_entries {σ : Type} (c : StandardConstants) (sm : ShadowMapCalls σ)
    (p : StandardRenderProcedure) (renderPasses : List RenderPassInstance)
    (postPasses : List PostRenderPass) (params : RenderProcedureParameters σ)
    (hcam : params.cameras ≠ []) :
    (Run c sm p renderPasses postPasses params).proc.lightingData
      = lightEntries c sm (sm.Reset params.shadowMapResources)
          (directionalLightsOf params.Actors) ∧
    (Run c sm p renderPasses postPasses params).proc.lightingData.length
      = (directionalLightsOf params.Actors).length ∧
    (Run c sm p renderPasses postPasses params).proc.lightingData.map
        (fun e => (e.lightColor, e.lightDir, e.numCascades))
      = (directionalLightsOf params.Actors).map (fun l => (l.Color, l.Direction,
          if l.EnableCascadedShadows then l.NumShadowCascades else 0)) ∧
    (Run c sm p renderPasses postPasses params).renderPasses
      = renderPasses
        ++ (Run c sm p renderPasses postPasses params).proc.lightingData.flatMap shadowPassesOf
        ++ [if p.deferred then RenderPassInstance.gBuffer else RenderPassInstance.forwardBase] ∧
    (∀ e ∈ (Run c sm p renderPasses postPasses params).proc.lightingData,
      e.shadowMapId = -1 → shadowPassesOf e = [] ∧ e.cascadesWritten = []) ∧
    (∀ l : Actor, lightEntry c l (-1)
      = { lightDir := l.Direction, lightColor := l.Color,
          numCascades := if l.EnableCascadedShadows then l.NumShadowCascades else 0,
          shadowMapId := -1, cascadesWritten := [] }) := by
  obtain ⟨h1, -, -, h4, -, -⟩ := Run_eq c sm p renderPasses postPasses params
  rw [frameEntries_of_camera c sm params hcam] at h1
  refine ⟨h1, ?_, ?_, ?_, ?_, ?_⟩
  · rw [h1, lightEntries_length]
  · rw [h1, lightEntries_map]
  · rw [h4, frameEntries_of_camera c sm params hcam, h1]
  · intro e he hid
    rw [h1] at he
    obtain ⟨l, -, id, rfl⟩ := lightEntries_mem c sm _ _ e he
    exact (lightEntry_props c l id).2.2.2 hid
  · intro l
    simp [lightEntry]

/-- C23, at the sample: four shadow-map slots, a light with three cascades and
then a light with two. The second allocation returns `-1`; both lights have
their entry, and only the three passes of the first light are recorded. -/
theorem Run_lighting_entries_witness :
    (Run Sample.constants ShadowMapResource.calls Sample.forward [] []
      Sample.outdoor).proc.lightingData.map (fun e => (e.lightColor, e.lightDir, e.numCascades))
      = [(Sample.sun.Color, Sample.sun.Direction, 3),
         (Sample.moon.Color, Sample.moon.Direction, 2)] ∧
    (Run Sample.constants ShadowMapResource.calls Sample.forward [] []
      Sample.outdoor).proc.lightingData.map (fun e => e.shadowMapId) = [0, -1] ∧
    (Run Sample.constants ShadowMapResource.calls Sample.forward [] []
      Sample.outdoor).renderPasses
      = [RenderPassInstance.shadow 0, RenderPassInstance.shadow 1, RenderPassInstance.shadow 2,
         RenderPassInstance.forwardBase] := by
  obtain ⟨h1, -, h3, h4, -, -⟩ := Run_lighting_entries Sample.constants ShadowMapResource.calls
    Sample.forward [] [] Sample.outdoor (by decide)
  refine ⟨h3.trans (by decide), ?_, ?_⟩
  · rw [h1]; decide
  · rw [h4, h1]; decide

/-- C24. The byte count `Run` passes to `lightUniformBuffer->SetData` is the
minimum of `sizeof(LightUniforms)` times the number of lighting-data entries
and `MaxLightBufferSize`; it exceeds neither. -/
theorem Run_upload_size {σ : Type} (c : StandardConstants) (sm : ShadowMapCalls σ)
    (p : StandardRenderProcedure) (renderPasses : List RenderPassInstance)
    (postPasses : List PostRenderPass) (params : RenderProcedureParameters σ) :
    (Run c sm p renderPasses postPasses params).uploadSize
      = min (c.sizeofLightUniforms
          * ((Run c sm p renderPasses postPasses params).proc.lightingData.length : Int))
          c.MaxLightBufferSize ∧
    (Run c sm p renderPasses postPasses params).uploadSize ≤ c.MaxLightBufferSize ∧
    (Run c sm p renderPasses postPasses params).uploadSize
      ≤ c.sizeofLightUniforms
          * ((Run c sm p renderPasses postPasses params).proc.lightingData.length : Int) := by
  obtain ⟨h1, -, -, -, -, h6⟩ := Run_eq c sm p renderPasses postPasses params
  rw [h6, h1]
  exact ⟨rfl, min_le_right _ _, min_le_left _ _⟩

end StandardRenderProcedure

end GameEngine

/-! ## Cascade split distances (StandardRenderProcedure.cpp, lines 230-231) -/

namespace GameEngine

/-- The split distance over the reals, as the formula of lines 230-231 reads. -/
theorem cascadeSplit_real (t zmin zmax : ℝ) (N i : Int) :
    cascadeSplit (1 : ℝ) (fun x y => x ^ y) (fun n => (n : ℝ)) t zmin zmax N i
      = t * zmin * (zmax / zmin) ^ ((((i + 1 : Int) : ℝ)) / (N : ℝ))
        + (1 - t) * (zmin + (((i + 1 : Int) : ℝ)) / (N : ℝ) * (zmax - zmin)) := rfl

/-- C13. Over the reals, for `0 < zmin < zmax`, `N ≥ 1` cascades and a
transition factor `t` in `[0, 1]`, the split distance of lines 230-231 is
strictly increasing in the cascade index; at `t = 1` it is the logarithmic
split `zmin * (zmax / zmin) ^ ((i + 1) / N)` and at `t = 0` the uniform split
`zmin + ((i + 1) / N) * (zmax - zmin)`. -/
theorem cascadeSplit_increasing (t zmin zmax : ℝ) (N : Int)
    (hmin : 0 < zmin) (hmax : zmin < zmax) (hN : 1 ≤ N) (ht0 : 0 ≤ t) (ht1 : t ≤ 1) :
    (∀ i j : Int, i < j →
      cascadeSplit (1 : ℝ) (fun x y => x ^ y) (fun n => (n : ℝ)) t zmin zmax N i
        < cascadeSplit (1 : ℝ) (fun x y => x ^ y) (fun n => (n : ℝ)) t zmin zmax N j) ∧
    (∀ i : Int,
      cascadeSplit (1 : ℝ) (fun x y => x ^ y) (fun n => (n : ℝ)) 1 zmin zmax N i
        = zmin * (zmax / zmin) ^ ((((i + 1 : Int) : ℝ)) / (N : ℝ))) ∧
    (∀ i : Int,
      cascadeSplit (1 : ℝ) (fun x y => x ^ y) (fun n => (n : ℝ)) 0 zmin zmax N i
        = zmin + (((i + 1 : Int) : ℝ)) / (N : ℝ) * (zmax - zmin)) := by
  refine ⟨?_, ?_, ?_⟩
  · intro i j hij
    rw [cascadeSplit_real, cascadeSplit_real]
    have hNr : (0 : ℝ) < (N : ℝ) := by
      have : (0 : Int) < N := by omega
      exact_mod_cast this
    have hx : (((i + 1 : Int) : ℝ)) / (N : ℝ) < (((j + 1 : Int) : ℝ)) / (N : ℝ) := by
      apply div_lt_div_of_pos_right _ hNr
      have : i + 1 < j + 1 := by omega
      exact_mod_cast this
    have hr : 1 < zmax / zmin := by
      rw [one_lt_div hmin]
      exact hmax
    have hA : (zmax / zmin) ^ ((((i + 1 : Int) : ℝ)) / (N : ℝ))
        < (zmax / zmin) ^ ((((j + 1 : Int) : ℝ)) / (N : ℝ)) :=
      (Real.rpow_lt_rpow_left_iff hr).2 hx
    have hd : 0 < zmax - zmin := by linarith
    have hB : zmin + (((i + 1 : Int) : ℝ)) / (N : ℝ) * (zmax - zmin)
        < zmin + (((j + 1 : Int) : ℝ)) / (N : ℝ) * (zmax - zmin) := by
      have := mul_lt_mul_of_pos_right hx hd
      linarith
    have h1t : 0 ≤ 1 - t := by linarith
    rcases eq_or_lt_of_le ht0 with h | h
    · subst h
      simp only [zero_mul, zero_add, sub_zero, one_mul]
      exact hB
    · have hz : 0 < t * zmin := mul_pos h hmin
      have e1 := mul_lt_mul_of_pos_left hA hz
      have e2 := mul_le_mul_of_nonneg_left (le_of_lt hB) h1t
      exact add_lt_add_of_lt_of_le e1 e2
  · intro i
    rw [cascadeSplit_real]
    ring
  · intro i
    rw [cascadeSplit_real]
    ring

/-- C13, for two cascades between 1 and 4 with transition factor 1/2: the
split of cascade 0 is below the split of cascade 1. -/
theorem cascadeSplit_increasing_witness :
    cascadeSplit (1 : ℝ) (fun x y => x ^ y) (fun n => (n : ℝ)) (1 / 2) 1 4 2 0
      < cascadeSplit (1 : ℝ) (fun x y => x ^ y) (fun n => (n : ℝ)) (1 / 2) 1 4 2 1 :=
  (cascadeSplit_increasing (1 / 2) 1 4 2 (by norm_num) (by norm_num) (by norm_num)
    (by norm_num) (by norm_num)).1 0 1 (by norm_num)

end GameEngine

/-! ## The shadow-map allocator (RenderContext.h, lines 112-127) -/

namespace GameEngine

namespace ShadowMapResource

theorem AllocShadowMaps_spec (r : ShadowMapResource) (count : Int) :
    ((r.AllocShadowMaps count).1 = -1 ∧ (r.AllocShadowMaps count).2 = r) ∨
    ∃ i : Nat, (r.AllocShadowMaps count).1 = (i : Int) ∧
      i + count.toNat ≤ r.shadowMapArraySize ∧
      (∀ j : Nat, j < count.toNat → r.shadowMapArrayFreeBits (i + j) = true) ∧
      (r.AllocShadowMaps count).2.shadowMapArrayFreeBits
        = fun k => if i ≤ k ∧ k < i + count.toNat then false else r.shadowMapArrayFreeBits k := by
  unfold AllocShadowMaps
  simp only []
  cases hf : (List.range (r.shadowMapArraySize + 1 - count.toNat)).find?
      (fun i => r.runFree i count.toNat) with
  | none => exact Or.inl ⟨rfl, rfl⟩
  | some i =>
    right
    have h1 := List.find?_some hf
    have h2 := List.mem_of_find?_eq_some hf
    rw [List.mem_range] at h2
    refine ⟨i, rfl, by omega, ?_, rfl⟩
    intro j hj
    simp only [runFree, List.all_eq_true, List.mem_range] at h1
    exact h1 j hj

theorem rel_of_mem_erase {α : Type} [BEq α] [LawfulBEq α] (R : α → α → Prop)
    (hsymm : ∀ a b, R a b → R b a) (l : List α) (x : α) (hp : l.Pairwise R) (hx : x ∈ l) :
    ∀ a ∈ l.erase x, R a x := by
  induction l with
  | nil => simp at hx
  | cons y t ih =>
    intro a ha
    rw [List.pairwise_cons] at hp
    by_cases hyx : y = x
    · subst hyx
      rw [List.erase_cons_head] at ha
      exact hsymm _ _ (hp.1 a ha)
    · rw [List.erase_cons_tail (by simpa using hyx)] at ha
      have hxt : x ∈ t := by
        rcases List.mem_cons.1 hx with h | h
        · exact absurd h.symm hyx
        · exact h
      rcases List.mem_cons.1 ha with h | h
      · subst h
        exact hp.1 x hxt
      · exact ih hp.2 hxt a h

theorem liveInvariant_alloc (r : ShadowMapResource) (live : List (Int × Int)) (count : Int)
    (h : liveInvariant r live) :
    ((r.AllocShadowMaps count).1 ≠ -1 →
      liveInvariant (r.AllocShadowMaps count).2 (((r.AllocShadowMaps count).1, count) :: live)) ∧
    ((r.AllocShadowMaps count).1 = -1 → liveInvariant (r.AllocShadowMaps count).2 live) := by
  obtain ⟨hu, hp⟩ := h
  rcases AllocShadowMaps_spec r count with ⟨h1, h2⟩ | ⟨i, h1, h2, h3, h4⟩
  · refine ⟨fun hne => absurd h1 hne, fun _ => ?_⟩
    rw [h2]
    exact ⟨hu, hp⟩
  · have hi : (0 : Int) ≤ (i : Int) := Int.ofNat_nonneg i
    refine ⟨fun _ => ?_, fun he => ?_⟩
    · rw [h1]
      refine ⟨?_, ?_⟩
      · intro a ha
        rcases List.mem_cons.1 ha with ha | ha
        · subst ha
          refine ⟨hi, ?_⟩
          intro k hk1 hk2
          rw [h4]
          simp only []
          have : i ≤ k ∧ k < i + count.toNat := by omega
          rw [if_pos this]
        · refine ⟨(hu a ha).1, ?_⟩
          intro k hk1 hk2
          rw [h4]
          simp only []
          split_ifs
          · rfl
          · exact (hu a ha).2 k hk1 hk2
      · rw [List.pairwise_cons]
        refine ⟨?_, hp⟩
        intro a ha hov
        obtain ⟨k, k1, k2, k3, k4⟩ := hov
        simp only [] at k1 k2
        obtain ⟨m, rfl⟩ := Int.eq_ofNat_of_zero_le (le_trans hi k1)
        have hused := (hu a ha).2 m k3 k4
        have hfree := h3 (m - i) (by omega)
        have e : i + (m - i) = m := by omega
        rw [e] at hfree
        rw [hfree] at hused
        exact Bool.noConfusion hused
    · rw [h1] at he
      omega

theorem liveInvariant_free (r : ShadowMapResource) (live : List (Int × Int)) (id count : Int)
    (h : liveInvariant r live) (hm : (id, count) ∈ live) :
    liveInvariant (r.FreeShadowMaps id count) (live.erase (id, count)) := by
  obtain ⟨hu, hp⟩ := h
  have hsymm : ∀ a b : Int × Int, ¬ rangesOverlap a b → ¬ rangesOverlap b a := by
    intro a b hab hba
    obtain ⟨k, k1, k2, k3, k4⟩ := hba
    exact hab ⟨k, k3, k4, k1, k2⟩
  have hrel := rel_of_mem_erase (fun a b => ¬ rangesOverlap a b) hsymm live (id, count) hp hm
  refine ⟨?_, hp.sublist (List.erase_sublist _ _)⟩
  intro a ha
  have ha2 := List.mem_of_mem_erase ha
  refine ⟨(hu a ha2).1, ?_⟩
  intro k hk1 hk2
  simp only [FreeShadowMaps]
  split_ifs with hin
  · exact absurd ⟨(k : Int), hk1, hk2, hin.1, hin.2⟩ (hrel a ha)
  · exact (hu a ha2).2 k hk1 hk2

theorem runOps_invariant (ops : List ShadowMapOp) :
    ∀ (r : ShadowMapResource) (live : List (Int × Int)) (r2 : ShadowMapResource)
      (live2 : List (Int × Int)),
      liveInvariant r live → (∀ a ∈ live, a.1 ≠ -1) → r.runOps live ops = some (r2, live2) →
      liveInvariant r2 live2 ∧ (∀ a ∈ live2, a.1 ≠ -1) ∧
      r2.shadowMapArraySize = r.shadowMapArraySize := by
  induction ops with
  | nil =>
    intro r live r2 live2 hi hn h
    simp only [runOps, Option.some.injEq, Prod.mk.injEq] at h
    obtain ⟨rfl, rfl⟩ := h
    exact ⟨hi, hn, rfl⟩
  | cons op rest ih =>
    intro r live r2 live2 hi hn h
    have hsize : ∀ count, (r.AllocShadowMaps count).2.shadowMapArraySize
        = r.shadowMapArraySize := by
      intro count
      unfold AllocShadowMaps
      simp only []
      split <;> rfl
    cases op with
    | AllocShadowMaps count =>
      simp only [runOps] at h
      obtain ⟨a1, a2⟩ := liveInvariant_alloc r live count hi
      split_ifs at h with hne
      · have hn2 : ∀ a ∈ ((r.AllocShadowMaps count).1, count) :: live, a.1 ≠ -1 := by
          intro a ha
          rcases List.mem_cons.1 ha with ha | ha
          · subst ha; exact hne
          · exact hn a ha
        obtain ⟨q1, q2, q3⟩ := ih _ _ r2 live2 (a1 hne) hn2 h
        exact ⟨q1, q2, q3.trans (hsize count)⟩
      · obtain ⟨q1, q2, q3⟩ := ih _ _ r2 live2 (a2 (not_not.1 hne)) hn h
        exact ⟨q1, q2, q3.trans (hsize count)⟩
    | FreeShadowMaps id count =>
      simp only [runOps] at h
      split_ifs at h with hm
      have hn2 : ∀ a ∈ live.erase (id, count), a.1 ≠ -1 :=
        fun a ha => hn a (List.mem_of_mem_erase ha)
      obtain ⟨q1, q2, q3⟩ := ih _ _ r2 live2 (liveInvariant_free r live id count hi hm) hn2 h
      exact ⟨q1, q2, q3⟩

theorem Reset_alloc_all (r : ShadowMapResource) :
    (r.Reset.AllocShadowMaps (r.shadowMapArraySize : Int)).1 = 0 := by
  unfold AllocShadowMaps
  simp only [Reset, Int.toNat_ofNat]
  have e : r.shadowMapArraySize + 1 - r.shadowMapArraySize = 1 := by omega
  rw [e]
  have hf : (List.range 1).find? (fun i =>
      runFree { shadowMapArraySize := r.shadowMapArraySize,
                shadowMapArrayFreeBits := fun _ => true } i r.shadowMapArraySize) = some 0 := by
    simp [List.range_succ, runFree]
  rw [hf]
  rfl

/-- C19. Spec-modelled allocator: over any sequence of `AllocShadowMaps` and
`FreeShadowMaps` calls in which every `FreeShadowMaps(id, count)` releases a
live allocation, starting with no live allocation, the live allocations never
overlap as ranges `[id, id + count)`, none of them has start id `-1`, and the
slots of each are marked used; and after `Reset()`, from any state, an
allocation of the full capacity returns slot 0. -/
theorem AllocShadowMaps_ranges_disjoint (r : ShadowMapResource) (ops : List ShadowMapOp)
    (r2 : ShadowMapResource) (live : List (Int × Int))
    (h : r.runOps [] ops = some (r2, live)) :
    live.Pairwise (fun a b => ¬ rangesOverlap a b) ∧
    (∀ a ∈ live, a.1 ≠ -1 ∧ 0 ≤ a.1 ∧
      ∀ k : Nat, a.1 ≤ (k : Int) → (k : Int) < a.1 + a.2 →
        r2.shadowMapArrayFreeBits k = false) ∧
    (r2.Reset.AllocShadowMaps (r2.shadowMapArraySize : Int)).1 = 0 ∧
    (r.Reset.AllocShadowMaps (r.shadowMapArraySize : Int)).1 = 0 := by
  have h0 : liveInvariant r [] := ⟨by simp, List.Pairwise.nil⟩
  obtain ⟨⟨q1, q2⟩, q3, -⟩ := runOps_invariant ops r [] r2 live h0 (by simp) h
  exact ⟨q2, fun a ha => ⟨q3 a ha, q1 a ha⟩, Reset_alloc_all r2, Reset_alloc_all r⟩

/-- C19, on four slots: allocate 2, allocate 1, free the first, allocate 1.
The live allocations are then `(0, 1)` and `(2, 1)`, which do not overlap. -/
theorem AllocShadowMaps_ranges_disjoint_witness :
    ∃ r2, Sample.shadowMaps.runOps []
        [ShadowMapOp.AllocShadowMaps 2, ShadowMapOp.AllocShadowMaps 1,
         ShadowMapOp.FreeShadowMaps 0 2, ShadowMapOp.AllocShadowMaps 1]
        = some (r2, [(0, 1), (2, 1)]) ∧
      [((0 : Int), (1 : Int)), (2, 1)].Pairwise (fun a b => ¬ rangesOverlap a b) :=
  ⟨_, rfl, (AllocShadowMaps_ranges_disjoint Sample.shadowMaps
    [ShadowMapOp.AllocShadowMaps 2, ShadowMapOp.AllocShadowMaps 1,
     ShadowMapOp.FreeShadowMaps 0 2, ShadowMapOp.AllocShadowMaps 1] _ _ rfl).1⟩

end ShadowMapResource

end GameEngine

/-! ## The atmosphere pass without its data files (AtmospherePostRenderPass.cpp) -/

namespace GameEngine

namespace AtmospherePostRenderPass

/-- C20, evaluated on the code. When one of the three precompute files is not
found, `Create` returns with `isValid = false`, no texture and only the buffer
creation and a `Print`; but nothing reads `isValid`: `SetParameters` still
writes the parameter buffer, and `UpdateRenderAttachments`, when the colour
buffer has a texture, still updates the descriptor set, with null textures at
bindings 3 to 5, and sets the attachment. When all three files are found,
`Create` leaves `isValid` as it was. -/
theorem Create_missing_files (FindFile : String → String) (sizeofParameters : Int)
    (p : AtmospherePostRenderPass)
    (hmissing : (FindFile "Atmosphere/irradiance.raw").length = 0
      ∨ (FindFile "Atmosphere/inscatter.raw").length = 0
      ∨ (FindFile "Atmosphere/transmittance.raw").length = 0) :
    (Create FindFile sizeofParameters p).isValid = false ∧
    (Create FindFile sizeofParameters p).calls
      = p.calls ++ [AtmosphereCall.createBuffer, AtmosphereCall.print] ∧
    (∀ count : Int,
      (SetParameters count (Create FindFile sizeofParameters p)).calls
        = (Create FindFile sizeofParameters p).calls ++ [AtmosphereCall.bufferSetData count]) ∧
    (p.colorBufferTexture = true →
      (UpdateRenderAttachments (Create FindFile sizeofParameters p)).calls
        = (Create FindFile sizeofParameters p).calls ++
          [AtmosphereCall.descriptorBeginUpdate,
           AtmosphereCall.descriptorUpdate 0 true,
           AtmosphereCall.descriptorUpdate 1 true,
           AtmosphereCall.descriptorUpdate 2 true,
           AtmosphereCall.descriptorUpdate 3 p.transmittanceTex,
           AtmosphereCall.descriptorUpdate 4 p.irradianceTex,
           AtmosphereCall.descriptorUpdate 5 p.inscatterTex,
           AtmosphereCall.descriptorUpdate 6 true,
           AtmosphereCall.descriptorUpdate 7 true,
           AtmosphereCall.descriptorEndUpdate,
           AtmosphereCall.setAttachment]) := by
  have hc : Create FindFile sizeofParameters p
      = { p with parameterBuffer := true, isValid := false,
                 calls := p.calls ++ [AtmosphereCall.createBuffer] ++ [AtmosphereCall.print] } := by
    unfold Create
    simp only []
    rw [if_pos hmissing]
  rw [hc]
  refine ⟨rfl, by simp, fun count => rfl, ?_⟩
  intro hcol
  simp [UpdateRenderAttachments, hcol]

/-- C20, at the sample: the irradiance table is missing. After `Create` the
pass is marked invalid, and `SetParameters` followed by
`UpdateRenderAttachments` makes twelve more calls that write GPU state. -/
theorem Create_missing_files_witness :
    (Create Sample.irradianceMissing 64 Sample.atmospherePass).isValid = false ∧
    (((UpdateRenderAttachments
        (SetParameters 64 (Create Sample.irradianceMissing 64 Sample.atmospherePass))).calls.drop
      (Create Sample.irradianceMissing 64 Sample.atmospherePass).calls.length).filter
        (fun c => c.writesGpuState)).length = 12 ∧
    (SetParameters 64 (Create Sample.irradianceMissing 64 Sample.atmospherePass)).calls
      = (Create Sample.irradianceMissing 64 Sample.atmospherePass).calls
        ++ [AtmosphereCall.bufferSetData 64] :=
  ⟨(Create_missing_files Sample.irradianceMissing 64 Sample.atmospherePass
      (Or.inl (by decide))).1,
   by decide,
   (Create_missing_files Sample.irradianceMissing 64 Sample.atmospherePass
      (Or.inl (by decide))).2.2.1 64⟩

end AtmospherePostRenderPass

/-! ## Finding files (Engine.cpp, lines 676-740) -/

theorem String_eq_empty_of_length (s : String) (h : s.length = 0) : s = "" := by
  cases s with
  | mk d =>
    simp only [String.length, List.length_eq_zero] at h
    subst h
    rfl

theorem FindFile_three (fs : FileSystem) (fileName : String) (n : Nat) (type : ResourceType) :
    ∃ r, FindFile (n + 3) fs fileName type = some r ∧ (r = "" ∨ fs.Exists r = true) ∧
      FindFile 3 fs fileName type = some r := by
  cases type <;>
    simp only [FindFile, reduceCtorEq, if_false, or_true, true_or, if_true, or_false, or_self] <;>
    split_ifs <;> (try simp_all) <;>
    (try exact Or.inl (String_eq_empty_of_length _ (by assumption)))

/-- C28. For every file name, resource type and file system, `FindFile`
returns with three levels of recursion, and more fuel does not change the
result; the result is the empty string or a path that exists; a non-empty
`fileName` that exists is returned as it is; and when it does not exist but
the file in the game directory does, that one is returned, whether or not the
engine directory has the file too. -/
theorem FindFile_terminates (fs : FileSystem) (fileName : String) (type : ResourceType) :
    (∀ n : Nat, ∃ r, FindFile (n + 3) fs fileName type = some r ∧
      (r = "" ∨ fs.Exists r = true) ∧ FindFile 3 fs fileName type = some r) ∧
    (fileName.length ≠ 0 → fs.Exists fileName = true →
      ∀ n : Nat, FindFile (n + 1) fs fileName type = some fileName) ∧
    (fileName.length ≠ 0 → fs.Exists fileName = false →
      fs.Exists (fs.Normalize (fs.Combine (GetDirectory fs false type) fileName)) = true →
      ∀ n : Nat, FindFile (n + 1) fs fileName type
        = some (fs.Normalize (fs.Combine (GetDirectory fs false type) fileName))) := by
  refine ⟨fun n => FindFile_three fs fileName n type, ?_, ?_⟩
  · intro h1 h2 n
    simp [FindFile, h1, h2]
  · intro h1 h2 h3 n
    simp [FindFile, h1, h2, h3]

/-- C28, at the sample: a material present in the game and the engine
directory is found in the game directory, also when looked up as a shader. -/
theorem FindFile_terminates_witness :
    FindFile 1 Sample.disk "wood.material" ResourceType.Material
      = some "Game/Materials/wood.material" ∧
    ∃ r, FindFile 3 Sample.disk "wood.material" ResourceType.Shader = some r ∧
      (r = "" ∨ Sample.disk.Exists r = true) :=
  ⟨(FindFile_terminates Sample.disk "wood.material" ResourceType.Material).2.2
      (by decide) (by decide) (by decide) 0,
   ((FindFile_terminates Sample.disk "wood.material" ResourceType.Shader).1 0).imp
      (fun _ h => ⟨h.1, h.2.1⟩)⟩

/-! ## Fields of an animation visualisation actor (AnimationVisualizationActor.cpp) -/

/-- C29, evaluated on the code. `ParseField` returns true exactly when
`Actor::ParseField` handles the field or the upcoming token is `mesh`,
`material`, `Skeleton` or `MotionGraph`. For a `material` given by name, a
`Skeleton` and a `MotionGraph` whose loader returns null it sets `isInvalid`;
for a `mesh` whose loader returns null it clears `isInvalid` instead. So
`ParseActor` returns the actor, not null, when the only field parsed is a mesh
that fails to load, and null when it is a skeleton that fails to load. -/
theorem ParseField_missing_mesh :
    (∀ (inp : FieldInput) (isInvalid : Bool),
      (AnimationVisualizationActor.ParseField inp isInvalid).1
        = ((inp.ActorParseField isInvalid).1 || decide (inp.lookAhead = "mesh")
            || decide (inp.lookAhead = "material") || decide (inp.lookAhead = "Skeleton")
            || decide (inp.lookAhead = "MotionGraph"))) ∧
    (∀ (inp : FieldInput) (isInvalid : Bool),
      (inp.ActorParseField isInvalid).1 = false → inp.loaderReturnsNull = true →
      ((inp.lookAhead = "material" ∧ inp.nextIsBrace = false) ∨ inp.lookAhead = "Skeleton"
        ∨ inp.lookAhead = "MotionGraph") →
      (AnimationVisualizationActor.ParseField inp isInvalid).2 = true) ∧
    (∀ (inp : FieldInput) (isInvalid : Bool),
      (inp.ActorParseField isInvalid).1 = false → inp.loaderReturnsNull = true →
      inp.lookAhead = "mesh" →
      (AnimationVisualizationActor.ParseField inp isInvalid).2 = false) ∧
    AnimationVisualizationActor.ParseField Sample.missingMesh false = (true, false) ∧
    AnimationVisualizationActor.ParseField Sample.missingMesh true = (true, false) ∧
    ParseActor (some 7)
      (fun inv => (AnimationVisualizationActor.ParseField Sample.missingMesh inv).2) = some 7 ∧
    ParseActor (some 7)
      (fun inv => (AnimationVisualizationActor.ParseField Sample.missingSkeleton inv).2)
      = none := by
  refine ⟨?_, ?_, ?_, by decide, by decide, by decide, by decide⟩
  · intro inp isInvalid
    unfold AnimationVisualizationActor.ParseField
    simp only []
    split_ifs <;> simp_all
  · intro inp isInvalid hb hn hk
    unfold AnimationVisualizationActor.ParseField
    simp only [hb, hn, Bool.false_eq_true, if_false, if_true]
    rcases hk with ⟨h1, h2⟩ | h | h
    · simp [h1, h2]
    · simp [h]
    · simp [h]
  · intro inp isInvalid hb hn hk
    unfold AnimationVisualizationActor.ParseField
    simp [hb, hn, hk]

end GameEngine

/-! ## Fence bookkeeping (Engine.cpp, lines 366-389) -/

namespace GameEngine

namespace Engine

theorem submitOne_fences (m : Nat) (w : SystemWindow) (st : SubmitState)
    (h : st.fenceAlloc ≤ st.pool.length) :
    (Tick.submitOne m w st).pool
      = st.pool ++ List.range' st.nextFence ((st.fenceAlloc + 1) - st.pool.length) ∧
    (Tick.submitOne m w st).nextFence
      = st.nextFence + ((st.fenceAlloc + 1) - st.pool.length) ∧
    (Tick.submitOne m w st).sync
      = st.sync ++ [(Tick.submitOne m w st).pool.getD st.fenceAlloc 0] ∧
    (Tick.submitOne m w st).fenceAlloc = st.fenceAlloc + 1 := by
  unfold Tick.submitOne
  by_cases hp : st.pool.length = st.fenceAlloc
  · have e : st.fenceAlloc + 1 - st.pool.length = 1 := by omega
    simp only [hp, if_true]
    rw [hp] at e
    rw [e]
    refine ⟨?_, ?_, ?_, ?_⟩ <;> split_ifs <;> simp [List.range']
  · have e : st.fenceAlloc + 1 - st.pool.length = 0 := by omega
    simp only [hp, if_false]
    rw [e]
    refine ⟨?_, ?_, ?_, ?_⟩ <;> split_ifs <;> simp [List.range']

theorem submit_fences (m : Nat) (ws : List SystemWindow) :
    ∀ st : SubmitState, st.fenceAlloc ≤ st.pool.length →
    (Tick.submit m ws st).pool
      = st.pool ++ List.range' st.nextFence ((st.fenceAlloc + visibleCount ws) - st.pool.length) ∧
    (Tick.submit m ws st).nextFence
      = st.nextFence + ((st.fenceAlloc + visibleCount ws) - st.pool.length) ∧
    (Tick.submit m ws st).sync
      = st.sync ++ ((Tick.submit m ws st).pool.drop st.fenceAlloc).take (visibleCount ws) := by
  induction ws with
  | nil =>
    intro st h
    have e : st.fenceAlloc + visibleCount [] - st.pool.length = 0 := by
      simp only [visibleCount, List.filter_nil, List.length_nil]; omega
    rw [e]
    simp [Tick.submit, visibleCount, List.range']
  | cons w rest ih =>
    intro st h
    rw [visibleCount_cons]
    by_cases hv : w.visible
    · have hs : Tick.submit m (w :: rest) st = Tick.submit m rest (Tick.submitOne m w st) := by
        simp [Tick.submit, hv]
      obtain ⟨p1, n1, s1, f1⟩ := submitOne_fences m w st h
      have hlen1 : (Tick.submitOne m w st).pool.length
          = st.pool.length + ((st.fenceAlloc + 1) - st.pool.length) := by
        rw [p1, List.length_append, List.length_range']
      have hle : (Tick.submitOne m w st).fenceAlloc ≤ (Tick.submitOne m w st).pool.length := by
        rw [f1, hlen1]; omega
      obtain ⟨p2, n2, s2⟩ := ih (Tick.submitOne m w st) hle
      rw [hs]
      simp only [hv, if_true]
      have hk : (Tick.submitOne m w st).fenceAlloc + visibleCount rest
              - (Tick.submitOne m w st).pool.length
          = st.fenceAlloc + (1 + visibleCount rest) - st.pool.length
              - (st.fenceAlloc + 1 - st.pool.length) := by
        rw [f1, hlen1]; omega
      rw [hk] at p2 n2
      have hsum : (st.fenceAlloc + 1 - st.pool.length)
          + (st.fenceAlloc + (1 + visibleCount rest) - st.pool.length
              - (st.fenceAlloc + 1 - st.pool.length))
          = st.fenceAlloc + (1 + visibleCount rest) - st.pool.length := by omega
      have hpool : (Tick.submit m rest (Tick.submitOne m w st)).pool
          = st.pool ++ List.range' st.nextFence
              (st.fenceAlloc + (1 + visibleCount rest) - st.pool.length) := by
        rw [p2, p1, n1, List.append_assoc, List.range'_append_1, Nat.add_comm, hsum]
      refine ⟨hpool, ?_, ?_⟩
      · rw [n2, n1, Nat.add_assoc, hsum]
      · rw [s2, s1, f1]
        have hlt : st.fenceAlloc < (Tick.submit m rest (Tick.submitOne m w st)).pool.length := by
          rw [hpool, List.length_append, List.length_range']; omega
        have hlt1 : st.fenceAlloc < (Tick.submitOne m w st).pool.length := by
          rw [hlen1]; omega
        rw [List.drop_eq_getElem_cons hlt, Nat.add_comm 1 (visibleCount rest), List.take_succ_cons,
          List.append_assoc, List.singleton_append]
        congr 2
        rw [List.getD_eq_getElem _ _ hlt1]
        simp only [p2]
        rw [List.getElem_append_left hlt1]
    · have hs : Tick.submit m (w :: rest) st = Tick.submit m rest st := by
        simp [Tick.submit, hv]
      rw [hs]
      simp only [hv]
      simpa using ih st h

theorem rollStats_nextFence (s : Engine) : (Tick.rollStats s).nextFence = s.nextFence := by
  unfold Tick.rollStats
  simp only []
  split_ifs <;> rfl

theorem getD_set_nil (l : List (List Nat)) (v : Nat) : (l.set v []).getD v [] = [] := by
  by_cases h : v < l.length
  · exact getD_set_self l v [] h
  · have e : (l.set v [])[v]? = none :=
      List.getElem?_eq_none (by rw [List.length_set]; omega)
    simp [List.getD_eq_getElem?_getD, e]

theorem render_fences (K : Nat) (env : EngineEnv) (s : Engine) :
    (Tick.render K env s).1.syncFences
      = (s.syncFences.set (s.frameCounter % K) []).set (s.frameCounter % K)
          (Tick.submit env.mainWindow env.windows
            { pool := s.fencePool.getD (s.frameCounter % K) [], sync := [],
              fenceAlloc := 0, nextFence := s.nextFence, calls := [] }).sync ∧
    (Tick.render K env s).1.fencePool
      = s.fencePool.set (s.frameCounter % K)
          (Tick.submit env.mainWindow env.windows
            { pool := s.fencePool.getD (s.frameCounter % K) [], sync := [],
              fenceAlloc := 0, nextFence := s.nextFence, calls := [] }).pool ∧
    (Tick.render K env s).1.nextFence
      = (Tick.submit env.mainWindow env.windows
            { pool := s.fencePool.getD (s.frameCounter % K) [], sync := [],
              fenceAlloc := 0, nextFence := s.nextFence, calls := [] }).nextFence := by
  unfold Tick.render
  simp only [getD_set_nil]
  exact ⟨(rollStats_frame _).2.1, (rollStats_frame _).1, rollStats_nextFence _⟩

/-- What one `Tick` does to the fences of its slot and of the other slots. -/
theorem Tick_fences_step (K : Nat) (hK : 0 < K) (env : EngineEnv) (s s2 : Engine)
    (calls : List EngineCall) (hp : s.fencePool.length = K) (hs : s.syncFences.length = K)
    (h : Tick K env s = some (s2, calls)) :
    s2.fencePool.length = K ∧ s2.syncFences.length = K ∧
    s2.fencePool.getD (s.frameCounter % K) []
      = s.fencePool.getD (s.frameCounter % K) []
        ++ List.range' s.nextFence
            (visibleCount env.windows - (s.fencePool.getD (s.frameCounter % K) []).length) ∧
    s2.nextFence = s.nextFence
      + (visibleCount env.windows - (s.fencePool.getD (s.frameCounter % K) []).length) ∧
    s2.syncFences.getD (s.frameCounter % K) []
      = (s2.fencePool.getD (s.frameCounter % K) []).take (visibleCount env.windows) ∧
    (∀ u, u ≠ s.frameCounter % K →
      s2.fencePool.getD u [] = s.fencePool.getD u [] ∧
      s2.syncFences.getD u [] = s.syncFences.getD u []) := by
  obtain ⟨s1, pre, hg, he, -⟩ := Tick_eq K env s s2 calls h
  obtain ⟨a1, a2, a3, a4, -⟩ := gameLogic_frame env s s1 pre hg
  obtain ⟨r1, r2, r3⟩ := render_fences K env s1
  obtain ⟨b1, b2, b3⟩ := submit_fences env.mainWindow env.windows
    { pool := s1.fencePool.getD (s1.frameCounter % K) [], sync := [],
      fenceAlloc := 0, nextFence := s1.nextFence, calls := [] } (Nat.zero_le _)
  simp only [List.nil_append, Nat.zero_add, List.drop_zero] at b1 b2 b3
  simp only [a1, a2, a3, a4] at r1 r2 r3 b1 b2 b3
  have hv : s.frameCounter % K < K := Nat.mod_lt _ hK
  have hpool : s2.fencePool.getD (s.frameCounter % K) []
      = s.fencePool.getD (s.frameCounter % K) []
        ++ List.range' s.nextFence
            (visibleCount env.windows - (s.fencePool.getD (s.frameCounter % K) []).length) := by
    rw [he, r2, getD_set_self _ _ _ (by rw [hp]; exact hv), b1]
  refine ⟨?_, ?_, hpool, ?_, ?_, ?_⟩
  · rw [he, r2, List.length_set, hp]
  · rw [he, r1, List.length_set, List.length_set, hs]
  · rw [he, r3, b2]
  · rw [he, r1, getD_set_self _ _ _ (by rw [List.length_set, hs]; exact hv)]
    rw [r2, getD_set_self _ _ _ (by rw [hp]; exact hv)]
    exact b3
  · intro u hu
    constructor
    · rw [he, r2, getD_set_other _ _ _ _ hu]
    · rw [he, r1, getD_set_other _ _ _ _ hu, getD_set_other _ _ _ _ hu]

theorem take_take_length (l : List Nat) (n : Nat) : l.take (l.take n).length = l.take n := by
  rw [List.length_take]
  rcases le_total n l.length with h | h
  · rw [Nat.min_eq_left h]
  · rw [Nat.min_eq_right h, List.take_length, List.take_of_length_le h]

theorem nodup_append_range' (l : List Nat) (n k : Nat) (hn : l.Nodup) (hf : ∀ f ∈ l, f < n) :
    (l ++ List.range' n k).Nodup ∧ ∀ f ∈ l ++ List.range' n k, f < n + k := by
  constructor
  · rw [List.nodup_append]
    refine ⟨hn, List.nodup_range' n k, ?_⟩
    intro a ha hb
    rw [List.mem_range'_1] at hb
    have := hf a ha
    omega
  · intro f hfm
    rcases List.mem_append.1 hfm with h | h
    · have := hf f h
      omega
    · rw [List.mem_range'_1] at h
      exact h.2

theorem fencesWellFormed_step (K : Nat) (hK : 0 < K) (env : EngineEnv) (s s2 : Engine)
    (calls : List EngineCall) (hw : fencesWellFormed K s) (h : Tick K env s = some (s2, calls)) :
    fencesWellFormed K s2 := by
  obtain ⟨hp, hs, hu⟩ := hw
  obtain ⟨t1, t2, t3, t4, t5, t6⟩ := Tick_fences_step K hK env s s2 calls hp hs h
  refine ⟨t1, t2, ?_⟩
  intro u
  by_cases huv : u = s.frameCounter % K
  · subst huv
    obtain ⟨i1, i2, -⟩ := hu (s.frameCounter % K)
    obtain ⟨n1, n2⟩ := nodup_append_range' _ s.nextFence
      (visibleCount env.windows - (s.fencePool.getD (s.frameCounter % K) []).length) i1 i2
    rw [t5, t3, t4]
    exact ⟨n1, n2, (take_take_length _ _).symm⟩
  · obtain ⟨i1, i2, i3⟩ := hu u
    obtain ⟨e1, e2⟩ := t6 u huv
    rw [e1, e2, t4]
    refine ⟨i1, ?_, i3⟩
    intro f hf
    have := i2 f hf
    omega

theorem fencesWellFormed_ticks (K : Nat) (hK : 0 < K) (envs : List EngineEnv) :
    ∀ s s2 : Engine, fencesWellFormed K s → ticks K envs s = some s2 →
      fencesWellFormed K s2 := by
  induction envs with
  | nil =>
    intro s s2 hw h
    simp only [ticks, Option.some.injEq] at h
    subst h
    exact hw
  | cons env rest ih =>
    intro s s2 hw h
    unfold ticks at h
    cases ht : Tick K env s with
    | none => rw [ht] at h; simp at h
    | some r =>
      obtain ⟨s1, calls⟩ := r
      rw [ht] at h
      simp only [] at h
      exact ih s1 s2 (fencesWellFormed_step K hK env s s1 calls hw ht) h

theorem fencesWellFormed_initial (K : Nat) (s : Engine)
    (hp : s.fencePool = List.replicate K []) (hs : s.syncFences = List.replicate K []) :
    fencesWellFormed K s := by
  have e : ∀ u : Nat, (List.replicate K ([] : List Nat)).getD u [] = [] := by
    intro u
    rw [List.getD_eq_getElem?_getD, List.getElem?_replicate]
    split_ifs <;> rfl
  refine ⟨by rw [hp, List.length_replicate], by rw [hs, List.length_replicate], ?_⟩
  intro u
  rw [hp, hs, e u]
  exact ⟨List.nodup_nil, by simp, by simp⟩

/-- C25. Fence bookkeeping of `Tick`, for `K > 0` slots. A `Tick` that uses
slot `v = frameCounter mod K`, on an engine whose two lists have `K` slots,
leaves in `syncFences[v]` the first entries of `fencePool[v]`, in order, one
per visible window; they are pairwise distinct when the pool of the slot had no
fence twice and `CreateFence` returns a fence not yet pooled. Hence in every
state reached by `Tick` calls from empty pools, every slot's `syncFences` is
an initial segment of its `fencePool`: each fence listed is in the pool, the
fences listed are pairwise distinct, and there are no more of them than the
pool has. -/
theorem Tick_fence_bookkeeping (K : Nat) (hK : 0 < K) :
    (∀ (env : EngineEnv) (s s2 : Engine) (calls : List EngineCall),
      s.fencePool.length = K → s.syncFences.length = K →
      (s.fencePool.getD (s.frameCounter % K) []).Nodup →
      (∀ f ∈ s.fencePool.getD (s.frameCounter % K) [], f < s.nextFence) →
      Tick K env s = some (s2, calls) →
      s2.syncFences.getD (s.frameCounter % K) []
        = (s2.fencePool.getD (s.frameCounter % K) []).take (visibleCount env.windows) ∧
      (s2.syncFences.getD (s.frameCounter % K) []).length = visibleCount env.windows ∧
      (s2.syncFences.getD (s.frameCounter % K) []).Nodup) ∧
    (∀ (envs : List EngineEnv) (s s2 : Engine),
      s.fencePool = List.replicate K [] → s.syncFences = List.replicate K [] →
      ticks K envs s = some s2 →
      ∀ u : Nat,
        s2.syncFences.getD u []
          = (s2.fencePool.getD u []).take (s2.syncFences.getD u []).length ∧
        (∀ f ∈ s2.syncFences.getD u [], f ∈ s2.fencePool.getD u []) ∧
        (s2.syncFences.getD u []).length ≤ (s2.fencePool.getD u []).length ∧
        (s2.syncFences.getD u []).Nodup) := by
  constructor
  · intro env s s2 calls hp hs hn hf h
    obtain ⟨-, -, t3, -, t5, -⟩ := Tick_fences_step K hK env s s2 calls hp hs h
    obtain ⟨n1, -⟩ := nodup_append_range' _ s.nextFence
      (visibleCount env.windows - (s.fencePool.getD (s.frameCounter % K) []).length) hn hf
    refine ⟨t5, ?_, ?_⟩
    · rw [t5, List.length_take, t3, List.length_append, List.length_range']
      omega
    · rw [t5, t3]
      exact n1.sublist (List.take_sublist _ _)
  · intro envs s s2 hp hs h u
    obtain ⟨-, -, hu⟩ := fencesWellFormed_ticks K hK envs s s2
      (fencesWellFormed_initial K s hp hs) h
    obtain ⟨i1, -, i3⟩ := hu u
    refine ⟨i3, ?_, ?_, ?_⟩
    · intro f hf
      rw [i3] at hf
      exact List.mem_of_mem_take hf
    · have := congrArg List.length i3
      rw [List.length_take] at this
      omega
    · rw [i3]
      exact i1.sublist (List.take_sublist _ _)

/-- C25, at the sample engine: frame 5 of two slots uses slot 1, whose pool
holds the fence 200, and two windows are visible. After the `Tick`,
`syncFences[1]` holds two distinct fences, the first two of `fencePool[1]`. -/
theorem Tick_fence_bookkeeping_witness :
    ∃ r, Tick 2 Sample.engineEnv Sample.engineOdd = some r ∧
      r.1.syncFences.getD 1 [] = (r.1.fencePool.getD 1 []).take 2 ∧
      (r.1.syncFences.getD 1 []).length = 2 ∧ (r.1.syncFences.getD 1 []).Nodup := by
  obtain ⟨r, hr⟩ := Tick_returns 2 Sample.engineEnv Sample.engineOdd (by decide)
  exact ⟨r, hr, (Tick_fence_bookkeeping 2 (by decide)).1 Sample.engineEnv Sample.engineOdd
    r.1 r.2 (by decide) (by decide) (by decide) (by decide) hr⟩

end Engine

end GameEngine
